import Mathlib

/-!
Verification of `src/proj2.c` (fridex/tickets-example): a POSIX-threads
ticket-lock demonstration.  Worker threads repeatedly draw a ticket from a
mutex-protected counter (`getticket`), wait for their turn on a condition
variable (`await`), print the pair `ticket \t (id)` inside the critical
section, and release the next waiter (`advance`).

The concurrent part is embedded as an interleaving small-step state machine:
one `Act`ion per C statement of `just_do_it` (with `getticket`, `await` and
`advance` inlined), executed by an explicitly chosen thread.  `suspend()`
only sleeps (it touches no shared state), so it adds no transition: every
possible timing it can produce is already covered by the nondeterministic
choice of the action sequence.  Machine integers are modelled as `Nat`;
the single place where signed/unsigned width matters for the claims is the
cast `params[i].loop_count = (int) loop_count` (proj2.c:264), modelled
two's-complement by `intOfU32`.  The argument handling of `main` and
`get_num` is embedded as pure functions over character lists, with the
outcome of `malloc` an explicit oracle parameter.
-/

namespace Proj2

/-- Program counter of a worker thread: one value per statement of
`just_do_it` (proj2.c:199-213) with `getticket` (154-164), `await`
(171-181) and `advance` (186-191) inlined.  Each value names the statement
the thread is about to execute. -/
inductive PC where
  /-- about to call `pthread_mutex_lock(&ticket_mutex)` (line 158) -/
  | loopStart
  /-- holding `ticket_mutex`, about to execute `res = next_ticket` (line 159) -/
  | tickRead
  /-- about to execute `next_ticket++` (line 160) -/
  | tickIncr
  /-- about to execute `pthread_mutex_unlock(&ticket_mutex)` (line 161) -/
  | tickUnlock
  /-- about to evaluate `ticket < param->loop_count` (line 203) -/
  | checkBudget
  /-- inside the loop body, after `suspend()`; about to execute
  `pthread_mutex_lock(&section_mutex)` (line 175) -/
  | sectionLock
  /-- holding `section_mutex`, about to evaluate `aenter != actual_ticket`
  (line 176) -/
  | gateCheck
  /-- turn does not match: about to `pthread_cond_signal(&section_cond)`
  (line 178, the wake-up relay) -/
  | relaySignal
  /-- about to `pthread_cond_wait(&section_cond, &section_mutex)` (line 179):
  atomically release the mutex and join the wait set -/
  | condWait
  /-- blocked in the wait set of `section_cond` -/
  | blocked
  /-- signalled; must re-acquire `section_mutex` before `pthread_cond_wait`
  returns (back to the `while` test, line 176) -/
  | woken
  /-- `await` returned holding `section_mutex`: about to execute
  `printf("%d\t(%d)\n", ticket, param->id)` (line 207) -/
  | inCS
  /-- about to execute `actual_ticket++` (line 188) -/
  | advIncr
  /-- about to execute `pthread_cond_signal(&section_cond)` (line 189) -/
  | advSignal
  /-- about to execute `pthread_mutex_unlock(&section_mutex)` (line 190) -/
  | advUnlock
  /-- `getticket() >= param->loop_count`: the worker returned NULL (line 212) -/
  | done
deriving DecidableEq, Repr

/-- Per-thread state: the `thread_param_t` identity `id` (proj2.c:52,
set to `i + 1` at spawn, line 263) and the local variable `ticket`
(`ticket_t ticket = 0`, line 201). -/
structure ThreadSt where
  id : Nat
  ticket : Nat
  pc : PC
deriving DecidableEq, Repr

/-- Ghost history events recording the observable actions of a run.
`tickDraw t v`: `getticket` returned `v` to thread `t`;
`enterCS t v`: `await v` returned to thread `t` (admission);
`printOut v id`: the line `v \t (id)` was printed (proj2.c:207);
`exitCS t v`: thread `t` finished `advance` for ticket `v` (mutex released).
Stored newest first. -/
inductive Event where
  | tickDraw (t v : Nat)
  | enterCS (t v : Nat)
  | printOut (v id : Nat)
  | exitCS (t v : Nat)
deriving DecidableEq, Repr

/-- Global shared state of the process: the two global counters
(proj2.c:75-83), the two mutexes (59-64) as `Option` holder, the wait set
of `section_cond` (69), the worker threads, and the ghost event history. -/
structure Sys where
  nextTicket : Nat
  actualTicket : Nat
  ticketMutex : Option Nat
  sectionMutex : Option Nat
  waiters : List Nat
  threads : List ThreadSt
  events : List Event
deriving DecidableEq, Repr

/-- A scheduler action: which thread executes its next statement.  The two
`pthread_cond_signal` actions carry the nondeterministic choice of which
blocked thread (if any) the signal wakes. -/
inductive Act where
  | lockTicketMutex (t : Nat)
  | readTicket (t : Nat)
  | incrTicket (t : Nat)
  | unlockTicketMutex (t : Nat)
  | testBudget (t : Nat)
  | lockSectionMutex (t : Nat)
  | testTurn (t : Nat)
  | signalRelay (t : Nat) (w : Option Nat)
  | waitCond (t : Nat)
  | reacquire (t : Nat)
  | printTicket (t : Nat)
  | incrActual (t : Nat)
  | signalAdvance (t : Nat) (w : Option Nat)
  | unlockSectionMutex (t : Nat)
deriving DecidableEq, Repr

/-- `pthread_cond_signal(&section_cond)`: if no thread is blocked the signal
is lost; otherwise it wakes exactly one blocked thread, chosen by the
scheduler parameter `w`.  The woken thread still has to re-acquire
`section_mutex` before its `pthread_cond_wait` returns. -/
def doSignal (s : Sys) (w : Option Nat) : Option Sys :=
  match w with
  | none => if s.waiters = [] then some s else none
  | some u =>
    if u ∈ s.waiters then
      (s.threads[u]?).bind fun thu =>
        some { s with waiters := s.waiters.erase u,
                      threads := s.threads.set u { thu with pc := .woken } }
    else none

/-- One interleaving step of the program: thread `t` executes the statement
its program counter points at, exactly following proj2.c.  `L` is the shared
budget `param->loop_count` (a C `int`, hence `Int`).  `none` means the
action is not enabled (wrong pc, or a mutex acquisition would block). -/
def step (L : Int) (s : Sys) (a : Act) : Option Sys :=
  match a with
  | .lockTicketMutex t =>
    (s.threads[t]?).bind fun th =>
      if th.pc = .loopStart ∧ s.ticketMutex = none then
        some { s with ticketMutex := some t,
                      threads := s.threads.set t { th with pc := .tickRead } }
      else none
  | .readTicket t =>
    (s.threads[t]?).bind fun th =>
      if th.pc = .tickRead then
        some { s with threads := s.threads.set t { th with ticket := s.nextTicket, pc := .tickIncr } }
      else none
  | .incrTicket t =>
    (s.threads[t]?).bind fun th =>
      if th.pc = .tickIncr then
        some { s with nextTicket := s.nextTicket + 1,
                      events := .tickDraw t th.ticket :: s.events,
                      threads := s.threads.set t { th with pc := .tickUnlock } }
      else none
  | .unlockTicketMutex t =>
    (s.threads[t]?).bind fun th =>
      if th.pc = .tickUnlock then
        some { s with ticketMutex := none,
                      threads := s.threads.set t { th with pc := .checkBudget } }
      else none
  | .testBudget t =>
    (s.threads[t]?).bind fun th =>
      if th.pc = .checkBudget then
        if (th.ticket : Int) < L then
          some { s with threads := s.threads.set t { th with pc := .sectionLock } }
        else
          some { s with threads := s.threads.set t { th with pc := .done } }
      else none
  | .lockSectionMutex t =>
    (s.threads[t]?).bind fun th =>
      if th.pc = .sectionLock ∧ s.sectionMutex = none then
        some { s with sectionMutex := some t,
                      threads := s.threads.set t { th with pc := .gateCheck } }
      else none
  | .testTurn t =>
    (s.threads[t]?).bind fun th =>
      if th.pc = .gateCheck then
        if th.ticket = s.actualTicket then
          some { s with events := .enterCS t th.ticket :: s.events,
                        threads := s.threads.set t { th with pc := .inCS } }
        else
          some { s with threads := s.threads.set t { th with pc := .relaySignal } }
      else none
  | .signalRelay t w =>
    (s.threads[t]?).bind fun th =>
      if th.pc = .relaySignal then
        (doSignal s w).bind fun s' =>
          (s'.threads[t]?).bind fun th' =>
            some { s' with threads := s'.threads.set t { th' with pc := .condWait } }
      else none
  | .waitCond t =>
    (s.threads[t]?).bind fun th =>
      if th.pc = .condWait ∧ s.sectionMutex = some t then
        some { s with sectionMutex := none,
                      waiters := t :: s.waiters,
                      threads := s.threads.set t { th with pc := .blocked } }
      else none
  | .reacquire t =>
    (s.threads[t]?).bind fun th =>
      if th.pc = .woken ∧ s.sectionMutex = none then
        some { s with sectionMutex := some t,
                      threads := s.threads.set t { th with pc := .gateCheck } }
      else none
  | .printTicket t =>
    (s.threads[t]?).bind fun th =>
      if th.pc = .inCS then
        some { s with events := .printOut th.ticket th.id :: s.events,
                      threads := s.threads.set t { th with pc := .advIncr } }
      else none
  | .incrActual t =>
    (s.threads[t]?).bind fun th =>
      if th.pc = .advIncr then
        some { s with actualTicket := s.actualTicket + 1,
                      threads := s.threads.set t { th with pc := .advSignal } }
      else none
  | .signalAdvance t w =>
    (s.threads[t]?).bind fun th =>
      if th.pc = .advSignal then
        (doSignal s w).bind fun s' =>
          (s'.threads[t]?).bind fun th' =>
            some { s' with threads := s'.threads.set t { th' with pc := .advUnlock } }
      else none
  | .unlockSectionMutex t =>
    (s.threads[t]?).bind fun th =>
      if th.pc = .advUnlock then
        some { s with sectionMutex := none,
                      events := .exitCS t th.ticket :: s.events,
                      threads := s.threads.set t { th with pc := .loopStart } }
      else none

/-- Run a scheduled sequence of actions from a state. -/
def run (L : Int) (s : Sys) : List Act → Option Sys
  | [] => some s
  | a :: rest => (step L s a).bind fun s' => run L s' rest

/-- State right after `main` spawned the `n` workers (proj2.c:262-266):
globals zero-initialized (75-83), both mutexes free, nobody waiting,
worker `i` carrying `id = i + 1` (line 263). -/
def init (n : Nat) : Sys :=
  { nextTicket := 0
    actualTicket := 0
    ticketMutex := none
    sectionMutex := none
    waiters := []
    threads := (List.range n).map (fun i => { id := i + 1, ticket := 0, pc := .loopStart })
    events := [] }

/-- States reachable by some interleaving of `n` workers sharing budget `L`. -/
def Reach (L : Int) (n : Nat) (s : Sys) : Prop :=
  ∃ acts, run L (init n) acts = some s

/-- All workers returned from `just_do_it`. -/
def AllDone (s : Sys) : Prop := ∀ th ∈ s.threads, th.pc = PC.done

/-- Projection of a ticket-draw event. -/
def Event.tickOf : Event → Option (Nat × Nat)
  | .tickDraw t v => some (t, v)
  | _ => none

/-- Projection of a printed line. -/
def Event.printOf : Event → Option (Nat × Nat)
  | .printOut v id => some (v, id)
  | _ => none

/-- Is this a critical-section admission or release event? -/
def Event.isCS : Event → Bool
  | .enterCS _ _ => true
  | .exitCS _ _ => true
  | _ => false

/-- The `(thread, value)` pairs returned by `getticket`, oldest first. -/
def ticksOf (evs : List Event) : List (Nat × Nat) :=
  (evs.filterMap Event.tickOf).reverse

/-- The admission/release events, newest first. -/
def csOf (evs : List Event) : List Event := evs.filter Event.isCS

/-- The printed `(ticket, id)` lines, oldest first. -/
def printsOf (evs : List Event) : List (Nat × Nat) :=
  (evs.filterMap Event.printOf).reverse

/-- The standard-output lines of a run, oldest first. -/
def outputs (s : Sys) : List (Nat × Nat) := printsOf s.events

/-- The sequence of ticket values issued by `getticket`, in issue order. -/
def issuedVals (s : Sys) : List Nat := (ticksOf s.events).map Prod.snd

/-- Reading a 32-bit unsigned value as a C `int` (two's complement):
models the cast `params[i].loop_count = (int) loop_count` (proj2.c:264). -/
def intOfU32 (v : Nat) : Int :=
  if v < 2 ^ 31 then (v : Int) else (v : Int) - 2 ^ 32

/-- C `isspace` for the default locale, as skipped by `strtoul`. -/
def isSpaceC (c : Char) : Bool :=
  c == ' ' || c == '\t' || c == '\n' || c == '\x0b' || c == '\x0c' || c == '\r'

/-- Value of a digit string. -/
def digitsNat (cs : List Char) : Nat :=
  cs.foldl (fun a c => 10 * a + (c.toNat - 48)) 0

/-- `strtoul(str, &endptr, 10)` on a 64-bit unsigned long: skip whitespace,
optional sign, longest digit run; clamp to `ULONG_MAX` on overflow, negate
modulo `2^64` on a minus sign; returns the value and the number of
characters consumed (`endptr - str`), which is 0 when no digits follow. -/
def strtoulModel (cs : List Char) : Nat × Nat :=
  let ws := cs.takeWhile isSpaceC
  let rest := cs.drop ws.length
  let signed : Bool × List Char × Nat :=
    match rest with
    | c :: tl =>
      if c == '-' then (true, tl, 1)
      else if c == '+' then (false, tl, 1)
      else (false, rest, 0)
    | [] => (false, [], 0)
  let ds := signed.2.1.takeWhile Char.isDigit
  if ds.length = 0 then (0, 0)
  else
    let m := digitsNat ds
    let v := if 2 ^ 64 ≤ m then 2 ^ 64 - 1
             else if signed.1 then (2 ^ 64 - m) % 2 ^ 64 else m
    (v, ws.length + signed.2.2 + ds.length)

/-- `get_num` (proj2.c:120-129): `strtoul` the whole string; fails exactly
when `endptr != str + strlen(str)`; the converted value is stored into an
`unsigned` (32-bit truncation). -/
def get_num (str : List Char) : Option Nat :=
  let p := strtoulModel str
  if p.2 = str.length then some (p.1 % 2 ^ 32) else none

/-- Outcome of `main` (proj2.c:223-284).  `usageFailure`: help text printed
to stderr (with "Invalid argument count" first when argc is wrong),
`EXIT_FAILURE` returned, no thread created, nothing on stdout.
`oomFailure`: "Error: out of memory!" on stderr, `EXIT_FAILURE`, no thread,
no stdout.  `runSuccess tc lc`: `tc` workers spawned with shared budget
`intOfU32 lc`, all joined, `EXIT_SUCCESS` returned — the results of
`pthread_create` and `pthread_join` are never inspected (262-272), so this
path cannot fail. -/
inductive MainRes where
  | usageFailure
  | oomFailure
  | runSuccess (threadCount loopCount : Nat)
deriving DecidableEq, Repr

/-- The argument checking and setup of `main` (proj2.c:229-266).  `argv` is
the full argument vector (so `argc = argv.length`); `allocOk` is the oracle
for the two `malloc` calls (lines 244-245). -/
def mainModel (argv : List (List Char)) (allocOk : Bool) : MainRes :=
  if argv.length ≠ 3 then .usageFailure
  else
    match get_num (argv.getD 1 []) with
    | none => .usageFailure
    | some tc =>
      if tc = 0 then .usageFailure
      else
        match get_num (argv.getD 2 []) with
        | none => .usageFailure
        | some lc =>
          if lc = 0 then .usageFailure
          else if allocOk = false then .oomFailure
          else .runSuccess tc lc

/-- `EXIT_SUCCESS`. -/
def exitSuccess : Nat := 0

/-- `EXIT_FAILURE`. -/
def exitFailure : Nat := 1

/-- The exit status of `main` for each outcome. -/
def exitCodeOf : MainRes → Nat
  | .runSuccess _ _ => exitSuccess
  | _ => exitFailure

/-- Does `main` reach `pthread_create`? -/
def spawnsThreads : MainRes → Bool
  | .runSuccess _ _ => true
  | _ => false

/-- Does the outcome print an error/usage message to stderr (and nothing to
stdout)? -/
def failsOnStderr : MainRes → Bool
  | .usageFailure => true
  | .oomFailure => true
  | _ => false

/-- Follows the spec's words (§6): an argument is *numeric* when it is an
optionally signed, nonempty decimal digit string.  Used only to state claim
C7 the way the spec phrases it; the code's own notion is `get_num`. -/
def specNumeric (cs : List Char) : Bool :=
  match cs with
  | '-' :: tl => !tl.isEmpty && tl.all Char.isDigit
  | '+' :: tl => !tl.isEmpty && tl.all Char.isDigit
  | _ => !cs.isEmpty && cs.all Char.isDigit

/-- Follows the spec's words (§6): the mathematical value denoted by a
numeric argument. -/
def specValue (cs : List Char) : Int :=
  match cs with
  | '-' :: tl => - (digitsNat tl : Int)
  | '+' :: tl => (digitsNat tl : Int)
  | _ => (digitsNat cs : Int)

/-- Lifecycle events of the synchronization state, in the order the process
performs them: C static (zero-)initialization of the globals at lines 59-83
— `ticket_mutex` is *only* ever initialized this way, there is no
`pthread_mutex_init(&ticket_mutex, ...)` call and no matching destroy —
then `pthread_mutex_init`/`pthread_cond_init` (251-252), the create loop
(262-266), the join loop (271-272), the frees (277-278) and the destroys
(280-281). -/
inductive LifeEv where
  | staticInitTicketMutex
  | staticInitSectionMutex
  | staticInitSectionCond
  | staticInitActualTicket
  | staticInitNextTicket
  | initSectionMutex
  | initSectionCond
  | spawn (i : Nat)
  | join (i : Nat)
  | freeThreads
  | freeParams
  | destroySectionMutex
  | destroySectionCond
deriving DecidableEq, Repr

/-- The lifecycle event sequence of a successful run of `main` with `n`
threads (proj2.c:251-283, preceded by load-time static initialization). -/
def mainTrace (n : Nat) : List LifeEv :=
  [.staticInitTicketMutex, .staticInitSectionMutex, .staticInitSectionCond,
   .staticInitActualTicket, .staticInitNextTicket,
   .initSectionMutex, .initSectionCond]
  ++ (List.range n).map LifeEv.spawn
  ++ (List.range n).map LifeEv.join
  ++ [.freeThreads, .freeParams, .destroySectionMutex, .destroySectionCond]

/-- Is this event the initialization of a component of the shared
synchronization state? -/
def LifeEv.isSyncInit : LifeEv → Bool
  | .staticInitTicketMutex | .staticInitSectionMutex | .staticInitSectionCond
  | .staticInitActualTicket | .staticInitNextTicket
  | .initSectionMutex | .initSectionCond => true
  | _ => false

/-- Is this event a worker-thread creation? -/
def LifeEv.isSpawn : LifeEv → Bool
  | .spawn _ => true
  | _ => false

/-- Is this event a worker-thread join? -/
def LifeEv.isJoin : LifeEv → Bool
  | .join _ => true
  | _ => false

/-- Is this event a teardown of a component of the shared synchronization
state? -/
def LifeEv.isTeardown : LifeEv → Bool
  | .destroySectionMutex | .destroySectionCond => true
  | _ => false

/-- Does this pc hold `ticket_mutex`? -/
def PC.holdsTicket : PC → Bool
  | .tickRead | .tickIncr | .tickUnlock => true
  | _ => false

/-- Does this pc hold `section_mutex`? -/
def PC.holdsSection : PC → Bool
  | .gateCheck | .relaySignal | .condWait
  | .inCS | .advIncr | .advSignal | .advUnlock => true
  | _ => false

/-- Is this pc inside the critical section, i.e. between a successful
return from `await` and the completion of the matching `advance`? -/
def PC.inCSRegion : PC → Bool
  | .inCS | .advIncr | .advSignal | .advUnlock => true
  | _ => false

/-- Has the thread's current `ticket` value been drawn and recorded
(`next_ticket++` executed) and not yet abandoned? -/
def PC.postDraw : PC → Bool
  | .tickUnlock | .checkBudget | .sectionLock | .gateCheck | .relaySignal
  | .condWait | .blocked | .woken | .inCS | .advIncr | .advSignal
  | .advUnlock | .done => true
  | _ => false

/-- Is the thread holding an issued in-budget ticket it has not yet been
admitted on? -/
def PC.inFlight : PC → Bool
  | .tickUnlock | .checkBudget | .sectionLock | .gateCheck | .relaySignal
  | .condWait | .blocked | .woken => true
  | _ => false

/-- The newest-first admission/release history of a state in which no
thread is currently between admission and release: ticket `k-1` entered
and exited, before it `k-2`, and so on — each pair by a single thread. -/
inductive CSLog : List Event → Nat → Prop
  | nil : CSLog [] 0
  | pair (t k : Nat) (l : List Event) :
      CSLog l k → CSLog (.exitCS t k :: .enterCS t k :: l) (k + 1)

/-- The shape of the admission/release history, by phase of the (unique)
thread currently inside the critical section, tied to `actual_ticket`:
with nobody inside, `actual_ticket` pairs are complete; a thread between
`await` and `actual_ticket++` is admitted on ticket `actual_ticket`; a
thread past `actual_ticket++` but before the unlock is admitted on
`actual_ticket - 1`. -/
def CSState (s : Sys) : Prop :=
  ((∀ (t : Nat) (th : ThreadSt), s.threads[t]? = some th → th.pc.inCSRegion = false)
    ∧ CSLog (csOf s.events) s.actualTicket)
  ∨ (∃ (t : Nat) (th : ThreadSt), s.threads[t]? = some th ∧ (th.pc = .inCS ∨ th.pc = .advIncr)
      ∧ th.ticket = s.actualTicket
      ∧ ∃ l, csOf s.events = .enterCS t s.actualTicket :: l ∧ CSLog l s.actualTicket)
  ∨ (∃ (t : Nat) (th : ThreadSt) (a₀ : Nat), s.threads[t]? = some th ∧ (th.pc = .advSignal ∨ th.pc = .advUnlock)
      ∧ s.actualTicket = a₀ + 1 ∧ th.ticket = a₀
      ∧ ∃ l, csOf s.events = .enterCS t a₀ :: l ∧ CSLog l a₀)

/-- Number of printed lines implied by the phase: `actual_ticket`, plus one
for a thread that has printed but not yet executed `actual_ticket++`. -/
def printCount (s : Sys) : Nat :=
  s.actualTicket + s.threads.countP (fun th => th.pc == PC.advIncr)

/-- Number of workers that are done or are carrying a just-drawn
out-of-budget ticket: these account for the issued values `≥ L`. -/
def retireCount (L : Int) (s : Sys) : Nat :=
  s.threads.countP (fun th =>
    th.pc == PC.done
    || ((th.pc == PC.tickUnlock || th.pc == PC.checkBudget)
        && decide (L.toNat ≤ th.ticket)))

/-- Per-thread consistency, indexed by the program counter.  The thread at
`tickIncr` has just read the counter; at `tickUnlock` it has incremented
it; from `sectionLock` on (past the budget test) its ticket is in budget;
at `done` its final ticket was out of budget. -/
def thOK (L : Int) (s : Sys) (t : Nat) (th : ThreadSt) : Prop :=
  th.id = t + 1 ∧
  match th.pc with
  | .tickIncr => th.ticket = s.nextTicket
  | .tickUnlock => th.ticket + 1 = s.nextTicket
  | .checkBudget => th.ticket < s.nextTicket
  | .sectionLock | .gateCheck | .relaySignal | .condWait | .blocked | .woken =>
      th.ticket < s.nextTicket ∧ th.ticket < L.toNat
  | .done => L.toNat ≤ th.ticket
  | _ => True

/-- The global inductive invariant of the ticket-lock state machine. -/
structure Inv (L : Int) (s : Sys) : Prop where
  /-- `getticket` issued exactly the values `0, 1, …, next_ticket - 1`,
  in that order. -/
  ticksRange : (ticksOf s.events).map Prod.snd = List.range s.nextTicket
  /-- Shape of the admission/release history. -/
  csState : CSState s
  /-- The printed ticket numbers are exactly `0, 1, …` in order. -/
  printsRange : (printsOf s.events).map Prod.fst = List.range (printCount s)
  /-- Every printed id is a valid worker id. -/
  printsIds : ∀ pr ∈ printsOf s.events, 1 ≤ pr.2 ∧ pr.2 ≤ s.threads.length
  /-- A thread's pc is inside `getticket`'s locked region iff it holds
  `ticket_mutex`. -/
  ticketMutexOK : ∀ (t : Nat) (th : ThreadSt), s.threads[t]? = some th →
      (th.pc.holdsTicket = true ↔ s.ticketMutex = some t)
  /-- The holder of `ticket_mutex` is a real thread. -/
  ticketMutexDom : ∀ t, s.ticketMutex = some t → t < s.threads.length
  /-- A thread's pc is inside `section_mutex`'s locked region iff it holds
  `section_mutex`. -/
  sectionMutexOK : ∀ (t : Nat) (th : ThreadSt), s.threads[t]? = some th →
      (th.pc.holdsSection = true ↔ s.sectionMutex = some t)
  /-- The holder of `section_mutex` is a real thread. -/
  sectionMutexDom : ∀ t, s.sectionMutex = some t → t < s.threads.length
  /-- The wait set of `section_cond` is exactly the set of blocked threads. -/
  waitersOK : ∀ t, t ∈ s.waiters ↔ ∃ (th : ThreadSt), s.threads[t]? = some th ∧ th.pc = PC.blocked
  /-- No thread waits twice. -/
  waitersNodup : s.waiters.Nodup
  /-- Per-thread consistency. -/
  thsOK : ∀ (t : Nat) (th : ThreadSt), s.threads[t]? = some th → thOK L s t th
  /-- Counting the out-of-budget issued values. -/
  retire : max s.nextTicket L.toNat = L.toNat + retireCount L s
  /-- An issued out-of-budget value is still held, and it pins its holder:
  the holder can only move to `done` and never draws again. -/
  ticksPin : ∀ (u v : Nat), Event.tickDraw u v ∈ s.events → L.toNat ≤ v →
      ∃ (th : ThreadSt), s.threads[u]? = some th ∧ th.ticket = v ∧
        (th.pc = PC.tickUnlock ∨ th.pc = PC.checkBudget ∨ th.pc = PC.done)
  /-- A thread past `next_ticket++` carries a recorded draw. -/
  drawRecorded : ∀ (t : Nat) (th : ThreadSt), s.threads[t]? = some th → th.pc.postDraw = true →
      Event.tickDraw t th.ticket ∈ s.events
  /-- An issued in-budget value has been admitted, or its holder is still
  on the way to admission. -/
  inFlightOrEntered : ∀ (u v : Nat), Event.tickDraw u v ∈ s.events → v < L.toNat →
      Event.enterCS u v ∈ s.events ∨
        ∃ (th : ThreadSt), s.threads[u]? = some th ∧ th.ticket = v ∧ th.pc.inFlight = true
  /-- Only in-budget tickets are ever admitted. -/
  entersBudget : ∀ (u v : Nat), Event.enterCS u v ∈ s.events → v < L.toNat

/-- One full loop iteration of a single uncontended worker 0: draw a ticket,
pass the budget test, take the gate, print, advance, release. -/
def iterActs : List Act :=
  [.lockTicketMutex 0, .readTicket 0, .incrTicket 0, .unlockTicketMutex 0,
   .testBudget 0, .lockSectionMutex 0, .testTurn 0, .printTicket 0,
   .incrActual 0, .signalAdvance 0 none, .unlockSectionMutex 0]

/-- The final, budget-exceeded draw of worker 0: it gets an out-of-budget
ticket and leaves the loop. -/
def drawActs : List Act :=
  [.lockTicketMutex 0, .readTicket 0, .incrTicket 0, .unlockTicketMutex 0,
   .testBudget 0]

/-- A complete schedule for one worker with budget 2. -/
def actsB2 : List Act := iterActs ++ iterActs ++ drawActs

/-- The final state of that schedule. -/
def stateB2 : Sys := (run (intOfU32 2) (init 1) actsB2).getD (init 1)

/-- A state in the middle of the budget-2 run: worker 0 has just been
admitted to the critical section. -/
def stateMid : Sys := (run (intOfU32 2) (init 1) (actsB2.take 7)).getD (init 1)

/-- The state right before `actual_ticket++` of the first iteration. -/
def stateAdv : Sys := (run (intOfU32 2) (init 1) (actsB2.take 8)).getD (init 1)

/-- A complete schedule for one worker with budget 1, and its final state. -/
def actsB1 : List Act := iterActs ++ drawActs

/-- Final state of the budget-1 run. -/
def stateB1 : Sys := (run (intOfU32 1) (init 1) actsB1).getD (init 1)

/-- Final state of a run configured with `loop_count = 2^31`: the cast
`(int) loop_count` makes the shared budget negative, so the single worker
draws ticket 0, fails `0 < loop_count` and stops without printing. -/
def stateCast : Sys := (run (intOfU32 2147483648) (init 1) drawActs).getD (init 1)

/-! ### Basic lemmas about the derived history functions -/

theorem ticksOf_tickDraw (t v : Nat) (evs : List Event) :
    ticksOf (Event.tickDraw t v :: evs) = ticksOf evs ++ [(t, v)] := by
  simp [ticksOf, List.filterMap_cons, Event.tickOf]

theorem ticksOf_enterCS (t v : Nat) (evs : List Event) :
    ticksOf (Event.enterCS t v :: evs) = ticksOf evs := by
  simp [ticksOf, List.filterMap_cons, Event.tickOf]

theorem ticksOf_printOut (v id : Nat) (evs : List Event) :
    ticksOf (Event.printOut v id :: evs) = ticksOf evs := by
  simp [ticksOf, List.filterMap_cons, Event.tickOf]

theorem ticksOf_exitCS (t v : Nat) (evs : List Event) :
    ticksOf (Event.exitCS t v :: evs) = ticksOf evs := by
  simp [ticksOf, List.filterMap_cons, Event.tickOf]

theorem printsOf_printOut (v id : Nat) (evs : List Event) :
    printsOf (Event.printOut v id :: evs) = printsOf evs ++ [(v, id)] := by
  simp [printsOf, List.filterMap_cons, Event.printOf]

theorem printsOf_tickDraw (t v : Nat) (evs : List Event) :
    printsOf (Event.tickDraw t v :: evs) = printsOf evs := by
  simp [printsOf, List.filterMap_cons, Event.printOf]

theorem printsOf_enterCS (t v : Nat) (evs : List Event) :
    printsOf (Event.enterCS t v :: evs) = printsOf evs := by
  simp [printsOf, List.filterMap_cons, Event.printOf]

theorem printsOf_exitCS (t v : Nat) (evs : List Event) :
    printsOf (Event.exitCS t v :: evs) = printsOf evs := by
  simp [printsOf, List.filterMap_cons, Event.printOf]

theorem csOf_enterCS (t v : Nat) (evs : List Event) :
    csOf (Event.enterCS t v :: evs) = Event.enterCS t v :: csOf evs := by
  simp [csOf, List.filter_cons, Event.isCS]

theorem csOf_exitCS (t v : Nat) (evs : List Event) :
    csOf (Event.exitCS t v :: evs) = Event.exitCS t v :: csOf evs := by
  simp [csOf, List.filter_cons, Event.isCS]

theorem csOf_tickDraw (t v : Nat) (evs : List Event) :
    csOf (Event.tickDraw t v :: evs) = csOf evs := by
  simp [csOf, List.filter_cons, Event.isCS]

theorem csOf_printOut (v id : Nat) (evs : List Event) :
    csOf (Event.printOut v id :: evs) = csOf evs := by
  simp [csOf, List.filter_cons, Event.isCS]

theorem mem_csOf_of_enter {evs : List Event} {t v : Nat}
    (h : Event.enterCS t v ∈ evs) : Event.enterCS t v ∈ csOf evs :=
  List.mem_filter.mpr ⟨h, rfl⟩

theorem mem_of_mem_csOf {evs : List Event} {e : Event}
    (h : e ∈ csOf evs) : e ∈ evs :=
  (List.mem_filter.mp h).1

/-! ### Lemmas about `List.set` lookups and counts -/

theorem getElem?_set_cases {α : Type} {l : List α} {t u : Nat} {a b : α}
    (h : (l.set t a)[u]? = some b) :
    (u = t ∧ t < l.length ∧ b = a) ∨ (u ≠ t ∧ l[u]? = some b) := by
  have hu : u < l.length := by
    have := (List.getElem?_eq_some.mp h).1
    rwa [List.length_set] at this
  by_cases he : u = t
  · subst he
    rw [List.getElem?_set_self hu] at h
    exact Or.inl ⟨rfl, hu, (Option.some.inj h).symm⟩
  · rw [List.getElem?_set_ne (Ne.symm he)] at h
    exact Or.inr ⟨he, h⟩

theorem getElem?_set_self {α : Type} {l : List α} {t : Nat} (a : α)
    (h : t < l.length) : (l.set t a)[t]? = some a :=
  List.getElem?_set_self h

theorem getElem?_set_other {α : Type} {l : List α} {t u : Nat} (a : α)
    (h : u ≠ t) : (l.set t a)[u]? = l[u]? :=
  List.getElem?_set_ne (Ne.symm h)

theorem countP_set_same {α : Type} (p : α → Bool) {l : List α} {i : Nat} {a b : α}
    (h : l[i]? = some b) (hp : p a = p b) : (l.set i a).countP p = l.countP p := by
  obtain ⟨hi, hb⟩ := List.getElem?_eq_some.mp h
  rw [List.countP_set p l i a hi, hb, hp]
  by_cases hpb : p b = true
  · have hmem : b ∈ l := List.getElem?_mem h
    have hpos : 0 < l.countP p := List.countP_pos_iff.mpr ⟨b, hmem, hpb⟩
    simp [hpb]
    omega
  · simp [hpb]

theorem countP_set_flip {α : Type} (p : α → Bool) {l : List α} {i : Nat} {a b : α}
    (h : l[i]? = some b) (hpb : p b = false) (hpa : p a = true) :
    (l.set i a).countP p = l.countP p + 1 := by
  obtain ⟨hi, hb⟩ := List.getElem?_eq_some.mp h
  rw [List.countP_set p l i a hi, hb, hpb, hpa]
  simp

/-! ### Lemmas about the admission/release pattern -/

theorem CSLog_enter_mem {l : List Event} {k : Nat} (h : CSLog l k) :
    ∀ t v, Event.enterCS t v ∈ l → v < k := by
  induction h with
  | nil => intro t v hv; simp at hv
  | pair t' k' l' _ ih =>
    intro t v hv
    simp only [List.mem_cons] at hv
    rcases hv with hv | hv | hv
    · exact absurd hv (by simp)
    · obtain ⟨-, rfl⟩ : t = t' ∧ v = k' := by simpa using hv
      omega
    · exact Nat.lt_succ_of_lt (ih t v hv)

theorem CSLog_extract {l : List Event} {k : Nat} (h : CSLog l k) :
    ∀ v, v < k → ∃ t p q, l = p ++ Event.exitCS t v :: Event.enterCS t v :: q := by
  induction h with
  | nil => intro v hv; omega
  | pair t' k' l' _ ih =>
    intro v hv
    by_cases hvk : v = k'
    · subst hvk
      exact ⟨t', [], l', rfl⟩
    · obtain ⟨t, p, q, hl⟩ := ih v (by omega)
      exact ⟨t, Event.exitCS t' k' :: Event.enterCS t' k' :: p, q, by simp [hl]⟩

theorem CSLog_covers {l : List Event} {k : Nat} (h : CSLog l k) :
    ∀ v, v < k → ∃ t, Event.enterCS t v ∈ l := by
  intro v hv
  obtain ⟨t, p, q, hl⟩ := CSLog_extract h v hv
  exact ⟨t, by simp [hl]⟩

/-! ### Inversion lemmas for the step function -/

theorem doSignal_eq {s : Sys} {w : Option Nat} {s' : Sys}
    (h : doSignal s w = some s') :
    (s.waiters = [] ∧ w = none ∧ s' = s) ∨
    (∃ u thu, w = some u ∧ u ∈ s.waiters ∧ s.threads[u]? = some thu ∧
      s' = { s with waiters := s.waiters.erase u,
                    threads := s.threads.set u { thu with pc := .woken } }) := by
  rcases w with - | u
  · simp only [doSignal] at h
    split_ifs at h with hw
    exact Or.inl ⟨hw, rfl, (Option.some.inj h).symm⟩
  · simp only [doSignal] at h
    split_ifs at h with hu
    rcases hthu : s.threads[u]? with - | thu <;> rw [hthu] at h
    · simp at h
    · simp only [Option.some_bind] at h
      exact Or.inr ⟨u, thu, rfl, hu, hthu, (Option.some.inj h).symm⟩

theorem step_lockTicketMutex_eq {L : Int} {s : Sys} {t : Nat} {s' : Sys}
    (h : step L s (.lockTicketMutex t) = some s') :
    ∃ th, s.threads[t]? = some th ∧ th.pc = .loopStart ∧ s.ticketMutex = none ∧
      s' = { s with ticketMutex := some t,
                    threads := s.threads.set t { th with pc := .tickRead } } := by
  simp only [step] at h
  rcases hth : s.threads[t]? with - | th <;> rw [hth] at h
  · simp at h
  · simp only [Option.some_bind] at h
    split_ifs at h with hc
    exact ⟨th, rfl, hc.1, hc.2, (Option.some.inj h).symm⟩

theorem step_readTicket_eq {L : Int} {s : Sys} {t : Nat} {s' : Sys}
    (h : step L s (.readTicket t) = some s') :
    ∃ th, s.threads[t]? = some th ∧ th.pc = .tickRead ∧
      s' = { s with threads := s.threads.set t { th with ticket := s.nextTicket, pc := .tickIncr } } := by
  simp only [step] at h
  rcases hth : s.threads[t]? with - | th <;> rw [hth] at h
  · simp at h
  · simp only [Option.some_bind] at h
    split_ifs at h with hc
    exact ⟨th, rfl, hc, (Option.some.inj h).symm⟩

theorem step_incrTicket_eq {L : Int} {s : Sys} {t : Nat} {s' : Sys}
    (h : step L s (.incrTicket t) = some s') :
    ∃ th, s.threads[t]? = some th ∧ th.pc = .tickIncr ∧
      s' = { s with nextTicket := s.nextTicket + 1,
                    events := .tickDraw t th.ticket :: s.events,
                    threads := s.threads.set t { th with pc := .tickUnlock } } := by
  simp only [step] at h
  rcases hth : s.threads[t]? with - | th <;> rw [hth] at h
  · simp at h
  · simp only [Option.some_bind] at h
    split_ifs at h with hc
    exact ⟨th, rfl, hc, (Option.some.inj h).symm⟩

theorem step_unlockTicketMutex_eq {L : Int} {s : Sys} {t : Nat} {s' : Sys}
    (h : step L s (.unlockTicketMutex t) = some s') :
    ∃ th, s.threads[t]? = some th ∧ th.pc = .tickUnlock ∧
      s' = { s with ticketMutex := none,
                    threads := s.threads.set t { th with pc := .checkBudget } } := by
  simp only [step] at h
  rcases hth : s.threads[t]? with - | th <;> rw [hth] at h
  · simp at h
  · simp only [Option.some_bind] at h
    split_ifs at h with hc
    exact ⟨th, rfl, hc, (Option.some.inj h).symm⟩

theorem step_testBudget_eq {L : Int} {s : Sys} {t : Nat} {s' : Sys}
    (h : step L s (.testBudget t) = some s') :
    ∃ th, s.threads[t]? = some th ∧ th.pc = .checkBudget ∧
      (((th.ticket : Int) < L ∧
        s' = { s with threads := s.threads.set t { th with pc := .sectionLock } }) ∨
       (¬ (th.ticket : Int) < L ∧
        s' = { s with threads := s.threads.set t { th with pc := .done } })) := by
  simp only [step] at h
  rcases hth : s.threads[t]? with - | th <;> rw [hth] at h
  · simp at h
  · simp only [Option.some_bind] at h
    split_ifs at h with hc hb
    · exact ⟨th, rfl, hc, Or.inl ⟨hb, (Option.some.inj h).symm⟩⟩
    · exact ⟨th, rfl, hc, Or.inr ⟨hb, (Option.some.inj h).symm⟩⟩

theorem step_lockSectionMutex_eq {L : Int} {s : Sys} {t : Nat} {s' : Sys}
    (h : step L s (.lockSectionMutex t) = some s') :
    ∃ th, s.threads[t]? = some th ∧ th.pc = .sectionLock ∧ s.sectionMutex = none ∧
      s' = { s with sectionMutex := some t,
                    threads := s.threads.set t { th with pc := .gateCheck } } := by
  simp only [step] at h
  rcases hth : s.threads[t]? with - | th <;> rw [hth] at h
  · simp at h
  · simp only [Option.some_bind] at h
    split_ifs at h with hc
    exact ⟨th, rfl, hc.1, hc.2, (Option.some.inj h).symm⟩

theorem step_testTurn_eq {L : Int} {s : Sys} {t : Nat} {s' : Sys}
    (h : step L s (.testTurn t) = some s') :
    ∃ th, s.threads[t]? = some th ∧ th.pc = .gateCheck ∧
      ((th.ticket = s.actualTicket ∧
        s' = { s with events := .enterCS t th.ticket :: s.events,
                      threads := s.threads.set t { th with pc := .inCS } }) ∨
       (th.ticket ≠ s.actualTicket ∧
        s' = { s with threads := s.threads.set t { th with pc := .relaySignal } })) := by
  simp only [step] at h
  rcases hth : s.threads[t]? with - | th <;> rw [hth] at h
  · simp at h
  · simp only [Option.some_bind] at h
    split_ifs at h with hc hb
    · exact ⟨th, rfl, hc, Or.inl ⟨hb, (Option.some.inj h).symm⟩⟩
    · exact ⟨th, rfl, hc, Or.inr ⟨hb, (Option.some.inj h).symm⟩⟩

theorem step_signalRelay_eq {L : Int} {s : Sys} {t : Nat} {w : Option Nat} {s' : Sys}
    (h : step L s (.signalRelay t w) = some s') :
    ∃ th s₁ th', s.threads[t]? = some th ∧ th.pc = .relaySignal ∧
      doSignal s w = some s₁ ∧ s₁.threads[t]? = some th' ∧
      s' = { s₁ with threads := s₁.threads.set t { th' with pc := .condWait } } := by
  simp only [step] at h
  rcases hth : s.threads[t]? with - | th <;> rw [hth] at h
  · simp at h
  · simp only [Option.some_bind] at h
    split_ifs at h with hc
    rcases hsig : doSignal s w with - | s₁ <;> rw [hsig] at h
    · simp at h
    · simp only [Option.some_bind] at h
      rcases hth' : s₁.threads[t]? with - | th' <;> rw [hth'] at h
      · simp at h
      · simp only [Option.some_bind] at h
        exact ⟨th, s₁, th', rfl, hc, rfl, hth', (Option.some.inj h).symm⟩

theorem step_waitCond_eq {L : Int} {s : Sys} {t : Nat} {s' : Sys}
    (h : step L s (.waitCond t) = some s') :
    ∃ th, s.threads[t]? = some th ∧ th.pc = .condWait ∧ s.sectionMutex = some t ∧
      s' = { s with sectionMutex := none,
                    waiters := t :: s.waiters,
                    threads := s.threads.set t { th with pc := .blocked } } := by
  simp only [step] at h
  rcases hth : s.threads[t]? with - | th <;> rw [hth] at h
  · simp at h
  · simp only [Option.some_bind] at h
    split_ifs at h with hc
    exact ⟨th, rfl, hc.1, hc.2, (Option.some.inj h).symm⟩

theorem step_reacquire_eq {L : Int} {s : Sys} {t : Nat} {s' : Sys}
    (h : step L s (.reacquire t) = some s') :
    ∃ th, s.threads[t]? = some th ∧ th.pc = .woken ∧ s.sectionMutex = none ∧
      s' = { s with sectionMutex := some t,
                    threads := s.threads.set t { th with pc := .gateCheck } } := by
  simp only [step] at h
  rcases hth : s.threads[t]? with - | th <;> rw [hth] at h
  · simp at h
  · simp only [Option.some_bind] at h
    split_ifs at h with hc
    exact ⟨th, rfl, hc.1, hc.2, (Option.some.inj h).symm⟩

theorem step_printTicket_eq {L : Int} {s : Sys} {t : Nat} {s' : Sys}
    (h : step L s (.printTicket t) = some s') :
    ∃ th, s.threads[t]? = some th ∧ th.pc = .inCS ∧
      s' = { s with events := .printOut th.ticket th.id :: s.events,
                    threads := s.threads.set t { th with pc := .advIncr } } := by
  simp only [step] at h
  rcases hth : s.threads[t]? with - | th <;> rw [hth] at h
  · simp at h
  · simp only [Option.some_bind] at h
    split_ifs at h with hc
    exact ⟨th, rfl, hc, (Option.some.inj h).symm⟩

theorem step_incrActual_eq {L : Int} {s : Sys} {t : Nat} {s' : Sys}
    (h : step L s (.incrActual t) = some s') :
    ∃ th, s.threads[t]? = some th ∧ th.pc = .advIncr ∧
      s' = { s with actualTicket := s.actualTicket + 1,
                    threads := s.threads.set t { th with pc := .advSignal } } := by
  simp only [step] at h
  rcases hth : s.threads[t]? with - | th <;> rw [hth] at h
  · simp at h
  · simp only [Option.some_bind] at h
    split_ifs at h with hc
    exact ⟨th, rfl, hc, (Option.some.inj h).symm⟩

theorem step_signalAdvance_eq {L : Int} {s : Sys} {t : Nat} {w : Option Nat} {s' : Sys}
    (h : step L s (.signalAdvance t w) = some s') :
    ∃ th s₁ th', s.threads[t]? = some th ∧ th.pc = .advSignal ∧
      doSignal s w = some s₁ ∧ s₁.threads[t]? = some th' ∧
      s' = { s₁ with threads := s₁.threads.set t { th' with pc := .advUnlock } } := by
  simp only [step] at h
  rcases hth : s.threads[t]? with - | th <;> rw [hth] at h
  · simp at h
  · simp only [Option.some_bind] at h
    split_ifs at h with hc
    rcases hsig : doSignal s w with - | s₁ <;> rw [hsig] at h
    · simp at h
    · simp only [Option.some_bind] at h
      rcases hth' : s₁.threads[t]? with - | th' <;> rw [hth'] at h
      · simp at h
      · simp only [Option.some_bind] at h
        exact ⟨th, s₁, th', rfl, hc, rfl, hth', (Option.some.inj h).symm⟩

theorem step_unlockSectionMutex_eq {L : Int} {s : Sys} {t : Nat} {s' : Sys}
    (h : step L s (.unlockSectionMutex t) = some s') :
    ∃ th, s.threads[t]? = some th ∧ th.pc = .advUnlock ∧
      s' = { s with sectionMutex := none,
                    events := .exitCS t th.ticket :: s.events,
                    threads := s.threads.set t { th with pc := .loopStart } } := by
  simp only [step] at h
  rcases hth : s.threads[t]? with - | th <;> rw [hth] at h
  · simp at h
  · simp only [Option.some_bind] at h
    split_ifs at h with hc
    exact ⟨th, rfl, hc, (Option.some.inj h).symm⟩

/-! ### Helper lemmas for invariant preservation -/

theorem exists_set_iff {α : Type} {l : List α} {t u : Nat} {th a : α} {P : α → Prop}
    (hth : l[t]? = some th) (hP : P th ↔ P a) :
    (∃ b, (l.set t a)[u]? = some b ∧ P b) ↔ ∃ b, l[u]? = some b ∧ P b := by
  constructor
  · rintro ⟨b, hb, hPb⟩
    rcases getElem?_set_cases hb with ⟨rfl, -, rfl⟩ | ⟨hne, hb⟩
    · exact ⟨th, hth, hP.mpr hPb⟩
    · exact ⟨b, hb, hPb⟩
  · rintro ⟨b, hb, hPb⟩
    by_cases he : u = t
    · subst he
      rw [hth] at hb
      obtain rfl := Option.some.inj hb
      exact ⟨a, getElem?_set_self _ (List.getElem?_eq_some.mp hth).1, hP.mp hPb⟩
    · exact ⟨b, by rwa [getElem?_set_other _ he], hPb⟩

theorem inCSRegion_holdsSection {pc : PC} (h : pc.inCSRegion = true) :
    pc.holdsSection = true := by
  cases pc <;> simp [PC.inCSRegion, PC.holdsSection] at h ⊢

theorem CSState_frame {s s' : Sys}
    (hcs : CSState s)
    (hev : csOf s'.events = csOf s.events) (ha : s'.actualTicket = s.actualTicket)
    (hsame : ∀ (u : Nat) (th : ThreadSt), s.threads[u]? = some th →
      th.pc.inCSRegion = true → s'.threads[u]? = some th)
    (hback : ∀ (u : Nat) (th' : ThreadSt), s'.threads[u]? = some th' →
      th'.pc.inCSRegion = true → s.threads[u]? = some th') :
    CSState s' := by
  rcases hcs with ⟨hnone, hlog⟩ | ⟨t, th, hth, hpc, htk, l, hl, hlog⟩ |
      ⟨t, th, a₀, hth, hpc, hak, htk, l, hl, hlog⟩
  · refine Or.inl ⟨?_, ?_⟩
    · intro u th' hu
      by_contra hreg
      rw [Bool.not_eq_false] at hreg
      have := hnone u th' (hback u th' hu hreg)
      rw [hreg] at this
      cases this
    · rw [hev, ha]
      exact hlog
  · refine Or.inr (Or.inl ⟨t, th, ?_, hpc, ?_, l, ?_, ?_⟩)
    · exact hsame t th hth (by rcases hpc with h | h <;> simp [h, PC.inCSRegion])
    · rw [ha]; exact htk
    · rw [hev, ha]; exact hl
    · rw [ha]; exact hlog
  · refine Or.inr (Or.inr ⟨t, th, a₀, ?_, hpc, ?_, htk, l, ?_, hlog⟩)
    · exact hsame t th hth (by rcases hpc with h | h <;> simp [h, PC.inCSRegion])
    · rw [ha]; exact hak
    · rw [hev]; exact hl

theorem printCount_congr {s s' : Sys} (ha : s'.actualTicket = s.actualTicket)
    (hc : s'.threads.countP (fun th => th.pc == PC.advIncr) =
      s.threads.countP (fun th => th.pc == PC.advIncr)) :
    printCount s' = printCount s := by
  unfold printCount
  rw [ha, hc]

/-! ### The initial state satisfies the invariant -/

theorem init_threads_get (n t : Nat) :
    (init n).threads[t]? =
      if t < n then some { id := t + 1, ticket := 0, pc := .loopStart } else none := by
  by_cases h : t < n
  · simp [init, List.getElem?_map, List.getElem?_range h, h]
  · have hle : (List.range n).length ≤ t := by
      simpa [List.length_range] using Nat.le_of_not_lt h
    simp [init, List.getElem?_map, List.getElem?_eq_none hle, h]

theorem init_threads_inv {n t : Nat} {th : ThreadSt}
    (h : (init n).threads[t]? = some th) :
    t < n ∧ th = { id := t + 1, ticket := 0, pc := .loopStart } := by
  rw [init_threads_get] at h
  split_ifs at h with hlt
  exact ⟨hlt, (Option.some.inj h).symm⟩

theorem init_inv (L : Int) (n : Nat) : Inv L (init n) := by
  refine ⟨?_, ?_, ?_, ?_, ?_, ?_, ?_, ?_, ?_, ?_, ?_, ?_, ?_, ?_, ?_, ?_⟩
  · simp [init, ticksOf]
  · refine Or.inl ⟨?_, ?_⟩
    · intro u th hu
      obtain ⟨-, rfl⟩ := init_threads_inv hu
      simp [PC.inCSRegion]
    · show CSLog (csOf (init n).events) 0
      simpa [init, csOf] using CSLog.nil
  · have h0 : printCount (init n) = 0 := by
      unfold printCount
      have hc : ((init n).threads.countP (fun th => th.pc == PC.advIncr)) = 0 := by
        rw [List.countP_eq_zero]
        intro th hth
        simp only [init, List.mem_map] at hth
        obtain ⟨i, -, rfl⟩ := hth
        simp
      rw [hc]
      simp [init]
    rw [h0]
    simp [init, printsOf]
  · intro pr hpr
    simp [init, printsOf] at hpr
  · intro t th hth
    obtain ⟨-, rfl⟩ := init_threads_inv hth
    simp [init, PC.holdsTicket]
  · intro t hmu
    simp [init] at hmu
  · intro t th hth
    obtain ⟨-, rfl⟩ := init_threads_inv hth
    simp [init, PC.holdsSection]
  · intro t hmu
    simp [init] at hmu
  · intro t
    constructor
    · intro hmem
      simp [init] at hmem
    · rintro ⟨th, hth, hb⟩
      obtain ⟨-, rfl⟩ := init_threads_inv hth
      simp at hb
  · simp [init]
  · intro t th hth
    obtain ⟨-, rfl⟩ := init_threads_inv hth
    exact ⟨rfl, trivial⟩
  · have h0 : retireCount L (init n) = 0 := by
      rw [retireCount, List.countP_eq_zero]
      intro th hth
      simp only [init, List.mem_map] at hth
      obtain ⟨i, -, rfl⟩ := hth
      simp
    rw [h0]
    simp [init]
  · intro u v hv
    simp [init] at hv
  · intro t th hth hpd
    obtain ⟨-, rfl⟩ := init_threads_inv hth
    simp [PC.postDraw] at hpd
  · intro u v hv
    simp [init] at hv
  · intro u v hv
    simp [init] at hv

/-! ### Invariant preservation, one lemma per action -/

theorem thOK_congr {L : Int} {s s' : Sys} {t : Nat} {th : ThreadSt}
    (hnext : s'.nextTicket = s.nextTicket) (h : thOK L s t th) : thOK L s' t th := by
  unfold thOK at h ⊢
  rw [hnext]
  exact h

theorem inv_lockTicketMutex {L : Int} {s : Sys} {t : Nat} {s' : Sys}
    (hI : Inv L s) (h : step L s (.lockTicketMutex t) = some s') : Inv L s' := by
  obtain ⟨th, hth, hpc, hmu, hs⟩ := step_lockTicketMutex_eq h
  have hlen : t < s.threads.length := (List.getElem?_eq_some.mp hth).1
  have hev : s'.events = s.events := by rw [hs]
  have hnext : s'.nextTicket = s.nextTicket := by rw [hs]
  have hact : s'.actualTicket = s.actualTicket := by rw [hs]
  have hsm : s'.sectionMutex = s.sectionMutex := by rw [hs]
  have htm : s'.ticketMutex = some t := by rw [hs]
  have hw : s'.waiters = s.waiters := by rw [hs]
  have hthr : s'.threads = s.threads.set t { th with pc := PC.tickRead } := by rw [hs]
  have hlen2 : s'.threads.length = s.threads.length := by rw [hthr]; simp
  refine ⟨?_, ?_, ?_, ?_, ?_, ?_, ?_, ?_, ?_, ?_, ?_, ?_, ?_, ?_, ?_, ?_⟩
  · rw [hev, hnext]
    exact hI.ticksRange
  · refine CSState_frame hI.csState (by rw [hev]) hact ?_ ?_
    · intro u thu hu hreg
      rw [hthr]
      by_cases he : u = t
      · subst he
        rw [hth] at hu
        obtain rfl := Option.some.inj hu
        rw [hpc] at hreg
        simp [PC.inCSRegion] at hreg
      · rw [getElem?_set_other _ he]
        exact hu
    · intro u thu hu hreg
      rw [hthr] at hu
      rcases getElem?_set_cases hu with ⟨rfl, -, rfl⟩ | ⟨hne, hu⟩
      · simp [PC.inCSRegion] at hreg
      · exact hu
  · have hc : printCount s' = printCount s :=
      printCount_congr hact (by rw [hthr]; exact countP_set_same _ hth (by simp [hpc]))
    rw [hev, hc]
    exact hI.printsRange
  · rw [hev, hlen2]
    exact hI.printsIds
  · intro u thu hu
    rw [htm]
    rw [hthr] at hu
    rcases getElem?_set_cases hu with ⟨rfl, -, rfl⟩ | ⟨hne, hu⟩
    · simp [PC.holdsTicket]
    · have hold := hI.ticketMutexOK u thu hu
      rw [hmu] at hold
      simp only [reduceCtorEq, iff_false] at hold
      constructor
      · intro hh
        exact absurd hh hold
      · intro hh
        exact absurd (Option.some.inj hh).symm hne
  · intro u hu
    rw [htm] at hu
    obtain rfl := (Option.some.inj hu).symm
    rw [hlen2]
    exact hlen
  · intro u thu hu
    rw [hsm]
    rw [hthr] at hu
    rcases getElem?_set_cases hu with ⟨rfl, -, rfl⟩ | ⟨hne, hu⟩
    · have hold := hI.sectionMutexOK u th hth
      rw [hpc] at hold
      simpa [PC.holdsSection] using hold
    · exact hI.sectionMutexOK u thu hu
  · intro u hu
    rw [hsm] at hu
    rw [hlen2]
    exact hI.sectionMutexDom u hu
  · intro u
    rw [hw, hthr, hI.waitersOK u]
    exact (exists_set_iff hth (by simp [hpc])).symm
  · rw [hw]
    exact hI.waitersNodup
  · intro u thu hu
    rw [hthr] at hu
    rcases getElem?_set_cases hu with ⟨rfl, -, rfl⟩ | ⟨hne, hu⟩
    · exact ⟨(hI.thsOK u th hth).1, trivial⟩
    · exact thOK_congr hnext (hI.thsOK u thu hu)
  · have hr : retireCount L s' = retireCount L s := by
      unfold retireCount
      rw [hthr]
      exact countP_set_same _ hth (by rw [hpc]; rfl)
    rw [hnext, hr]
    exact hI.retire
  · intro u v hv hL
    rw [hev] at hv
    obtain ⟨thu, hu, htk, hcase⟩ := hI.ticksPin u v hv hL
    have hne : u ≠ t := by
      rintro rfl
      rw [hth] at hu
      obtain rfl := Option.some.inj hu
      rw [hpc] at hcase
      simp at hcase
    refine ⟨thu, ?_, htk, hcase⟩
    rw [hthr, getElem?_set_other _ hne]
    exact hu
  · intro u thu hu hpd
    rw [hev]
    rw [hthr] at hu
    rcases getElem?_set_cases hu with ⟨rfl, -, rfl⟩ | ⟨hne, hu⟩
    · simp [PC.postDraw] at hpd
    · exact hI.drawRecorded u thu hu hpd
  · intro u v hv hL
    rw [hev] at hv
    rw [hev]
    rcases hI.inFlightOrEntered u v hv hL with he | ⟨thu, hu, htk, hif⟩
    · exact Or.inl he
    · have hne : u ≠ t := by
        rintro rfl
        rw [hth] at hu
        obtain rfl := Option.some.inj hu
        rw [hpc] at hif
        simp [PC.inFlight] at hif
      refine Or.inr ⟨thu, ?_, htk, hif⟩
      rw [hthr, getElem?_set_other _ hne]
      exact hu
  · intro u v hv
    rw [hev] at hv
    exact hI.entersBudget u v hv

theorem countP_set_drop {α : Type} (p : α → Bool) {l : List α} {i : Nat} {a b : α}
    (h : l[i]? = some b) (hpb : p b = true) (hpa : p a = false) :
    l.countP p = (l.set i a).countP p + 1 := by
  obtain ⟨hi, hb⟩ := List.getElem?_eq_some.mp h
  rw [List.countP_set p l i a hi, hb, hpb, hpa]
  have hmem : b ∈ l := List.getElem?_mem h
  have hpos : 0 < l.countP p := List.countP_pos_iff.mpr ⟨b, hmem, hpb⟩
  simp
  omega

theorem thOK_next_succ {L : Int} {s s' : Sys} {u : Nat} {thu : ThreadSt}
    (hnext : s'.nextTicket = s.nextTicket + 1)
    (h1 : thu.pc ≠ PC.tickIncr) (h2 : thu.pc ≠ PC.tickUnlock)
    (h : thOK L s u thu) : thOK L s' u thu := by
  cases hpcu : thu.pc <;>
    simp only [thOK, hpcu] at h ⊢ <;>
    first
      | exact h
      | exact absurd hpcu (by assumption)
      | exact ⟨h.1, by omega⟩

theorem inv_readTicket {L : Int} {s : Sys} {t : Nat} {s' : Sys}
    (hI : Inv L s) (h : step L s (.readTicket t) = some s') : Inv L s' := by
  obtain ⟨th, hth, hpc, hs⟩ := step_readTicket_eq h
  have hlen : t < s.threads.length := (List.getElem?_eq_some.mp hth).1
  have hev : s'.events = s.events := by rw [hs]
  have hnext : s'.nextTicket = s.nextTicket := by rw [hs]
  have hact : s'.actualTicket = s.actualTicket := by rw [hs]
  have hsm : s'.sectionMutex = s.sectionMutex := by rw [hs]
  have htm : s'.ticketMutex = s.ticketMutex := by rw [hs]
  have hw : s'.waiters = s.waiters := by rw [hs]
  have hthr : s'.threads =
      s.threads.set t { th with ticket := s.nextTicket, pc := PC.tickIncr } := by rw [hs]
  have hlen2 : s'.threads.length = s.threads.length := by rw [hthr]; simp
  have hmt : s.ticketMutex = some t :=
    (hI.ticketMutexOK t th hth).mp (by rw [hpc]; rfl)
  refine ⟨?_, ?_, ?_, ?_, ?_, ?_, ?_, ?_, ?_, ?_, ?_, ?_, ?_, ?_, ?_, ?_⟩
  · rw [hev, hnext]
    exact hI.ticksRange
  · refine CSState_frame hI.csState (by rw [hev]) hact ?_ ?_
    · intro u thu hu hreg
      rw [hthr]
      by_cases he : u = t
      · subst he
        rw [hth] at hu
        obtain rfl := Option.some.inj hu
        rw [hpc] at hreg
        simp [PC.inCSRegion] at hreg
      · rw [getElem?_set_other _ he]
        exact hu
    · intro u thu hu hreg
      rw [hthr] at hu
      rcases getElem?_set_cases hu with ⟨rfl, -, rfl⟩ | ⟨hne, hu⟩
      · simp [PC.inCSRegion] at hreg
      · exact hu
  · have hc : printCount s' = printCount s :=
      printCount_congr hact (by rw [hthr]; exact countP_set_same _ hth (by rw [hpc]; rfl))
    rw [hev, hc]
    exact hI.printsRange
  · rw [hev, hlen2]
    exact hI.printsIds
  · intro u thu hu
    rw [htm, hmt]
    rw [hthr] at hu
    rcases getElem?_set_cases hu with ⟨rfl, -, rfl⟩ | ⟨hne, hu⟩
    · simp [PC.holdsTicket]
    · have hold := hI.ticketMutexOK u thu hu
      rw [hmt] at hold
      constructor
      · intro hh
        exact absurd (Option.some.inj (hold.mp hh)).symm hne
      · intro hh
        exact absurd (Option.some.inj hh).symm hne
  · intro u hu
    rw [htm] at hu
    rw [hlen2]
    exact hI.ticketMutexDom u hu
  · intro u thu hu
    rw [hsm]
    rw [hthr] at hu
    rcases getElem?_set_cases hu with ⟨rfl, -, rfl⟩ | ⟨hne, hu⟩
    · have hold := hI.sectionMutexOK u th hth
      rw [hpc] at hold
      simpa [PC.holdsSection] using hold
    · exact hI.sectionMutexOK u thu hu
  · intro u hu
    rw [hsm] at hu
    rw [hlen2]
    exact hI.sectionMutexDom u hu
  · intro u
    rw [hw, hthr, hI.waitersOK u]
    exact (exists_set_iff hth (by simp [hpc])).symm
  · rw [hw]
    exact hI.waitersNodup
  · intro u thu hu
    rw [hthr] at hu
    rcases getElem?_set_cases hu with ⟨rfl, -, rfl⟩ | ⟨hne, hu⟩
    · exact ⟨(hI.thsOK u th hth).1, hnext.symm⟩
    · exact thOK_congr hnext (hI.thsOK u thu hu)
  · have hr : retireCount L s' = retireCount L s := by
      unfold retireCount
      rw [hthr]
      exact countP_set_same _ hth (by rw [hpc]; rfl)
    rw [hnext, hr]
    exact hI.retire
  · intro u v hv hL
    rw [hev] at hv
    obtain ⟨thu, hu, htk, hcase⟩ := hI.ticksPin u v hv hL
    have hne : u ≠ t := by
      rintro rfl
      rw [hth] at hu
      obtain rfl := Option.some.inj hu
      rw [hpc] at hcase
      simp at hcase
    refine ⟨thu, ?_, htk, hcase⟩
    rw [hthr, getElem?_set_other _ hne]
    exact hu
  · intro u thu hu hpd
    rw [hev]
    rw [hthr] at hu
    rcases getElem?_set_cases hu with ⟨rfl, -, rfl⟩ | ⟨hne, hu⟩
    · simp [PC.postDraw] at hpd
    · exact hI.drawRecorded u thu hu hpd
  · intro u v hv hL
    rw [hev] at hv
    rw [hev]
    rcases hI.inFlightOrEntered u v hv hL with he | ⟨thu, hu, htk, hif⟩
    · exact Or.inl he
    · have hne : u ≠ t := by
        rintro rfl
        rw [hth] at hu
        obtain rfl := Option.some.inj hu
        rw [hpc] at hif
        simp [PC.inFlight] at hif
      refine Or.inr ⟨thu, ?_, htk, hif⟩
      rw [hthr, getElem?_set_other _ hne]
      exact hu
  · intro u v hv
    rw [hev] at hv
    exact hI.entersBudget u v hv

theorem inv_incrTicket {L : Int} {s : Sys} {t : Nat} {s' : Sys}
    (hI : Inv L s) (h : step L s (.incrTicket t) = some s') : Inv L s' := by
  obtain ⟨th, hth, hpc, hs⟩ := step_incrTicket_eq h
  have hlen : t < s.threads.length := (List.getElem?_eq_some.mp hth).1
  have hev : s'.events = Event.tickDraw t th.ticket :: s.events := by rw [hs]
  have hnext : s'.nextTicket = s.nextTicket + 1 := by rw [hs]
  have hact : s'.actualTicket = s.actualTicket := by rw [hs]
  have hsm : s'.sectionMutex = s.sectionMutex := by rw [hs]
  have htm : s'.ticketMutex = s.ticketMutex := by rw [hs]
  have hw : s'.waiters = s.waiters := by rw [hs]
  have hthr : s'.threads = s.threads.set t { th with pc := PC.tickUnlock } := by rw [hs]
  have hlen2 : s'.threads.length = s.threads.length := by rw [hthr]; simp
  have hmt : s.ticketMutex = some t :=
    (hI.ticketMutexOK t th hth).mp (by rw [hpc]; rfl)
  have htk : th.ticket = s.nextTicket := by
    have h2 := (hI.thsOK t th hth).2
    rw [hpc] at h2
    exact h2
  refine ⟨?_, ?_, ?_, ?_, ?_, ?_, ?_, ?_, ?_, ?_, ?_, ?_, ?_, ?_, ?_, ?_⟩
  · rw [hev, ticksOf_tickDraw, hnext, List.map_append, hI.ticksRange, List.range_succ]
    simp [htk]
  · refine CSState_frame hI.csState (by rw [hev, csOf_tickDraw]) hact ?_ ?_
    · intro u thu hu hreg
      rw [hthr]
      by_cases he : u = t
      · subst he
        rw [hth] at hu
        obtain rfl := Option.some.inj hu
        rw [hpc] at hreg
        simp [PC.inCSRegion] at hreg
      · rw [getElem?_set_other _ he]
        exact hu
    · intro u thu hu hreg
      rw [hthr] at hu
      rcases getElem?_set_cases hu with ⟨rfl, -, rfl⟩ | ⟨hne, hu⟩
      · simp [PC.inCSRegion] at hreg
      · exact hu
  · have hc : printCount s' = printCount s :=
      printCount_congr hact (by rw [hthr]; exact countP_set_same _ hth (by rw [hpc]; rfl))
    rw [hev, printsOf_tickDraw, hc]
    exact hI.printsRange
  · intro pr hpr
    rw [hev, printsOf_tickDraw] at hpr
    rw [hlen2]
    exact hI.printsIds pr hpr
  · intro u thu hu
    rw [htm, hmt]
    rw [hthr] at hu
    rcases getElem?_set_cases hu with ⟨rfl, -, rfl⟩ | ⟨hne, hu⟩
    · simp [PC.holdsTicket]
    · have hold := hI.ticketMutexOK u thu hu
      rw [hmt] at hold
      constructor
      · intro hh
        exact absurd (Option.some.inj (hold.mp hh)).symm hne
      · intro hh
        exact absurd (Option.some.inj hh).symm hne
  · intro u hu
    rw [htm] at hu
    rw [hlen2]
    exact hI.ticketMutexDom u hu
  · intro u thu hu
    rw [hsm]
    rw [hthr] at hu
    rcases getElem?_set_cases hu with ⟨rfl, -, rfl⟩ | ⟨hne, hu⟩
    · have hold := hI.sectionMutexOK u th hth
      rw [hpc] at hold
      simpa [PC.holdsSection] using hold
    · exact hI.sectionMutexOK u thu hu
  · intro u hu
    rw [hsm] at hu
    rw [hlen2]
    exact hI.sectionMutexDom u hu
  · intro u
    rw [hw, hthr, hI.waitersOK u]
    exact (exists_set_iff hth (by simp [hpc])).symm
  · rw [hw]
    exact hI.waitersNodup
  · intro u thu hu
    rw [hthr] at hu
    rcases getElem?_set_cases hu with ⟨rfl, -, rfl⟩ | ⟨hne, hu⟩
    · refine ⟨(hI.thsOK u th hth).1, ?_⟩
      show th.ticket + 1 = s'.nextTicket
      rw [hnext, htk]
    · refine thOK_next_succ hnext ?_ ?_ (hI.thsOK u thu hu)
      · intro hpcu
        have := (hI.ticketMutexOK u thu hu).mp (by rw [hpcu]; rfl)
        rw [hmt] at this
        exact hne (Option.some.inj this).symm
      · intro hpcu
        have := (hI.ticketMutexOK u thu hu).mp (by rw [hpcu]; rfl)
        rw [hmt] at this
        exact hne (Option.some.inj this).symm
  · by_cases hge : L.toNat ≤ s.nextTicket
    · have hr : retireCount L s' = retireCount L s + 1 := by
        unfold retireCount
        rw [hthr]
        refine countP_set_flip _ hth (by rw [hpc]; rfl) ?_
        have : L.toNat ≤ th.ticket := by omega
        simp [this]
      have h0 := hI.retire
      rw [hnext, hr]
      omega
    · have hr : retireCount L s' = retireCount L s := by
        unfold retireCount
        rw [hthr]
        refine countP_set_same _ hth ?_
        have : ¬ L.toNat ≤ th.ticket := by omega
        rw [hpc]
        simp [this]
      have h0 := hI.retire
      rw [hnext, hr]
      omega
  · intro u v hv hL
    rw [hev, List.mem_cons] at hv
    rcases hv with hnew | hv
    · obtain ⟨rfl, rfl⟩ : u = t ∧ v = th.ticket := by simpa using hnew
      refine ⟨{ th with pc := PC.tickUnlock }, ?_, rfl, Or.inl rfl⟩
      rw [hthr]
      exact getElem?_set_self _ hlen
    · obtain ⟨thu, hu, htk2, hcase⟩ := hI.ticksPin u v hv hL
      have hne : u ≠ t := by
        rintro rfl
        rw [hth] at hu
        obtain rfl := Option.some.inj hu
        rw [hpc] at hcase
        simp at hcase
      refine ⟨thu, ?_, htk2, hcase⟩
      rw [hthr, getElem?_set_other _ hne]
      exact hu
  · intro u thu hu hpd
    rw [hev]
    rw [hthr] at hu
    rcases getElem?_set_cases hu with ⟨rfl, -, rfl⟩ | ⟨hne, hu⟩
    · exact List.mem_cons_self _ _
    · exact List.mem_cons_of_mem _ (hI.drawRecorded u thu hu hpd)
  · intro u v hv hL
    rw [hev, List.mem_cons] at hv
    rcases hv with hnew | hv
    · obtain ⟨rfl, rfl⟩ : u = t ∧ v = th.ticket := by simpa using hnew
      refine Or.inr ⟨{ th with pc := PC.tickUnlock }, ?_, rfl, rfl⟩
      rw [hthr]
      exact getElem?_set_self _ hlen
    · rcases hI.inFlightOrEntered u v hv hL with he | ⟨thu, hu, htk2, hif⟩
      · exact Or.inl (by rw [hev]; exact List.mem_cons_of_mem _ he)
      · have hne : u ≠ t := by
          rintro rfl
          rw [hth] at hu
          obtain rfl := Option.some.inj hu
          rw [hpc] at hif
          simp [PC.inFlight] at hif
        refine Or.inr ⟨thu, ?_, htk2, hif⟩
        rw [hthr, getElem?_set_other _ hne]
        exact hu
  · intro u v hv
    rw [hev, List.mem_cons] at hv
    rcases hv with hnew | hv
    · exact absurd hnew (by simp)
    · exact hI.entersBudget u v hv

theorem inv_unlockTicketMutex {L : Int} {s : Sys} {t : Nat} {s' : Sys}
    (hI : Inv L s) (h : step L s (.unlockTicketMutex t) = some s') : Inv L s' := by
  obtain ⟨th, hth, hpc, hs⟩ := step_unlockTicketMutex_eq h
  have hlen : t < s.threads.length := (List.getElem?_eq_some.mp hth).1
  have hev : s'.events = s.events := by rw [hs]
  have hnext : s'.nextTicket = s.nextTicket := by rw [hs]
  have hact : s'.actualTicket = s.actualTicket := by rw [hs]
  have hsm : s'.sectionMutex = s.sectionMutex := by rw [hs]
  have htm : s'.ticketMutex = none := by rw [hs]
  have hw : s'.waiters = s.waiters := by rw [hs]
  have hthr : s'.threads = s.threads.set t { th with pc := PC.checkBudget } := by rw [hs]
  have hlen2 : s'.threads.length = s.threads.length := by rw [hthr]; simp
  have hmt : s.ticketMutex = some t :=
    (hI.ticketMutexOK t th hth).mp (by rw [hpc]; rfl)
  have hUn : th.ticket + 1 = s.nextTicket := by
    have h2 := (hI.thsOK t th hth).2
    rw [hpc] at h2
    exact h2
  refine ⟨?_, ?_, ?_, ?_, ?_, ?_, ?_, ?_, ?_, ?_, ?_, ?_, ?_, ?_, ?_, ?_⟩
  · rw [hev, hnext]
    exact hI.ticksRange
  · refine CSState_frame hI.csState (by rw [hev]) hact ?_ ?_
    · intro u thu hu hreg
      rw [hthr]
      by_cases he : u = t
      · subst he
        rw [hth] at hu
        obtain rfl := Option.some.inj hu
        rw [hpc] at hreg
        simp [PC.inCSRegion] at hreg
      · rw [getElem?_set_other _ he]
        exact hu
    · intro u thu hu hreg
      rw [hthr] at hu
      rcases getElem?_set_cases hu with ⟨rfl, -, rfl⟩ | ⟨hne, hu⟩
      · simp [PC.inCSRegion] at hreg
      · exact hu
  · have hc : printCount s' = printCount s :=
      printCount_congr hact (by rw [hthr]; exact countP_set_same _ hth (by rw [hpc]; rfl))
    rw [hev, hc]
    exact hI.printsRange
  · rw [hev, hlen2]
    exact hI.printsIds
  · intro u thu hu
    rw [htm]
    rw [hthr] at hu
    rcases getElem?_set_cases hu with ⟨rfl, -, rfl⟩ | ⟨hne, hu⟩
    · simp [PC.holdsTicket]
    · have hold := hI.ticketMutexOK u thu hu
      rw [hmt] at hold
      constructor
      · intro hh
        exact absurd (Option.some.inj (hold.mp hh)).symm hne
      · intro hh
        exact absurd hh (by simp)
  · intro u hu
    rw [htm] at hu
    exact absurd hu (by simp)
  · intro u thu hu
    rw [hsm]
    rw [hthr] at hu
    rcases getElem?_set_cases hu with ⟨rfl, -, rfl⟩ | ⟨hne, hu⟩
    · have hold := hI.sectionMutexOK u th hth
      rw [hpc] at hold
      simpa [PC.holdsSection] using hold
    · exact hI.sectionMutexOK u thu hu
  · intro u hu
    rw [hsm] at hu
    rw [hlen2]
    exact hI.sectionMutexDom u hu
  · intro u
    rw [hw, hthr, hI.waitersOK u]
    exact (exists_set_iff hth (by simp [hpc])).symm
  · rw [hw]
    exact hI.waitersNodup
  · intro u thu hu
    rw [hthr] at hu
    rcases getElem?_set_cases hu with ⟨rfl, -, rfl⟩ | ⟨hne, hu⟩
    · refine ⟨(hI.thsOK u th hth).1, ?_⟩
      show th.ticket < s'.nextTicket
      rw [hnext]
      omega
    · exact thOK_congr hnext (hI.thsOK u thu hu)
  · have hr : retireCount L s' = retireCount L s := by
      unfold retireCount
      rw [hthr]
      exact countP_set_same _ hth (by rw [hpc]; rfl)
    rw [hnext, hr]
    exact hI.retire
  · intro u v hv hL
    rw [hev] at hv
    obtain ⟨thu, hu, htk, hcase⟩ := hI.ticksPin u v hv hL
    by_cases hne : u = t
    · subst hne
      rw [hth] at hu
      obtain rfl := Option.some.inj hu
      refine ⟨{ th with pc := PC.checkBudget }, ?_, htk, Or.inr (Or.inl rfl)⟩
      rw [hthr]
      exact getElem?_set_self _ hlen
    · refine ⟨thu, ?_, htk, hcase⟩
      rw [hthr, getElem?_set_other _ hne]
      exact hu
  · intro u thu hu hpd
    rw [hev]
    rw [hthr] at hu
    rcases getElem?_set_cases hu with ⟨rfl, -, rfl⟩ | ⟨hne, hu⟩
    · exact hI.drawRecorded u th hth (by rw [hpc]; rfl)
    · exact hI.drawRecorded u thu hu hpd
  · intro u v hv hL
    rw [hev] at hv
    rw [hev]
    rcases hI.inFlightOrEntered u v hv hL with he | ⟨thu, hu, htk, hif⟩
    · exact Or.inl he
    · by_cases hne : u = t
      · subst hne
        rw [hth] at hu
        obtain rfl := Option.some.inj hu
        refine Or.inr ⟨{ th with pc := PC.checkBudget }, ?_, htk, rfl⟩
        rw [hthr]
        exact getElem?_set_self _ hlen
      · refine Or.inr ⟨thu, ?_, htk, hif⟩
        rw [hthr, getElem?_set_other _ hne]
        exact hu
  · intro u v hv
    rw [hev] at hv
    exact hI.entersBudget u v hv

theorem inv_testBudget {L : Int} {s : Sys} {t : Nat} {s' : Sys}
    (hI : Inv L s) (h : step L s (.testBudget t) = some s') : Inv L s' := by
  obtain ⟨th, hth, hpc, hbr⟩ := step_testBudget_eq h
  have hlen : t < s.threads.length := (List.getElem?_eq_some.mp hth).1
  have hlt : th.ticket < s.nextTicket := by
    have h2 := (hI.thsOK t th hth).2
    rw [hpc] at h2
    exact h2
  have hkey : ∃ pcn : PC, (pcn = PC.sectionLock ∨ pcn = PC.done) ∧
      s' = { s with threads := s.threads.set t { th with pc := pcn } } ∧
      (pcn = PC.sectionLock → th.ticket < L.toNat) ∧
      (pcn = PC.done → L.toNat ≤ th.ticket) := by
    rcases hbr with ⟨hb, hs⟩ | ⟨hb, hs⟩
    · refine ⟨PC.sectionLock, Or.inl rfl, hs, ?_, ?_⟩
      · intro hx
        omega
      · intro hx
        exact absurd hx (by decide)
    · refine ⟨PC.done, Or.inr rfl, hs, ?_, ?_⟩
      · intro hx
        exact absurd hx (by decide)
      · intro hx
        omega
  obtain ⟨pcn, hpcn, hs, hbud, hout⟩ := hkey
  have hev : s'.events = s.events := by rw [hs]
  have hnext : s'.nextTicket = s.nextTicket := by rw [hs]
  have hact : s'.actualTicket = s.actualTicket := by rw [hs]
  have hsm : s'.sectionMutex = s.sectionMutex := by rw [hs]
  have htm : s'.ticketMutex = s.ticketMutex := by rw [hs]
  have hw : s'.waiters = s.waiters := by rw [hs]
  have hthr : s'.threads = s.threads.set t { th with pc := pcn } := by rw [hs]
  have hlen2 : s'.threads.length = s.threads.length := by rw [hthr]; simp
  have hreg : pcn.inCSRegion = false := by
    rcases hpcn with rfl | rfl <;> rfl
  have hnb : ¬ pcn = PC.blocked := by
    rcases hpcn with rfl | rfl <;> simp
  have hnTick : pcn.holdsTicket = false := by
    rcases hpcn with rfl | rfl <;> rfl
  have hnSec : pcn.holdsSection = false := by
    rcases hpcn with rfl | rfl <;> rfl
  have hnAdv : (pcn == PC.advIncr) = false := by
    rcases hpcn with rfl | rfl <;> rfl
  have hnPost : pcn.postDraw = true := by
    rcases hpcn with rfl | rfl <;> rfl
  refine ⟨?_, ?_, ?_, ?_, ?_, ?_, ?_, ?_, ?_, ?_, ?_, ?_, ?_, ?_, ?_, ?_⟩
  · rw [hev, hnext]
    exact hI.ticksRange
  · refine CSState_frame hI.csState (by rw [hev]) hact ?_ ?_
    · intro u thu hu hreg2
      rw [hthr]
      by_cases he : u = t
      · subst he
        rw [hth] at hu
        obtain rfl := Option.some.inj hu
        rw [hpc] at hreg2
        simp [PC.inCSRegion] at hreg2
      · rw [getElem?_set_other _ he]
        exact hu
    · intro u thu hu hreg2
      rw [hthr] at hu
      rcases getElem?_set_cases hu with ⟨rfl, -, rfl⟩ | ⟨hne, hu⟩
      · rw [hreg] at hreg2
        cases hreg2
      · exact hu
  · have hc : printCount s' = printCount s :=
      printCount_congr hact
        (by rw [hthr]; exact countP_set_same _ hth (by rw [hpc, hnAdv]; rfl))
    rw [hev, hc]
    exact hI.printsRange
  · rw [hev, hlen2]
    exact hI.printsIds
  · intro u thu hu
    rw [htm]
    rw [hthr] at hu
    rcases getElem?_set_cases hu with ⟨rfl, -, rfl⟩ | ⟨hne, hu⟩
    · have hold := hI.ticketMutexOK u th hth
      rw [hpc] at hold
      rw [hnTick]
      simpa [PC.holdsTicket] using hold
    · exact hI.ticketMutexOK u thu hu
  · intro u hu
    rw [htm] at hu
    rw [hlen2]
    exact hI.ticketMutexDom u hu
  · intro u thu hu
    rw [hsm]
    rw [hthr] at hu
    rcases getElem?_set_cases hu with ⟨rfl, -, rfl⟩ | ⟨hne, hu⟩
    · have hold := hI.sectionMutexOK u th hth
      rw [hpc] at hold
      rw [hnSec]
      simpa [PC.holdsSection] using hold
    · exact hI.sectionMutexOK u thu hu
  · intro u hu
    rw [hsm] at hu
    rw [hlen2]
    exact hI.sectionMutexDom u hu
  · intro u
    rw [hw, hthr, hI.waitersOK u]
    refine (exists_set_iff hth ?_).symm
    rw [hpc]
    simp [hnb]
  · rw [hw]
    exact hI.waitersNodup
  · intro u thu hu
    rw [hthr] at hu
    rcases getElem?_set_cases hu with ⟨rfl, -, rfl⟩ | ⟨hne, hu⟩
    · refine ⟨(hI.thsOK u th hth).1, ?_⟩
      rcases hpcn with rfl | rfl
      · show th.ticket < s'.nextTicket ∧ th.ticket < L.toNat
        rw [hnext]
        exact ⟨hlt, hbud rfl⟩
      · show L.toNat ≤ th.ticket
        exact hout rfl
    · exact thOK_congr hnext (hI.thsOK u thu hu)
  · have hr : retireCount L s' = retireCount L s := by
      unfold retireCount
      rw [hthr]
      refine countP_set_same _ hth ?_
      rcases hpcn with rfl | rfl
      · have hnle : ¬ L.toNat ≤ th.ticket := by
          have := hbud rfl
          omega
        rw [hpc]
        simp [hnle]
      · have hle : L.toNat ≤ th.ticket := hout rfl
        rw [hpc]
        simp [hle]
    rw [hnext, hr]
    exact hI.retire
  · intro u v hv hL
    rw [hev] at hv
    obtain ⟨thu, hu, htk, hcase⟩ := hI.ticksPin u v hv hL
    by_cases hne : u = t
    · subst hne
      rw [hth] at hu
      obtain rfl := Option.some.inj hu
      refine ⟨{ th with pc := pcn }, ?_, htk, ?_⟩
      · rw [hthr]
        exact getElem?_set_self _ hlen
      · rcases hpcn with rfl | rfl
        · exfalso
          have := hbud rfl
          omega
        · exact Or.inr (Or.inr rfl)
    · refine ⟨thu, ?_, htk, hcase⟩
      rw [hthr, getElem?_set_other _ hne]
      exact hu
  · intro u thu hu hpd
    rw [hev]
    rw [hthr] at hu
    rcases getElem?_set_cases hu with ⟨rfl, -, rfl⟩ | ⟨hne, hu⟩
    · exact hI.drawRecorded u th hth (by rw [hpc]; rfl)
    · exact hI.drawRecorded u thu hu hpd
  · intro u v hv hL
    rw [hev] at hv
    rw [hev]
    rcases hI.inFlightOrEntered u v hv hL with he | ⟨thu, hu, htk, hif⟩
    · exact Or.inl he
    · by_cases hne : u = t
      · subst hne
        rw [hth] at hu
        obtain rfl := Option.some.inj hu
        rcases hpcn with rfl | rfl
        · refine Or.inr ⟨{ th with pc := PC.sectionLock }, ?_, htk, rfl⟩
          rw [hthr]
          exact getElem?_set_self _ hlen
        · exfalso
          have := hout rfl
          omega
      · refine Or.inr ⟨thu, ?_, htk, hif⟩
        rw [hthr, getElem?_set_other _ hne]
        exact hu
  · intro u v hv
    rw [hev] at hv
    exact hI.entersBudget u v hv

theorem inv_lockSectionMutex {L : Int} {s : Sys} {t : Nat} {s' : Sys}
    (hI : Inv L s) (h : step L s (.lockSectionMutex t) = some s') : Inv L s' := by
  obtain ⟨th, hth, hpc, hmu, hs⟩ := step_lockSectionMutex_eq h
  have hlen : t < s.threads.length := (List.getElem?_eq_some.mp hth).1
  have hev : s'.events = s.events := by rw [hs]
  have hnext : s'.nextTicket = s.nextTicket := by rw [hs]
  have hact : s'.actualTicket = s.actualTicket := by rw [hs]
  have hsm : s'.sectionMutex = some t := by rw [hs]
  have htm : s'.ticketMutex = s.ticketMutex := by rw [hs]
  have hw : s'.waiters = s.waiters := by rw [hs]
  have hthr : s'.threads = s.threads.set t { th with pc := PC.gateCheck } := by rw [hs]
  have hlen2 : s'.threads.length = s.threads.length := by rw [hthr]; simp
  have hpair : th.ticket < s.nextTicket ∧ th.ticket < L.toNat := by
    have h2 := (hI.thsOK t th hth).2
    rw [hpc] at h2
    exact h2
  refine ⟨?_, ?_, ?_, ?_, ?_, ?_, ?_, ?_, ?_, ?_, ?_, ?_, ?_, ?_, ?_, ?_⟩
  · rw [hev, hnext]
    exact hI.ticksRange
  · refine CSState_frame hI.csState (by rw [hev]) hact ?_ ?_
    · intro u thu hu hreg
      rw [hthr]
      by_cases he : u = t
      · subst he
        rw [hth] at hu
        obtain rfl := Option.some.inj hu
        rw [hpc] at hreg
        simp [PC.inCSRegion] at hreg
      · rw [getElem?_set_other _ he]
        exact hu
    · intro u thu hu hreg
      rw [hthr] at hu
      rcases getElem?_set_cases hu with ⟨rfl, -, rfl⟩ | ⟨hne, hu⟩
      · simp [PC.inCSRegion] at hreg
      · exact hu
  · have hc : printCount s' = printCount s :=
      printCount_congr hact (by rw [hthr]; exact countP_set_same _ hth (by rw [hpc]; rfl))
    rw [hev, hc]
    exact hI.printsRange
  · rw [hev, hlen2]
    exact hI.printsIds
  · intro u thu hu
    rw [htm]
    rw [hthr] at hu
    rcases getElem?_set_cases hu with ⟨rfl, -, rfl⟩ | ⟨hne, hu⟩
    · have hold := hI.ticketMutexOK u th hth
      rw [hpc] at hold
      simpa [PC.holdsTicket] using hold
    · exact hI.ticketMutexOK u thu hu
  · intro u hu
    rw [htm] at hu
    rw [hlen2]
    exact hI.ticketMutexDom u hu
  · intro u thu hu
    rw [hsm]
    rw [hthr] at hu
    rcases getElem?_set_cases hu with ⟨rfl, -, rfl⟩ | ⟨hne, hu⟩
    · simp [PC.holdsSection]
    · have hold := hI.sectionMutexOK u thu hu
      rw [hmu] at hold
      simp only [reduceCtorEq, iff_false] at hold
      constructor
      · intro hh
        exact absurd hh hold
      · intro hh
        exact absurd (Option.some.inj hh).symm hne
  · intro u hu
    rw [hsm] at hu
    obtain rfl := (Option.some.inj hu).symm
    rw [hlen2]
    exact hlen
  · intro u
    rw [hw, hthr, hI.waitersOK u]
    exact (exists_set_iff hth (by simp [hpc])).symm
  · rw [hw]
    exact hI.waitersNodup
  · intro u thu hu
    rw [hthr] at hu
    rcases getElem?_set_cases hu with ⟨rfl, -, rfl⟩ | ⟨hne, hu⟩
    · refine ⟨(hI.thsOK u th hth).1, ?_⟩
      show th.ticket < s'.nextTicket ∧ th.ticket < L.toNat
      rw [hnext]
      exact hpair
    · exact thOK_congr hnext (hI.thsOK u thu hu)
  · have hr : retireCount L s' = retireCount L s := by
      unfold retireCount
      rw [hthr]
      exact countP_set_same _ hth (by rw [hpc]; rfl)
    rw [hnext, hr]
    exact hI.retire
  · intro u v hv hL
    rw [hev] at hv
    obtain ⟨thu, hu, htk, hcase⟩ := hI.ticksPin u v hv hL
    have hne : u ≠ t := by
      rintro rfl
      rw [hth] at hu
      obtain rfl := Option.some.inj hu
      rw [hpc] at hcase
      simp at hcase
    refine ⟨thu, ?_, htk, hcase⟩
    rw [hthr, getElem?_set_other _ hne]
    exact hu
  · intro u thu hu hpd
    rw [hev]
    rw [hthr] at hu
    rcases getElem?_set_cases hu with ⟨rfl, -, rfl⟩ | ⟨hne, hu⟩
    · exact hI.drawRecorded u th hth (by rw [hpc]; rfl)
    · exact hI.drawRecorded u thu hu hpd
  · intro u v hv hL
    rw [hev] at hv
    rw [hev]
    rcases hI.inFlightOrEntered u v hv hL with he | ⟨thu, hu, htk, hif⟩
    · exact Or.inl he
    · by_cases hne : u = t
      · subst hne
        rw [hth] at hu
        obtain rfl := Option.some.inj hu
        refine Or.inr ⟨{ th with pc := PC.gateCheck }, ?_, htk, rfl⟩
        rw [hthr]
        exact getElem?_set_self _ hlen
      · refine Or.inr ⟨thu, ?_, htk, hif⟩
        rw [hthr, getElem?_set_other _ hne]
        exact hu
  · intro u v hv
    rw [hev] at hv
    exact hI.entersBudget u v hv

theorem noOccupant_of_gateCheck {L : Int} {s : Sys} {t : Nat} {th : ThreadSt}
    (hI : Inv L s) (hth : s.threads[t]? = some th) (hpc : th.pc = PC.gateCheck) :
    ∀ (u : Nat) (thu : ThreadSt), s.threads[u]? = some thu → thu.pc.inCSRegion = false := by
  intro u thu hu
  by_contra hreg
  rw [Bool.not_eq_false] at hreg
  have hms : s.sectionMutex = some t :=
    (hI.sectionMutexOK t th hth).mp (by rw [hpc]; rfl)
  have hms2 : s.sectionMutex = some u :=
    (hI.sectionMutexOK u thu hu).mp (inCSRegion_holdsSection hreg)
  rw [hms] at hms2
  obtain rfl := Option.some.inj hms2
  rw [hth] at hu
  obtain rfl := Option.some.inj hu
  rw [hpc] at hreg
  cases hreg

theorem inv_testTurn {L : Int} {s : Sys} {t : Nat} {s' : Sys}
    (hI : Inv L s) (h : step L s (.testTurn t) = some s') : Inv L s' := by
  obtain ⟨th, hth, hpc, hbr⟩ := step_testTurn_eq h
  have hlen : t < s.threads.length := (List.getElem?_eq_some.mp hth).1
  have hms : s.sectionMutex = some t :=
    (hI.sectionMutexOK t th hth).mp (by rw [hpc]; rfl)
  have hpair : th.ticket < s.nextTicket ∧ th.ticket < L.toNat := by
    have h2 := (hI.thsOK t th hth).2
    rw [hpc] at h2
    exact h2
  have hnoOcc := noOccupant_of_gateCheck hI hth hpc
  rcases hbr with ⟨hb, hs⟩ | ⟨hb, hs⟩
  · -- admission: `aenter == actual_ticket`, enter the critical section
    have hev : s'.events = Event.enterCS t th.ticket :: s.events := by rw [hs]
    have hnext : s'.nextTicket = s.nextTicket := by rw [hs]
    have hact : s'.actualTicket = s.actualTicket := by rw [hs]
    have hsm : s'.sectionMutex = s.sectionMutex := by rw [hs]
    have htm : s'.ticketMutex = s.ticketMutex := by rw [hs]
    have hw : s'.waiters = s.waiters := by rw [hs]
    have hthr : s'.threads = s.threads.set t { th with pc := PC.inCS } := by rw [hs]
    have hlen2 : s'.threads.length = s.threads.length := by rw [hthr]; simp
    have hlog : CSLog (csOf s.events) s.actualTicket := by
      rcases hI.csState with ⟨-, hlog⟩ | ⟨t', th', ht', hpc', -⟩ |
          ⟨t', th', a₀, ht', hpc', -⟩
      · exact hlog
      · exfalso
        have := hnoOcc t' th' ht'
        rcases hpc' with h' | h' <;> rw [h'] at this <;> cases this
      · exfalso
        have := hnoOcc t' th' ht'
        rcases hpc' with h' | h' <;> rw [h'] at this <;> cases this
    refine ⟨?_, ?_, ?_, ?_, ?_, ?_, ?_, ?_, ?_, ?_, ?_, ?_, ?_, ?_, ?_, ?_⟩
    · rw [hev, ticksOf_enterCS, hnext]
      exact hI.ticksRange
    · refine Or.inr (Or.inl ⟨t, { th with pc := PC.inCS }, ?_, Or.inl rfl, ?_, csOf s.events, ?_, ?_⟩)
      · rw [hthr]
        exact getElem?_set_self _ hlen
      · show th.ticket = s'.actualTicket
        rw [hact]
        exact hb
      · rw [hev, csOf_enterCS, hact, hb]
      · rw [hact]
        exact hlog
    · have hc : printCount s' = printCount s :=
        printCount_congr hact (by rw [hthr]; exact countP_set_same _ hth (by rw [hpc]; rfl))
      rw [hev, printsOf_enterCS, hc]
      exact hI.printsRange
    · intro pr hpr
      rw [hev, printsOf_enterCS] at hpr
      rw [hlen2]
      exact hI.printsIds pr hpr
    · intro u thu hu
      rw [htm]
      rw [hthr] at hu
      rcases getElem?_set_cases hu with ⟨rfl, -, rfl⟩ | ⟨hne, hu⟩
      · have hold := hI.ticketMutexOK u th hth
        rw [hpc] at hold
        simpa [PC.holdsTicket] using hold
      · exact hI.ticketMutexOK u thu hu
    · intro u hu
      rw [htm] at hu
      rw [hlen2]
      exact hI.ticketMutexDom u hu
    · intro u thu hu
      rw [hsm, hms]
      rw [hthr] at hu
      rcases getElem?_set_cases hu with ⟨rfl, -, rfl⟩ | ⟨hne, hu⟩
      · simp [PC.holdsSection]
      · have hold := hI.sectionMutexOK u thu hu
        rw [hms] at hold
        constructor
        · intro hh
          exact absurd (Option.some.inj (hold.mp hh)).symm hne
        · intro hh
          exact absurd (Option.some.inj hh).symm hne
    · intro u hu
      rw [hsm] at hu
      rw [hlen2]
      exact hI.sectionMutexDom u hu
    · intro u
      rw [hw, hthr, hI.waitersOK u]
      exact (exists_set_iff hth (by simp [hpc])).symm
    · rw [hw]
      exact hI.waitersNodup
    · intro u thu hu
      rw [hthr] at hu
      rcases getElem?_set_cases hu with ⟨rfl, -, rfl⟩ | ⟨hne, hu⟩
      · exact ⟨(hI.thsOK u th hth).1, trivial⟩
      · exact thOK_congr hnext (hI.thsOK u thu hu)
    · have hr : retireCount L s' = retireCount L s := by
        unfold retireCount
        rw [hthr]
        exact countP_set_same _ hth (by rw [hpc]; rfl)
      rw [hnext, hr]
      exact hI.retire
    · intro u v hv hL
      rw [hev, List.mem_cons] at hv
      rcases hv with hnew | hv
      · exact absurd hnew (by simp)
      · obtain ⟨thu, hu, htk, hcase⟩ := hI.ticksPin u v hv hL
        have hne : u ≠ t := by
          rintro rfl
          rw [hth] at hu
          obtain rfl := Option.some.inj hu
          rw [hpc] at hcase
          simp at hcase
        refine ⟨thu, ?_, htk, hcase⟩
        rw [hthr, getElem?_set_other _ hne]
        exact hu
    · intro u thu hu hpd
      rw [hev]
      rw [hthr] at hu
      rcases getElem?_set_cases hu with ⟨rfl, -, rfl⟩ | ⟨hne, hu⟩
      · exact List.mem_cons_of_mem _ (hI.drawRecorded u th hth (by rw [hpc]; rfl))
      · exact List.mem_cons_of_mem _ (hI.drawRecorded u thu hu hpd)
    · intro u v hv hL
      rw [hev, List.mem_cons] at hv
      rcases hv with hnew | hv
      · exact absurd hnew (by simp)
      · rcases hI.inFlightOrEntered u v hv hL with he | ⟨thu, hu, htk, hif⟩
        · exact Or.inl (by rw [hev]; exact List.mem_cons_of_mem _ he)
        · by_cases hne : u = t
          · subst hne
            rw [hth] at hu
            obtain rfl := Option.some.inj hu
            refine Or.inl ?_
            rw [hev, htk]
            exact List.mem_cons_self _ _
          · refine Or.inr ⟨thu, ?_, htk, hif⟩
            rw [hthr, getElem?_set_other _ hne]
            exact hu
    · intro u v hv
      rw [hev, List.mem_cons] at hv
      rcases hv with hnew | hv
      · obtain ⟨rfl, rfl⟩ : u = t ∧ v = th.ticket := by simpa using hnew
        exact hpair.2
      · exact hI.entersBudget u v hv
  · -- wrong turn: fall into the relay/wait branch of the while loop
    have hev : s'.events = s.events := by rw [hs]
    have hnext : s'.nextTicket = s.nextTicket := by rw [hs]
    have hact : s'.actualTicket = s.actualTicket := by rw [hs]
    have hsm : s'.sectionMutex = s.sectionMutex := by rw [hs]
    have htm : s'.ticketMutex = s.ticketMutex := by rw [hs]
    have hw : s'.waiters = s.waiters := by rw [hs]
    have hthr : s'.threads = s.threads.set t { th with pc := PC.relaySignal } := by rw [hs]
    have hlen2 : s'.threads.length = s.threads.length := by rw [hthr]; simp
    refine ⟨?_, ?_, ?_, ?_, ?_, ?_, ?_, ?_, ?_, ?_, ?_, ?_, ?_, ?_, ?_, ?_⟩
    · rw [hev, hnext]
      exact hI.ticksRange
    · refine CSState_frame hI.csState (by rw [hev]) hact ?_ ?_
      · intro u thu hu hreg
        rw [hthr]
        by_cases he : u = t
        · subst he
          rw [hth] at hu
          obtain rfl := Option.some.inj hu
          rw [hpc] at hreg
          simp [PC.inCSRegion] at hreg
        · rw [getElem?_set_other _ he]
          exact hu
      · intro u thu hu hreg
        rw [hthr] at hu
        rcases getElem?_set_cases hu with ⟨rfl, -, rfl⟩ | ⟨hne, hu⟩
        · simp [PC.inCSRegion] at hreg
        · exact hu
    · have hc : printCount s' = printCount s :=
        printCount_congr hact (by rw [hthr]; exact countP_set_same _ hth (by rw [hpc]; rfl))
      rw [hev, hc]
      exact hI.printsRange
    · rw [hev, hlen2]
      exact hI.printsIds
    · intro u thu hu
      rw [htm]
      rw [hthr] at hu
      rcases getElem?_set_cases hu with ⟨rfl, -, rfl⟩ | ⟨hne, hu⟩
      · have hold := hI.ticketMutexOK u th hth
        rw [hpc] at hold
        simpa [PC.holdsTicket] using hold
      · exact hI.ticketMutexOK u thu hu
    · intro u hu
      rw [htm] at hu
      rw [hlen2]
      exact hI.ticketMutexDom u hu
    · intro u thu hu
      rw [hsm, hms]
      rw [hthr] at hu
      rcases getElem?_set_cases hu with ⟨rfl, -, rfl⟩ | ⟨hne, hu⟩
      · simp [PC.holdsSection]
      · have hold := hI.sectionMutexOK u thu hu
        rw [hms] at hold
        constructor
        · intro hh
          exact absurd (Option.some.inj (hold.mp hh)).symm hne
        · intro hh
          exact absurd (Option.some.inj hh).symm hne
    · intro u hu
      rw [hsm] at hu
      rw [hlen2]
      exact hI.sectionMutexDom u hu
    · intro u
      rw [hw, hthr, hI.waitersOK u]
      exact (exists_set_iff hth (by simp [hpc])).symm
    · rw [hw]
      exact hI.waitersNodup
    · intro u thu hu
      rw [hthr] at hu
      rcases getElem?_set_cases hu with ⟨rfl, -, rfl⟩ | ⟨hne, hu⟩
      · refine ⟨(hI.thsOK u th hth).1, ?_⟩
        show th.ticket < s'.nextTicket ∧ th.ticket < L.toNat
        rw [hnext]
        exact hpair
      · exact thOK_congr hnext (hI.thsOK u thu hu)
    · have hr : retireCount L s' = retireCount L s := by
        unfold retireCount
        rw [hthr]
        exact countP_set_same _ hth (by rw [hpc]; rfl)
      rw [hnext, hr]
      exact hI.retire
    · intro u v hv hL
      rw [hev] at hv
      obtain ⟨thu, hu, htk, hcase⟩ := hI.ticksPin u v hv hL
      have hne : u ≠ t := by
        rintro rfl
        rw [hth] at hu
        obtain rfl := Option.some.inj hu
        rw [hpc] at hcase
        simp at hcase
      refine ⟨thu, ?_, htk, hcase⟩
      rw [hthr, getElem?_set_other _ hne]
      exact hu
    · intro u thu hu hpd
      rw [hev]
      rw [hthr] at hu
      rcases getElem?_set_cases hu with ⟨rfl, -, rfl⟩ | ⟨hne, hu⟩
      · exact hI.drawRecorded u th hth (by rw [hpc]; rfl)
      · exact hI.drawRecorded u thu hu hpd
    · intro u v hv hL
      rw [hev] at hv
      rw [hev]
      rcases hI.inFlightOrEntered u v hv hL with he | ⟨thu, hu, htk, hif⟩
      · exact Or.inl he
      · by_cases hne : u = t
        · subst hne
          rw [hth] at hu
          obtain rfl := Option.some.inj hu
          refine Or.inr ⟨{ th with pc := PC.relaySignal }, ?_, htk, rfl⟩
          rw [hthr]
          exact getElem?_set_self _ hlen
        · refine Or.inr ⟨thu, ?_, htk, hif⟩
          rw [hthr, getElem?_set_other _ hne]
          exact hu
    · intro u v hv
      rw [hev] at hv
      exact hI.entersBudget u v hv

theorem getElem?_set2_cases {α : Type} {l : List α} {t u0 x : Nat} {a b c : α}
    (hx : ((l.set u0 b).set t a)[x]? = some c) :
    (x = t ∧ t < l.length ∧ c = a) ∨ (x = u0 ∧ u0 < l.length ∧ c = b) ∨
    (x ≠ t ∧ x ≠ u0 ∧ l[x]? = some c) := by
  rcases getElem?_set_cases hx with ⟨rfl, hlt, rfl⟩ | ⟨hxt, hx⟩
  · rw [List.length_set] at hlt
    exact Or.inl ⟨rfl, hlt, rfl⟩
  · rcases getElem?_set_cases hx with ⟨rfl, hlt, rfl⟩ | ⟨hxu, hx⟩
    · exact Or.inr (Or.inl ⟨rfl, hlt, rfl⟩)
    · exact Or.inr (Or.inr ⟨hxt, hxu, hx⟩)

theorem getElem?_set2_self_t {α : Type} {l : List α} {t u0 : Nat} (a b : α)
    (hlt : t < l.length) : ((l.set u0 b).set t a)[t]? = some a := by
  apply getElem?_set_self
  simpa using hlt

theorem getElem?_set2_self_u {α : Type} {l : List α} {t u0 : Nat} (a b : α)
    (hne : u0 ≠ t) (hlt : u0 < l.length) : ((l.set u0 b).set t a)[u0]? = some b := by
  rw [getElem?_set_other _ hne]
  exact getElem?_set_self _ hlt

theorem getElem?_set2_other {α : Type} {l : List α} {t u0 x : Nat} (a b : α)
    (h1 : x ≠ t) (h2 : x ≠ u0) : ((l.set u0 b).set t a)[x]? = l[x]? := by
  rw [getElem?_set_other _ h1, getElem?_set_other _ h2]

theorem countP_set2_same {α : Type} (p : α → Bool) {l : List α} {t u0 : Nat}
    {a b tha thb : α} (hne : u0 ≠ t) (hth : l[t]? = some tha) (hu : l[u0]? = some thb)
    (hpa : p a = p tha) (hpb : p b = p thb) :
    ((l.set u0 b).set t a).countP p = l.countP p := by
  have h1 : (l.set u0 b)[t]? = some tha := by
    rw [getElem?_set_other _ (Ne.symm hne)]
    exact hth
  rw [countP_set_same p h1 hpa, countP_set_same p hu hpb]

theorem inv_signalRelay {L : Int} {s : Sys} {t : Nat} {w : Option Nat} {s' : Sys}
    (hI : Inv L s) (h : step L s (.signalRelay t w) = some s') : Inv L s' := by
  obtain ⟨th, s₁, th', hth, hpc, hsig, hth', hs⟩ := step_signalRelay_eq h
  have hlen : t < s.threads.length := (List.getElem?_eq_some.mp hth).1
  have hms : s.sectionMutex = some t :=
    (hI.sectionMutexOK t th hth).mp (by rw [hpc]; rfl)
  rcases doSignal_eq hsig with ⟨hwnil, -, hseq⟩ | ⟨u0, thu, -, hu0w, hu0, hs1⟩
  · -- the signal found no waiter and was lost
    have hth'2 : th = th' := by
      rw [hseq, hth] at hth'
      exact Option.some.inj hth'
    subst hth'2
    have hev : s'.events = s.events := by rw [hs, hseq]
    have hnext : s'.nextTicket = s.nextTicket := by rw [hs, hseq]
    have hact : s'.actualTicket = s.actualTicket := by rw [hs, hseq]
    have hsm : s'.sectionMutex = s.sectionMutex := by rw [hs, hseq]
    have htm : s'.ticketMutex = s.ticketMutex := by rw [hs, hseq]
    have hw : s'.waiters = s.waiters := by rw [hs, hseq]
    have hthr : s'.threads = s.threads.set t { th with pc := PC.condWait } := by
      rw [hs, hseq]
    have hlen2 : s'.threads.length = s.threads.length := by rw [hthr]; simp
    have hpair : th.ticket < s.nextTicket ∧ th.ticket < L.toNat := by
      have h2 := (hI.thsOK t th hth).2
      rw [hpc] at h2
      exact h2
    refine ⟨?_, ?_, ?_, ?_, ?_, ?_, ?_, ?_, ?_, ?_, ?_, ?_, ?_, ?_, ?_, ?_⟩
    · rw [hev, hnext]
      exact hI.ticksRange
    · refine CSState_frame hI.csState (by rw [hev]) hact ?_ ?_
      · intro u thu hu hreg
        rw [hthr]
        by_cases he : u = t
        · subst he
          rw [hth] at hu
          obtain rfl := Option.some.inj hu
          rw [hpc] at hreg
          simp [PC.inCSRegion] at hreg
        · rw [getElem?_set_other _ he]
          exact hu
      · intro u thu hu hreg
        rw [hthr] at hu
        rcases getElem?_set_cases hu with ⟨rfl, -, rfl⟩ | ⟨hne, hu⟩
        · simp [PC.inCSRegion] at hreg
        · exact hu
    · have hc : printCount s' = printCount s :=
        printCount_congr hact (by rw [hthr]; exact countP_set_same _ hth (by rw [hpc]; rfl))
      rw [hev, hc]
      exact hI.printsRange
    · rw [hev, hlen2]
      exact hI.printsIds
    · intro u thu hu
      rw [htm]
      rw [hthr] at hu
      rcases getElem?_set_cases hu with ⟨rfl, -, rfl⟩ | ⟨hne, hu⟩
      · have hold := hI.ticketMutexOK u th hth
        rw [hpc] at hold
        simpa [PC.holdsTicket] using hold
      · exact hI.ticketMutexOK u thu hu
    · intro u hu
      rw [htm] at hu
      rw [hlen2]
      exact hI.ticketMutexDom u hu
    · intro u thu hu
      rw [hsm, hms]
      rw [hthr] at hu
      rcases getElem?_set_cases hu with ⟨rfl, -, rfl⟩ | ⟨hne, hu⟩
      · simp [PC.holdsSection]
      · have hold := hI.sectionMutexOK u thu hu
        rw [hms] at hold
        constructor
        · intro hh
          exact absurd (Option.some.inj (hold.mp hh)).symm hne
        · intro hh
          exact absurd (Option.some.inj hh).symm hne
    · intro u hu
      rw [hsm] at hu
      rw [hlen2]
      exact hI.sectionMutexDom u hu
    · intro u
      rw [hw, hthr, hI.waitersOK u]
      exact (exists_set_iff hth (by simp [hpc])).symm
    · rw [hw]
      exact hI.waitersNodup
    · intro u thu hu
      rw [hthr] at hu
      rcases getElem?_set_cases hu with ⟨rfl, -, rfl⟩ | ⟨hne, hu⟩
      · refine ⟨(hI.thsOK u th hth).1, ?_⟩
        show th.ticket < s'.nextTicket ∧ th.ticket < L.toNat
        rw [hnext]
        exact hpair
      · exact thOK_congr hnext (hI.thsOK u thu hu)
    · have hr : retireCount L s' = retireCount L s := by
        unfold retireCount
        rw [hthr]
        exact countP_set_same _ hth (by rw [hpc]; rfl)
      rw [hnext, hr]
      exact hI.retire
    · intro u v hv hL
      rw [hev] at hv
      obtain ⟨thu, hu, htk, hcase⟩ := hI.ticksPin u v hv hL
      have hne : u ≠ t := by
        rintro rfl
        rw [hth] at hu
        obtain rfl := Option.some.inj hu
        rw [hpc] at hcase
        simp at hcase
      refine ⟨thu, ?_, htk, hcase⟩
      rw [hthr, getElem?_set_other _ hne]
      exact hu
    · intro u thu hu hpd
      rw [hev]
      rw [hthr] at hu
      rcases getElem?_set_cases hu with ⟨rfl, -, rfl⟩ | ⟨hne, hu⟩
      · exact hI.drawRecorded u th hth (by rw [hpc]; rfl)
      · exact hI.drawRecorded u thu hu hpd
    · intro u v hv hL
      rw [hev] at hv
      rw [hev]
      rcases hI.inFlightOrEntered u v hv hL with he | ⟨thu, hu, htk, hif⟩
      · exact Or.inl he
      · by_cases hne : u = t
        · subst hne
          rw [hth] at hu
          obtain rfl := Option.some.inj hu
          refine Or.inr ⟨{ th with pc := PC.condWait }, ?_, htk, rfl⟩
          rw [hthr]
          exact getElem?_set_self _ hlen
        · refine Or.inr ⟨thu, ?_, htk, hif⟩
          rw [hthr, getElem?_set_other _ hne]
          exact hu
    · intro u v hv
      rw [hev] at hv
      exact hI.entersBudget u v hv
  · -- the signal wakes the blocked thread u0
    have hu0b : thu.pc = PC.blocked := by
      obtain ⟨thu2, hu2, hb2⟩ := (hI.waitersOK u0).mp hu0w
      rw [hu0] at hu2
      obtain rfl := Option.some.inj hu2
      exact hb2
    have hu0t : u0 ≠ t := by
      rintro rfl
      rw [hu0] at hth
      obtain rfl := Option.some.inj hth
      rw [hpc] at hu0b
      cases hu0b
    have hu0len : u0 < s.threads.length := (List.getElem?_eq_some.mp hu0).1
    have hs1thr : s₁.threads = s.threads.set u0 { thu with pc := PC.woken } := by rw [hs1]
    have hth'2 : th = th' := by
      rw [hs1thr, getElem?_set_other _ (Ne.symm hu0t), hth] at hth'
      exact Option.some.inj hth'
    subst hth'2
    have hev : s'.events = s.events := by rw [hs, hs1]
    have hnext : s'.nextTicket = s.nextTicket := by rw [hs, hs1]
    have hact : s'.actualTicket = s.actualTicket := by rw [hs, hs1]
    have hsm : s'.sectionMutex = s.sectionMutex := by rw [hs, hs1]
    have htm : s'.ticketMutex = s.ticketMutex := by rw [hs, hs1]
    have hw : s'.waiters = s.waiters.erase u0 := by rw [hs, hs1]
    have hthr : s'.threads =
        (s.threads.set u0 { thu with pc := PC.woken }).set t { th with pc := PC.condWait } := by
      rw [hs, hs1thr]
    have hlen2 : s'.threads.length = s.threads.length := by rw [hthr]; simp
    have hpair : th.ticket < s.nextTicket ∧ th.ticket < L.toNat := by
      have h2 := (hI.thsOK t th hth).2
      rw [hpc] at h2
      exact h2
    have hpairu : thu.ticket < s.nextTicket ∧ thu.ticket < L.toNat := by
      have h2 := (hI.thsOK u0 thu hu0).2
      rw [hu0b] at h2
      exact h2
    refine ⟨?_, ?_, ?_, ?_, ?_, ?_, ?_, ?_, ?_, ?_, ?_, ?_, ?_, ?_, ?_, ?_⟩
    · rw [hev, hnext]
      exact hI.ticksRange
    · refine CSState_frame hI.csState (by rw [hev]) hact ?_ ?_
      · intro x thx hx hreg
        rw [hthr]
        by_cases hxt : x = t
        · subst hxt
          rw [hth] at hx
          obtain rfl := Option.some.inj hx
          rw [hpc] at hreg
          cases hreg
        · by_cases hxu : x = u0
          · subst hxu
            rw [hu0] at hx
            obtain rfl := Option.some.inj hx
            rw [hu0b] at hreg
            cases hreg
          · rw [getElem?_set2_other _ _ hxt hxu]
            exact hx
      · intro x thx hx hreg
        rw [hthr] at hx
        rcases getElem?_set2_cases hx with ⟨rfl, -, rfl⟩ | ⟨rfl, -, rfl⟩ | ⟨-, -, hx⟩
        · cases hreg
        · cases hreg
        · exact hx
    · have hc : printCount s' = printCount s := by
        refine printCount_congr hact ?_
        rw [hthr]
        exact countP_set2_same _ hu0t hth hu0 (by rw [hpc]; rfl) (by rw [hu0b]; rfl)
      rw [hev, hc]
      exact hI.printsRange
    · rw [hev, hlen2]
      exact hI.printsIds
    · intro x thx hx
      rw [htm]
      rw [hthr] at hx
      rcases getElem?_set2_cases hx with ⟨rfl, -, rfl⟩ | ⟨rfl, -, rfl⟩ | ⟨hxt, hxu, hx⟩
      · have hold := hI.ticketMutexOK x th hth
        rw [hpc] at hold
        simpa [PC.holdsTicket] using hold
      · have hold := hI.ticketMutexOK x thu hu0
        rw [hu0b] at hold
        simpa [PC.holdsTicket] using hold
      · exact hI.ticketMutexOK x thx hx
    · intro x hx
      rw [htm] at hx
      rw [hlen2]
      exact hI.ticketMutexDom x hx
    · intro x thx hx
      rw [hsm, hms]
      rw [hthr] at hx
      rcases getElem?_set2_cases hx with ⟨rfl, -, rfl⟩ | ⟨rfl, -, rfl⟩ | ⟨hxt, hxu, hx⟩
      · simp [PC.holdsSection]
      · constructor
        · intro hh
          cases hh
        · intro hh
          exact absurd (Option.some.inj hh).symm hu0t
      · have hold := hI.sectionMutexOK x thx hx
        rw [hms] at hold
        constructor
        · intro hh
          exact absurd (Option.some.inj (hold.mp hh)).symm hxt
        · intro hh
          exact absurd (Option.some.inj hh).symm hxt
    · intro x hx
      rw [hsm] at hx
      rw [hlen2]
      exact hI.sectionMutexDom x hx
    · intro x
      rw [hw, List.Nodup.mem_erase_iff hI.waitersNodup, hI.waitersOK x, hthr]
      constructor
      · rintro ⟨hxu, thx, hx, hb⟩
        have hxt : x ≠ t := by
          rintro rfl
          rw [hth] at hx
          obtain rfl := Option.some.inj hx
          rw [hpc] at hb
          cases hb
        refine ⟨thx, ?_, hb⟩
        rw [getElem?_set2_other _ _ hxt hxu]
        exact hx
      · rintro ⟨thx, hx, hb⟩
        rcases getElem?_set2_cases hx with ⟨rfl, -, rfl⟩ | ⟨rfl, -, rfl⟩ | ⟨hxt, hxu, hx⟩
        · cases hb
        · cases hb
        · exact ⟨hxu, thx, hx, hb⟩
    · rw [hw]
      exact hI.waitersNodup.erase u0
    · intro x thx hx
      rw [hthr] at hx
      rcases getElem?_set2_cases hx with ⟨rfl, -, rfl⟩ | ⟨rfl, -, rfl⟩ | ⟨hxt, hxu, hx⟩
      · refine ⟨(hI.thsOK x th hth).1, ?_⟩
        show th.ticket < s'.nextTicket ∧ th.ticket < L.toNat
        rw [hnext]
        exact hpair
      · refine ⟨(hI.thsOK x thu hu0).1, ?_⟩
        show thu.ticket < s'.nextTicket ∧ thu.ticket < L.toNat
        rw [hnext]
        exact hpairu
      · exact thOK_congr hnext (hI.thsOK x thx hx)
    · have hr : retireCount L s' = retireCount L s := by
        unfold retireCount
        rw [hthr]
        exact countP_set2_same _ hu0t hth hu0 (by rw [hpc]; rfl) (by rw [hu0b]; rfl)
      rw [hnext, hr]
      exact hI.retire
    · intro x v hv hL
      rw [hev] at hv
      obtain ⟨thx, hx, htk, hcase⟩ := hI.ticksPin x v hv hL
      have hxt : x ≠ t := by
        rintro rfl
        rw [hth] at hx
        obtain rfl := Option.some.inj hx
        rw [hpc] at hcase
        simp at hcase
      have hxu : x ≠ u0 := by
        rintro rfl
        rw [hu0] at hx
        obtain rfl := Option.some.inj hx
        rw [hu0b] at hcase
        simp at hcase
      refine ⟨thx, ?_, htk, hcase⟩
      rw [hthr, getElem?_set2_other _ _ hxt hxu]
      exact hx
    · intro x thx hx hpd
      rw [hev]
      rw [hthr] at hx
      rcases getElem?_set2_cases hx with ⟨rfl, -, rfl⟩ | ⟨rfl, -, rfl⟩ | ⟨hxt, hxu, hx⟩
      · exact hI.drawRecorded x th hth (by rw [hpc]; rfl)
      · exact hI.drawRecorded x thu hu0 (by rw [hu0b]; rfl)
      · exact hI.drawRecorded x thx hx hpd
    · intro x v hv hL
      rw [hev] at hv
      rw [hev]
      rcases hI.inFlightOrEntered x v hv hL with he | ⟨thx, hx, htk, hif⟩
      · exact Or.inl he
      · by_cases hxt : x = t
        · subst hxt
          rw [hth] at hx
          obtain rfl := Option.some.inj hx
          refine Or.inr ⟨{ th with pc := PC.condWait }, ?_, htk, rfl⟩
          rw [hthr]
          exact getElem?_set2_self_t _ _ hlen
        · by_cases hxu : x = u0
          · subst hxu
            rw [hu0] at hx
            obtain rfl := Option.some.inj hx
            refine Or.inr ⟨{ thu with pc := PC.woken }, ?_, htk, rfl⟩
            rw [hthr]
            exact getElem?_set2_self_u _ _ hu0t hu0len
          · refine Or.inr ⟨thx, ?_, htk, hif⟩
            rw [hthr, getElem?_set2_other _ _ hxt hxu]
            exact hx
    · intro x v hv
      rw [hev] at hv
      exact hI.entersBudget x v hv

theorem inv_waitCond {L : Int} {s : Sys} {t : Nat} {s' : Sys}
    (hI : Inv L s) (h : step L s (.waitCond t) = some s') : Inv L s' := by
  obtain ⟨th, hth, hpc, hmu, hs⟩ := step_waitCond_eq h
  have hlen : t < s.threads.length := (List.getElem?_eq_some.mp hth).1
  have hev : s'.events = s.events := by rw [hs]
  have hnext : s'.nextTicket = s.nextTicket := by rw [hs]
  have hact : s'.actualTicket = s.actualTicket := by rw [hs]
  have hsm : s'.sectionMutex = none := by rw [hs]
  have htm : s'.ticketMutex = s.ticketMutex := by rw [hs]
  have hw : s'.waiters = t :: s.waiters := by rw [hs]
  have hthr : s'.threads = s.threads.set t { th with pc := PC.blocked } := by rw [hs]
  have hlen2 : s'.threads.length = s.threads.length := by rw [hthr]; simp
  have hpair : th.ticket < s.nextTicket ∧ th.ticket < L.toNat := by
    have h2 := (hI.thsOK t th hth).2
    rw [hpc] at h2
    exact h2
  have htnotin : t ∉ s.waiters := by
    intro hmem
    obtain ⟨th2, hth2, hb2⟩ := (hI.waitersOK t).mp hmem
    rw [hth] at hth2
    obtain rfl := Option.some.inj hth2
    rw [hpc] at hb2
    cases hb2
  refine ⟨?_, ?_, ?_, ?_, ?_, ?_, ?_, ?_, ?_, ?_, ?_, ?_, ?_, ?_, ?_, ?_⟩
  · rw [hev, hnext]
    exact hI.ticksRange
  · refine CSState_frame hI.csState (by rw [hev]) hact ?_ ?_
    · intro u thu hu hreg
      rw [hthr]
      by_cases he : u = t
      · subst he
        rw [hth] at hu
        obtain rfl := Option.some.inj hu
        rw [hpc] at hreg
        cases hreg
      · rw [getElem?_set_other _ he]
        exact hu
    · intro u thu hu hreg
      rw [hthr] at hu
      rcases getElem?_set_cases hu with ⟨rfl, -, rfl⟩ | ⟨hne, hu⟩
      · cases hreg
      · exact hu
  · have hc : printCount s' = printCount s :=
      printCount_congr hact (by rw [hthr]; exact countP_set_same _ hth (by rw [hpc]; rfl))
    rw [hev, hc]
    exact hI.printsRange
  · rw [hev, hlen2]
    exact hI.printsIds
  · intro u thu hu
    rw [htm]
    rw [hthr] at hu
    rcases getElem?_set_cases hu with ⟨rfl, -, rfl⟩ | ⟨hne, hu⟩
    · have hold := hI.ticketMutexOK u th hth
      rw [hpc] at hold
      simpa [PC.holdsTicket] using hold
    · exact hI.ticketMutexOK u thu hu
  · intro u hu
    rw [htm] at hu
    rw [hlen2]
    exact hI.ticketMutexDom u hu
  · intro u thu hu
    rw [hsm]
    rw [hthr] at hu
    rcases getElem?_set_cases hu with ⟨rfl, -, rfl⟩ | ⟨hne, hu⟩
    · simp [PC.holdsSection]
    · have hold := hI.sectionMutexOK u thu hu
      rw [hmu] at hold
      constructor
      · intro hh
        exact absurd (Option.some.inj (hold.mp hh)).symm hne
      · intro hh
        exact absurd hh (by simp)
  · intro u hu
    rw [hsm] at hu
    exact absurd hu (by simp)
  · intro u
    rw [hw, hthr, List.mem_cons]
    constructor
    · rintro (rfl | hmem)
      · exact ⟨{ th with pc := PC.blocked }, getElem?_set_self _ hlen, rfl⟩
      · obtain ⟨thu, hu, hb⟩ := (hI.waitersOK u).mp hmem
        have hne : u ≠ t := by
          rintro rfl
          exact htnotin hmem
        refine ⟨thu, ?_, hb⟩
        rw [getElem?_set_other _ hne]
        exact hu
    · rintro ⟨thu, hu, hb⟩
      rcases getElem?_set_cases hu with ⟨rfl, -, rfl⟩ | ⟨hne, hu⟩
      · exact Or.inl rfl
      · exact Or.inr ((hI.waitersOK u).mpr ⟨thu, hu, hb⟩)
  · rw [hw]
    exact List.nodup_cons.mpr ⟨htnotin, hI.waitersNodup⟩
  · intro u thu hu
    rw [hthr] at hu
    rcases getElem?_set_cases hu with ⟨rfl, -, rfl⟩ | ⟨hne, hu⟩
    · refine ⟨(hI.thsOK u th hth).1, ?_⟩
      show th.ticket < s'.nextTicket ∧ th.ticket < L.toNat
      rw [hnext]
      exact hpair
    · exact thOK_congr hnext (hI.thsOK u thu hu)
  · have hr : retireCount L s' = retireCount L s := by
      unfold retireCount
      rw [hthr]
      exact countP_set_same _ hth (by rw [hpc]; rfl)
    rw [hnext, hr]
    exact hI.retire
  · intro u v hv hL
    rw [hev] at hv
    obtain ⟨thu, hu, htk, hcase⟩ := hI.ticksPin u v hv hL
    have hne : u ≠ t := by
      rintro rfl
      rw [hth] at hu
      obtain rfl := Option.some.inj hu
      rw [hpc] at hcase
      simp at hcase
    refine ⟨thu, ?_, htk, hcase⟩
    rw [hthr, getElem?_set_other _ hne]
    exact hu
  · intro u thu hu hpd
    rw [hev]
    rw [hthr] at hu
    rcases getElem?_set_cases hu with ⟨rfl, -, rfl⟩ | ⟨hne, hu⟩
    · exact hI.drawRecorded u th hth (by rw [hpc]; rfl)
    · exact hI.drawRecorded u thu hu hpd
  · intro u v hv hL
    rw [hev] at hv
    rw [hev]
    rcases hI.inFlightOrEntered u v hv hL with he | ⟨thu, hu, htk, hif⟩
    · exact Or.inl he
    · by_cases hne : u = t
      · subst hne
        rw [hth] at hu
        obtain rfl := Option.some.inj hu
        refine Or.inr ⟨{ th with pc := PC.blocked }, ?_, htk, rfl⟩
        rw [hthr]
        exact getElem?_set_self _ hlen
      · refine Or.inr ⟨thu, ?_, htk, hif⟩
        rw [hthr, getElem?_set_other _ hne]
        exact hu
  · intro u v hv
    rw [hev] at hv
    exact hI.entersBudget u v hv

theorem inv_reacquire {L : Int} {s : Sys} {t : Nat} {s' : Sys}
    (hI : Inv L s) (h : step L s (.reacquire t) = some s') : Inv L s' := by
  obtain ⟨th, hth, hpc, hmu, hs⟩ := step_reacquire_eq h
  have hlen : t < s.threads.length := (List.getElem?_eq_some.mp hth).1
  have hev : s'.events = s.events := by rw [hs]
  have hnext : s'.nextTicket = s.nextTicket := by rw [hs]
  have hact : s'.actualTicket = s.actualTicket := by rw [hs]
  have hsm : s'.sectionMutex = some t := by rw [hs]
  have htm : s'.ticketMutex = s.ticketMutex := by rw [hs]
  have hw : s'.waiters = s.waiters := by rw [hs]
  have hthr : s'.threads = s.threads.set t { th with pc := PC.gateCheck } := by rw [hs]
  have hlen2 : s'.threads.length = s.threads.length := by rw [hthr]; simp
  have hpair : th.ticket < s.nextTicket ∧ th.ticket < L.toNat := by
    have h2 := (hI.thsOK t th hth).2
    rw [hpc] at h2
    exact h2
  refine ⟨?_, ?_, ?_, ?_, ?_, ?_, ?_, ?_, ?_, ?_, ?_, ?_, ?_, ?_, ?_, ?_⟩
  · rw [hev, hnext]
    exact hI.ticksRange
  · refine CSState_frame hI.csState (by rw [hev]) hact ?_ ?_
    · intro u thu hu hreg
      rw [hthr]
      by_cases he : u = t
      · subst he
        rw [hth] at hu
        obtain rfl := Option.some.inj hu
        rw [hpc] at hreg
        cases hreg
      · rw [getElem?_set_other _ he]
        exact hu
    · intro u thu hu hreg
      rw [hthr] at hu
      rcases getElem?_set_cases hu with ⟨rfl, -, rfl⟩ | ⟨hne, hu⟩
      · cases hreg
      · exact hu
  · have hc : printCount s' = printCount s :=
      printCount_congr hact (by rw [hthr]; exact countP_set_same _ hth (by rw [hpc]; rfl))
    rw [hev, hc]
    exact hI.printsRange
  · rw [hev, hlen2]
    exact hI.printsIds
  · intro u thu hu
    rw [htm]
    rw [hthr] at hu
    rcases getElem?_set_cases hu with ⟨rfl, -, rfl⟩ | ⟨hne, hu⟩
    · have hold := hI.ticketMutexOK u th hth
      rw [hpc] at hold
      simpa [PC.holdsTicket] using hold
    · exact hI.ticketMutexOK u thu hu
  · intro u hu
    rw [htm] at hu
    rw [hlen2]
    exact hI.ticketMutexDom u hu
  · intro u thu hu
    rw [hsm]
    rw [hthr] at hu
    rcases getElem?_set_cases hu with ⟨rfl, -, rfl⟩ | ⟨hne, hu⟩
    · simp [PC.holdsSection]
    · have hold := hI.sectionMutexOK u thu hu
      rw [hmu] at hold
      simp only [reduceCtorEq, iff_false] at hold
      constructor
      · intro hh
        exact absurd hh hold
      · intro hh
        exact absurd (Option.some.inj hh).symm hne
  · intro u hu
    rw [hsm] at hu
    obtain rfl := (Option.some.inj hu).symm
    rw [hlen2]
    exact hlen
  · intro u
    rw [hw, hthr, hI.waitersOK u]
    exact (exists_set_iff hth (by simp [hpc])).symm
  · rw [hw]
    exact hI.waitersNodup
  · intro u thu hu
    rw [hthr] at hu
    rcases getElem?_set_cases hu with ⟨rfl, -, rfl⟩ | ⟨hne, hu⟩
    · refine ⟨(hI.thsOK u th hth).1, ?_⟩
      show th.ticket < s'.nextTicket ∧ th.ticket < L.toNat
      rw [hnext]
      exact hpair
    · exact thOK_congr hnext (hI.thsOK u thu hu)
  · have hr : retireCount L s' = retireCount L s := by
      unfold retireCount
      rw [hthr]
      exact countP_set_same _ hth (by rw [hpc]; rfl)
    rw [hnext, hr]
    exact hI.retire
  · intro u v hv hL
    rw [hev] at hv
    obtain ⟨thu, hu, htk, hcase⟩ := hI.ticksPin u v hv hL
    have hne : u ≠ t := by
      rintro rfl
      rw [hth] at hu
      obtain rfl := Option.some.inj hu
      rw [hpc] at hcase
      simp at hcase
    refine ⟨thu, ?_, htk, hcase⟩
    rw [hthr, getElem?_set_other _ hne]
    exact hu
  · intro u thu hu hpd
    rw [hev]
    rw [hthr] at hu
    rcases getElem?_set_cases hu with ⟨rfl, -, rfl⟩ | ⟨hne, hu⟩
    · exact hI.drawRecorded u th hth (by rw [hpc]; rfl)
    · exact hI.drawRecorded u thu hu hpd
  · intro u v hv hL
    rw [hev] at hv
    rw [hev]
    rcases hI.inFlightOrEntered u v hv hL with he | ⟨thu, hu, htk, hif⟩
    · exact Or.inl he
    · by_cases hne : u = t
      · subst hne
        rw [hth] at hu
        obtain rfl := Option.some.inj hu
        refine Or.inr ⟨{ th with pc := PC.gateCheck }, ?_, htk, rfl⟩
        rw [hthr]
        exact getElem?_set_self _ hlen
      · refine Or.inr ⟨thu, ?_, htk, hif⟩
        rw [hthr, getElem?_set_other _ hne]
        exact hu
  · intro u v hv
    rw [hev] at hv
    exact hI.entersBudget u v hv

theorem occupant_branch2 {L : Int} {s : Sys} {t : Nat} {th : ThreadSt}
    (hI : Inv L s) (hth : s.threads[t]? = some th)
    (hpc : th.pc = PC.inCS ∨ th.pc = PC.advIncr) :
    th.ticket = s.actualTicket ∧
      ∃ l, csOf s.events = Event.enterCS t s.actualTicket :: l ∧ CSLog l s.actualTicket := by
  have hms : s.sectionMutex = some t :=
    (hI.sectionMutexOK t th hth).mp (by rcases hpc with h | h <;> rw [h] <;> rfl)
  rcases hI.csState with ⟨hnone, -⟩ | ⟨t', th', ht', hpc', htk', l, hl, hlog⟩ |
      ⟨t', th', a₀, ht', hpc', -, -, -⟩
  · exfalso
    have := hnone t th hth
    rcases hpc with h | h <;> rw [h] at this <;> cases this
  · have hms2 : s.sectionMutex = some t' :=
      (hI.sectionMutexOK t' th' ht').mp (by rcases hpc' with h' | h' <;> rw [h'] <;> rfl)
    rw [hms] at hms2
    obtain rfl := Option.some.inj hms2
    rw [hth] at ht'
    obtain rfl := Option.some.inj ht'
    exact ⟨htk', l, hl, hlog⟩
  · exfalso
    have hms2 : s.sectionMutex = some t' :=
      (hI.sectionMutexOK t' th' ht').mp (by rcases hpc' with h' | h' <;> rw [h'] <;> rfl)
    rw [hms] at hms2
    obtain rfl := Option.some.inj hms2
    rw [hth] at ht'
    obtain rfl := Option.some.inj ht'
    rcases hpc with h | h <;> rcases hpc' with h' | h' <;> rw [h] at h' <;> cases h'

theorem occupant_branch3 {L : Int} {s : Sys} {t : Nat} {th : ThreadSt}
    (hI : Inv L s) (hth : s.threads[t]? = some th)
    (hpc : th.pc = PC.advSignal ∨ th.pc = PC.advUnlock) :
    ∃ a₀, s.actualTicket = a₀ + 1 ∧ th.ticket = a₀ ∧
      ∃ l, csOf s.events = Event.enterCS t a₀ :: l ∧ CSLog l a₀ := by
  have hms : s.sectionMutex = some t :=
    (hI.sectionMutexOK t th hth).mp (by rcases hpc with h | h <;> rw [h] <;> rfl)
  rcases hI.csState with ⟨hnone, -⟩ | ⟨t', th', ht', hpc', -⟩ |
      ⟨t', th', a₀, ht', hpc', hak, htk', l, hl, hlog⟩
  · exfalso
    have := hnone t th hth
    rcases hpc with h | h <;> rw [h] at this <;> cases this
  · exfalso
    have hms2 : s.sectionMutex = some t' :=
      (hI.sectionMutexOK t' th' ht').mp (by rcases hpc' with h' | h' <;> rw [h'] <;> rfl)
    rw [hms] at hms2
    obtain rfl := Option.some.inj hms2
    rw [hth] at ht'
    obtain rfl := Option.some.inj ht'
    rcases hpc with h | h <;> rcases hpc' with h' | h' <;> rw [h] at h' <;> cases h'
  · have hms2 : s.sectionMutex = some t' :=
      (hI.sectionMutexOK t' th' ht').mp (by rcases hpc' with h' | h' <;> rw [h'] <;> rfl)
    rw [hms] at hms2
    obtain rfl := Option.some.inj hms2
    rw [hth] at ht'
    obtain rfl := Option.some.inj ht'
    exact ⟨a₀, hak, htk', l, hl, hlog⟩

theorem inv_printTicket {L : Int} {s : Sys} {t : Nat} {s' : Sys}
    (hI : Inv L s) (h : step L s (.printTicket t) = some s') : Inv L s' := by
  obtain ⟨th, hth, hpc, hs⟩ := step_printTicket_eq h
  have hlen : t < s.threads.length := (List.getElem?_eq_some.mp hth).1
  have hms : s.sectionMutex = some t :=
    (hI.sectionMutexOK t th hth).mp (by rw [hpc]; rfl)
  obtain ⟨htk, l, hl, hlog⟩ := occupant_branch2 hI hth (Or.inl hpc)
  have hev : s'.events = Event.printOut th.ticket th.id :: s.events := by rw [hs]
  have hnext : s'.nextTicket = s.nextTicket := by rw [hs]
  have hact : s'.actualTicket = s.actualTicket := by rw [hs]
  have hsm : s'.sectionMutex = s.sectionMutex := by rw [hs]
  have htm : s'.ticketMutex = s.ticketMutex := by rw [hs]
  have hw : s'.waiters = s.waiters := by rw [hs]
  have hthr : s'.threads = s.threads.set t { th with pc := PC.advIncr } := by rw [hs]
  have hlen2 : s'.threads.length = s.threads.length := by rw [hthr]; simp
  have hcnt0 : s.threads.countP (fun x => x.pc == PC.advIncr) = 0 := by
    rw [List.countP_eq_zero]
    intro thx hmem
    intro hadv
    have hpcx : thx.pc = PC.advIncr := by simpa using hadv
    obtain ⟨ix, hix⟩ := List.mem_iff_getElem?.mp hmem
    have hms2 := (hI.sectionMutexOK ix thx hix).mp (by rw [hpcx]; rfl)
    rw [hms] at hms2
    obtain rfl := Option.some.inj hms2
    rw [hth] at hix
    obtain rfl := Option.some.inj hix
    rw [hpc] at hpcx
    cases hpcx
  have hpc0 : printCount s = s.actualTicket := by
    unfold printCount
    omega
  have hpcs' : printCount s' = s.actualTicket + 1 := by
    unfold printCount
    rw [hact, hthr, countP_set_flip _ hth (by rw [hpc]; rfl) rfl, hcnt0]
  refine ⟨?_, ?_, ?_, ?_, ?_, ?_, ?_, ?_, ?_, ?_, ?_, ?_, ?_, ?_, ?_, ?_⟩
  · rw [hev, ticksOf_printOut, hnext]
    exact hI.ticksRange
  · refine Or.inr (Or.inl ⟨t, { th with pc := PC.advIncr }, ?_, Or.inr rfl, ?_, l, ?_, ?_⟩)
    · rw [hthr]
      exact getElem?_set_self _ hlen
    · show th.ticket = s'.actualTicket
      rw [hact]
      exact htk
    · rw [hev, csOf_printOut, hact]
      exact hl
    · rw [hact]
      exact hlog
  · rw [hev, printsOf_printOut, List.map_append, hI.printsRange, hpcs', hpc0,
      List.range_succ]
    simp [htk]
  · intro pr hpr
    rw [hev, printsOf_printOut] at hpr
    rcases List.mem_append.mp hpr with hpr | hpr
    · rw [hlen2]
      exact hI.printsIds pr hpr
    · obtain rfl : pr = (th.ticket, th.id) := by simpa using hpr
      have hid : th.id = t + 1 := (hI.thsOK t th hth).1
      rw [hlen2]
      constructor
      · simp [hid]
      · simp [hid]
        omega
  · intro u thu hu
    rw [htm]
    rw [hthr] at hu
    rcases getElem?_set_cases hu with ⟨rfl, -, rfl⟩ | ⟨hne, hu⟩
    · have hold := hI.ticketMutexOK u th hth
      rw [hpc] at hold
      simpa [PC.holdsTicket] using hold
    · exact hI.ticketMutexOK u thu hu
  · intro u hu
    rw [htm] at hu
    rw [hlen2]
    exact hI.ticketMutexDom u hu
  · intro u thu hu
    rw [hsm, hms]
    rw [hthr] at hu
    rcases getElem?_set_cases hu with ⟨rfl, -, rfl⟩ | ⟨hne, hu⟩
    · simp [PC.holdsSection]
    · have hold := hI.sectionMutexOK u thu hu
      rw [hms] at hold
      constructor
      · intro hh
        exact absurd (Option.some.inj (hold.mp hh)).symm hne
      · intro hh
        exact absurd (Option.some.inj hh).symm hne
  · intro u hu
    rw [hsm] at hu
    rw [hlen2]
    exact hI.sectionMutexDom u hu
  · intro u
    rw [hw, hthr, hI.waitersOK u]
    exact (exists_set_iff hth (by simp [hpc])).symm
  · rw [hw]
    exact hI.waitersNodup
  · intro u thu hu
    rw [hthr] at hu
    rcases getElem?_set_cases hu with ⟨rfl, -, rfl⟩ | ⟨hne, hu⟩
    · exact ⟨(hI.thsOK u th hth).1, trivial⟩
    · exact thOK_congr hnext (hI.thsOK u thu hu)
  · have hr : retireCount L s' = retireCount L s := by
      unfold retireCount
      rw [hthr]
      exact countP_set_same _ hth (by rw [hpc]; rfl)
    rw [hnext, hr]
    exact hI.retire
  · intro u v hv hL
    rw [hev, List.mem_cons] at hv
    rcases hv with hnew | hv
    · exact absurd hnew (by simp)
    · obtain ⟨thu, hu, htk2, hcase⟩ := hI.ticksPin u v hv hL
      have hne : u ≠ t := by
        rintro rfl
        rw [hth] at hu
        obtain rfl := Option.some.inj hu
        rw [hpc] at hcase
        simp at hcase
      refine ⟨thu, ?_, htk2, hcase⟩
      rw [hthr, getElem?_set_other _ hne]
      exact hu
  · intro u thu hu hpd
    rw [hev]
    rw [hthr] at hu
    rcases getElem?_set_cases hu with ⟨rfl, -, rfl⟩ | ⟨hne, hu⟩
    · exact List.mem_cons_of_mem _ (hI.drawRecorded u th hth (by rw [hpc]; rfl))
    · exact List.mem_cons_of_mem _ (hI.drawRecorded u thu hu hpd)
  · intro u v hv hL
    rw [hev, List.mem_cons] at hv
    rcases hv with hnew | hv
    · exact absurd hnew (by simp)
    · rcases hI.inFlightOrEntered u v hv hL with he | ⟨thu, hu, htk2, hif⟩
      · exact Or.inl (by rw [hev]; exact List.mem_cons_of_mem _ he)
      · have hne : u ≠ t := by
          rintro rfl
          rw [hth] at hu
          obtain rfl := Option.some.inj hu
          rw [hpc] at hif
          simp [PC.inFlight] at hif
        refine Or.inr ⟨thu, ?_, htk2, hif⟩
        rw [hthr, getElem?_set_other _ hne]
        exact hu
  · intro u v hv
    rw [hev, List.mem_cons] at hv
    rcases hv with hnew | hv
    · exact absurd hnew (by simp)
    · exact hI.entersBudget u v hv

theorem inv_incrActual {L : Int} {s : Sys} {t : Nat} {s' : Sys}
    (hI : Inv L s) (h : step L s (.incrActual t) = some s') : Inv L s' := by
  obtain ⟨th, hth, hpc, hs⟩ := step_incrActual_eq h
  have hlen : t < s.threads.length := (List.getElem?_eq_some.mp hth).1
  have hms : s.sectionMutex = some t :=
    (hI.sectionMutexOK t th hth).mp (by rw [hpc]; rfl)
  obtain ⟨htk, l, hl, hlog⟩ := occupant_branch2 hI hth (Or.inr hpc)
  have hev : s'.events = s.events := by rw [hs]
  have hnext : s'.nextTicket = s.nextTicket := by rw [hs]
  have hact : s'.actualTicket = s.actualTicket + 1 := by rw [hs]
  have hsm : s'.sectionMutex = s.sectionMutex := by rw [hs]
  have htm : s'.ticketMutex = s.ticketMutex := by rw [hs]
  have hw : s'.waiters = s.waiters := by rw [hs]
  have hthr : s'.threads = s.threads.set t { th with pc := PC.advSignal } := by rw [hs]
  have hlen2 : s'.threads.length = s.threads.length := by rw [hthr]; simp
  have hdrop := countP_set_drop (fun x => x.pc == PC.advIncr) hth (by simp [hpc])
    (show ((({ th with pc := PC.advSignal } : ThreadSt).pc == PC.advIncr)) = false from rfl)
  have hpcs' : printCount s' = printCount s := by
    unfold printCount
    rw [hact, hthr]
    omega
  refine ⟨?_, ?_, ?_, ?_, ?_, ?_, ?_, ?_, ?_, ?_, ?_, ?_, ?_, ?_, ?_, ?_⟩
  · rw [hev, hnext]
    exact hI.ticksRange
  · refine Or.inr (Or.inr ⟨t, { th with pc := PC.advSignal }, s.actualTicket, ?_,
      Or.inl rfl, ?_, ?_, l, ?_, ?_⟩)
    · rw [hthr]
      exact getElem?_set_self _ hlen
    · rw [hact]
    · show th.ticket = s.actualTicket
      exact htk
    · rw [hev]
      exact hl
    · exact hlog
  · rw [hev, hpcs']
    exact hI.printsRange
  · rw [hev, hlen2]
    exact hI.printsIds
  · intro u thu hu
    rw [htm]
    rw [hthr] at hu
    rcases getElem?_set_cases hu with ⟨rfl, -, rfl⟩ | ⟨hne, hu⟩
    · have hold := hI.ticketMutexOK u th hth
      rw [hpc] at hold
      simpa [PC.holdsTicket] using hold
    · exact hI.ticketMutexOK u thu hu
  · intro u hu
    rw [htm] at hu
    rw [hlen2]
    exact hI.ticketMutexDom u hu
  · intro u thu hu
    rw [hsm, hms]
    rw [hthr] at hu
    rcases getElem?_set_cases hu with ⟨rfl, -, rfl⟩ | ⟨hne, hu⟩
    · simp [PC.holdsSection]
    · have hold := hI.sectionMutexOK u thu hu
      rw [hms] at hold
      constructor
      · intro hh
        exact absurd (Option.some.inj (hold.mp hh)).symm hne
      · intro hh
        exact absurd (Option.some.inj hh).symm hne
  · intro u hu
    rw [hsm] at hu
    rw [hlen2]
    exact hI.sectionMutexDom u hu
  · intro u
    rw [hw, hthr, hI.waitersOK u]
    exact (exists_set_iff hth (by simp [hpc])).symm
  · rw [hw]
    exact hI.waitersNodup
  · intro u thu hu
    rw [hthr] at hu
    rcases getElem?_set_cases hu with ⟨rfl, -, rfl⟩ | ⟨hne, hu⟩
    · exact ⟨(hI.thsOK u th hth).1, trivial⟩
    · exact thOK_congr hnext (hI.thsOK u thu hu)
  · have hr : retireCount L s' = retireCount L s := by
      unfold retireCount
      rw [hthr]
      exact countP_set_same _ hth (by rw [hpc]; rfl)
    rw [hnext, hr]
    exact hI.retire
  · intro u v hv hL
    rw [hev] at hv
    obtain ⟨thu, hu, htk2, hcase⟩ := hI.ticksPin u v hv hL
    have hne : u ≠ t := by
      rintro rfl
      rw [hth] at hu
      obtain rfl := Option.some.inj hu
      rw [hpc] at hcase
      simp at hcase
    refine ⟨thu, ?_, htk2, hcase⟩
    rw [hthr, getElem?_set_other _ hne]
    exact hu
  · intro u thu hu hpd
    rw [hev]
    rw [hthr] at hu
    rcases getElem?_set_cases hu with ⟨rfl, -, rfl⟩ | ⟨hne, hu⟩
    · exact hI.drawRecorded u th hth (by rw [hpc]; rfl)
    · exact hI.drawRecorded u thu hu hpd
  · intro u v hv hL
    rw [hev] at hv
    rw [hev]
    rcases hI.inFlightOrEntered u v hv hL with he | ⟨thu, hu, htk2, hif⟩
    · exact Or.inl he
    · have hne : u ≠ t := by
        rintro rfl
        rw [hth] at hu
        obtain rfl := Option.some.inj hu
        rw [hpc] at hif
        simp [PC.inFlight] at hif
      refine Or.inr ⟨thu, ?_, htk2, hif⟩
      rw [hthr, getElem?_set_other _ hne]
      exact hu
  · intro u v hv
    rw [hev] at hv
    exact hI.entersBudget u v hv

theorem inv_signalAdvance {L : Int} {s : Sys} {t : Nat} {w : Option Nat} {s' : Sys}
    (hI : Inv L s) (h : step L s (.signalAdvance t w) = some s') : Inv L s' := by
  obtain ⟨th, s₁, th', hth, hpc, hsig, hth', hs⟩ := step_signalAdvance_eq h
  have hlen : t < s.threads.length := (List.getElem?_eq_some.mp hth).1
  have hms : s.sectionMutex = some t :=
    (hI.sectionMutexOK t th hth).mp (by rw [hpc]; rfl)
  obtain ⟨a₀, hak, htk, l, hl, hlog⟩ := occupant_branch3 hI hth (Or.inl hpc)
  rcases doSignal_eq hsig with ⟨hwnil, -, hseq⟩ | ⟨u0, thu, -, hu0w, hu0, hs1⟩
  · -- the signal found no waiter and was lost
    have hth'2 : th = th' := by
      rw [hseq, hth] at hth'
      exact Option.some.inj hth'
    subst hth'2
    have hev : s'.events = s.events := by rw [hs, hseq]
    have hnext : s'.nextTicket = s.nextTicket := by rw [hs, hseq]
    have hact : s'.actualTicket = s.actualTicket := by rw [hs, hseq]
    have hsm : s'.sectionMutex = s.sectionMutex := by rw [hs, hseq]
    have htm : s'.ticketMutex = s.ticketMutex := by rw [hs, hseq]
    have hw : s'.waiters = s.waiters := by rw [hs, hseq]
    have hthr : s'.threads = s.threads.set t { th with pc := PC.advUnlock } := by
      rw [hs, hseq]
    have hlen2 : s'.threads.length = s.threads.length := by rw [hthr]; simp
    refine ⟨?_, ?_, ?_, ?_, ?_, ?_, ?_, ?_, ?_, ?_, ?_, ?_, ?_, ?_, ?_, ?_⟩
    · rw [hev, hnext]
      exact hI.ticksRange
    · refine Or.inr (Or.inr ⟨t, { th with pc := PC.advUnlock }, a₀, ?_,
        Or.inr rfl, ?_, ?_, l, ?_, ?_⟩)
      · rw [hthr]
        exact getElem?_set_self _ hlen
      · rw [hact]
        exact hak
      · show th.ticket = a₀
        exact htk
      · rw [hev]
        exact hl
      · exact hlog
    · have hc : printCount s' = printCount s :=
        printCount_congr hact (by rw [hthr]; exact countP_set_same _ hth (by rw [hpc]; rfl))
      rw [hev, hc]
      exact hI.printsRange
    · rw [hev, hlen2]
      exact hI.printsIds
    · intro u thu hu
      rw [htm]
      rw [hthr] at hu
      rcases getElem?_set_cases hu with ⟨rfl, -, rfl⟩ | ⟨hne, hu⟩
      · have hold := hI.ticketMutexOK u th hth
        rw [hpc] at hold
        simpa [PC.holdsTicket] using hold
      · exact hI.ticketMutexOK u thu hu
    · intro u hu
      rw [htm] at hu
      rw [hlen2]
      exact hI.ticketMutexDom u hu
    · intro u thu hu
      rw [hsm, hms]
      rw [hthr] at hu
      rcases getElem?_set_cases hu with ⟨rfl, -, rfl⟩ | ⟨hne, hu⟩
      · simp [PC.holdsSection]
      · have hold := hI.sectionMutexOK u thu hu
        rw [hms] at hold
        constructor
        · intro hh
          exact absurd (Option.some.inj (hold.mp hh)).symm hne
        · intro hh
          exact absurd (Option.some.inj hh).symm hne
    · intro u hu
      rw [hsm] at hu
      rw [hlen2]
      exact hI.sectionMutexDom u hu
    · intro u
      rw [hw, hthr, hI.waitersOK u]
      exact (exists_set_iff hth (by simp [hpc])).symm
    · rw [hw]
      exact hI.waitersNodup
    · intro u thu hu
      rw [hthr] at hu
      rcases getElem?_set_cases hu with ⟨rfl, -, rfl⟩ | ⟨hne, hu⟩
      · exact ⟨(hI.thsOK u th hth).1, trivial⟩
      · exact thOK_congr hnext (hI.thsOK u thu hu)
    · have hr : retireCount L s' = retireCount L s := by
        unfold retireCount
        rw [hthr]
        exact countP_set_same _ hth (by rw [hpc]; rfl)
      rw [hnext, hr]
      exact hI.retire
    · intro u v hv hL
      rw [hev] at hv
      obtain ⟨thu, hu, htk2, hcase⟩ := hI.ticksPin u v hv hL
      have hne : u ≠ t := by
        rintro rfl
        rw [hth] at hu
        obtain rfl := Option.some.inj hu
        rw [hpc] at hcase
        simp at hcase
      refine ⟨thu, ?_, htk2, hcase⟩
      rw [hthr, getElem?_set_other _ hne]
      exact hu
    · intro u thu hu hpd
      rw [hev]
      rw [hthr] at hu
      rcases getElem?_set_cases hu with ⟨rfl, -, rfl⟩ | ⟨hne, hu⟩
      · exact hI.drawRecorded u th hth (by rw [hpc]; rfl)
      · exact hI.drawRecorded u thu hu hpd
    · intro u v hv hL
      rw [hev] at hv
      rw [hev]
      rcases hI.inFlightOrEntered u v hv hL with he | ⟨thu, hu, htk2, hif⟩
      · exact Or.inl he
      · have hne : u ≠ t := by
          rintro rfl
          rw [hth] at hu
          obtain rfl := Option.some.inj hu
          rw [hpc] at hif
          simp [PC.inFlight] at hif
        refine Or.inr ⟨thu, ?_, htk2, hif⟩
        rw [hthr, getElem?_set_other _ hne]
        exact hu
    · intro u v hv
      rw [hev] at hv
      exact hI.entersBudget u v hv
  · -- the signal wakes the blocked thread u0
    have hu0b : thu.pc = PC.blocked := by
      obtain ⟨thu2, hu2, hb2⟩ := (hI.waitersOK u0).mp hu0w
      rw [hu0] at hu2
      obtain rfl := Option.some.inj hu2
      exact hb2
    have hu0t : u0 ≠ t := by
      rintro rfl
      rw [hu0] at hth
      obtain rfl := Option.some.inj hth
      rw [hpc] at hu0b
      cases hu0b
    have hu0len : u0 < s.threads.length := (List.getElem?_eq_some.mp hu0).1
    have hs1thr : s₁.threads = s.threads.set u0 { thu with pc := PC.woken } := by rw [hs1]
    have hth'2 : th = th' := by
      rw [hs1thr, getElem?_set_other _ (Ne.symm hu0t), hth] at hth'
      exact Option.some.inj hth'
    subst hth'2
    have hev : s'.events = s.events := by rw [hs, hs1]
    have hnext : s'.nextTicket = s.nextTicket := by rw [hs, hs1]
    have hact : s'.actualTicket = s.actualTicket := by rw [hs, hs1]
    have hsm : s'.sectionMutex = s.sectionMutex := by rw [hs, hs1]
    have htm : s'.ticketMutex = s.ticketMutex := by rw [hs, hs1]
    have hw : s'.waiters = s.waiters.erase u0 := by rw [hs, hs1]
    have hthr : s'.threads =
        (s.threads.set u0 { thu with pc := PC.woken }).set t { th with pc := PC.advUnlock } := by
      rw [hs, hs1thr]
    have hlen2 : s'.threads.length = s.threads.length := by rw [hthr]; simp
    have hpairu : thu.ticket < s.nextTicket ∧ thu.ticket < L.toNat := by
      have h2 := (hI.thsOK u0 thu hu0).2
      rw [hu0b] at h2
      exact h2
    refine ⟨?_, ?_, ?_, ?_, ?_, ?_, ?_, ?_, ?_, ?_, ?_, ?_, ?_, ?_, ?_, ?_⟩
    · rw [hev, hnext]
      exact hI.ticksRange
    · refine Or.inr (Or.inr ⟨t, { th with pc := PC.advUnlock }, a₀, ?_,
        Or.inr rfl, ?_, ?_, l, ?_, ?_⟩)
      · rw [hthr]
        exact getElem?_set2_self_t _ _ hlen
      · rw [hact]
        exact hak
      · show th.ticket = a₀
        exact htk
      · rw [hev]
        exact hl
      · exact hlog
    · have hc : printCount s' = printCount s := by
        refine printCount_congr hact ?_
        rw [hthr]
        exact countP_set2_same _ hu0t hth hu0 (by rw [hpc]; rfl) (by rw [hu0b]; rfl)
      rw [hev, hc]
      exact hI.printsRange
    · rw [hev, hlen2]
      exact hI.printsIds
    · intro x thx hx
      rw [htm]
      rw [hthr] at hx
      rcases getElem?_set2_cases hx with ⟨rfl, -, rfl⟩ | ⟨rfl, -, rfl⟩ | ⟨hxt, hxu, hx⟩
      · have hold := hI.ticketMutexOK x th hth
        rw [hpc] at hold
        simpa [PC.holdsTicket] using hold
      · have hold := hI.ticketMutexOK x thu hu0
        rw [hu0b] at hold
        simpa [PC.holdsTicket] using hold
      · exact hI.ticketMutexOK x thx hx
    · intro x hx
      rw [htm] at hx
      rw [hlen2]
      exact hI.ticketMutexDom x hx
    · intro x thx hx
      rw [hsm, hms]
      rw [hthr] at hx
      rcases getElem?_set2_cases hx with ⟨rfl, -, rfl⟩ | ⟨rfl, -, rfl⟩ | ⟨hxt, hxu, hx⟩
      · simp [PC.holdsSection]
      · constructor
        · intro hh
          cases hh
        · intro hh
          exact absurd (Option.some.inj hh).symm hu0t
      · have hold := hI.sectionMutexOK x thx hx
        rw [hms] at hold
        constructor
        · intro hh
          exact absurd (Option.some.inj (hold.mp hh)).symm hxt
        · intro hh
          exact absurd (Option.some.inj hh).symm hxt
    · intro x hx
      rw [hsm] at hx
      rw [hlen2]
      exact hI.sectionMutexDom x hx
    · intro x
      rw [hw, List.Nodup.mem_erase_iff hI.waitersNodup, hI.waitersOK x, hthr]
      constructor
      · rintro ⟨hxu, thx, hx, hb⟩
        have hxt : x ≠ t := by
          rintro rfl
          rw [hth] at hx
          obtain rfl := Option.some.inj hx
          rw [hpc] at hb
          cases hb
        refine ⟨thx, ?_, hb⟩
        rw [getElem?_set2_other _ _ hxt hxu]
        exact hx
      · rintro ⟨thx, hx, hb⟩
        rcases getElem?_set2_cases hx with ⟨rfl, -, rfl⟩ | ⟨rfl, -, rfl⟩ | ⟨hxt, hxu, hx⟩
        · cases hb
        · cases hb
        · exact ⟨hxu, thx, hx, hb⟩
    · rw [hw]
      exact hI.waitersNodup.erase u0
    · intro x thx hx
      rw [hthr] at hx
      rcases getElem?_set2_cases hx with ⟨rfl, -, rfl⟩ | ⟨rfl, -, rfl⟩ | ⟨hxt, hxu, hx⟩
      · exact ⟨(hI.thsOK x th hth).1, trivial⟩
      · refine ⟨(hI.thsOK x thu hu0).1, ?_⟩
        show thu.ticket < s'.nextTicket ∧ thu.ticket < L.toNat
        rw [hnext]
        exact hpairu
      · exact thOK_congr hnext (hI.thsOK x thx hx)
    · have hr : retireCount L s' = retireCount L s := by
        unfold retireCount
        rw [hthr]
        exact countP_set2_same _ hu0t hth hu0 (by rw [hpc]; rfl) (by rw [hu0b]; rfl)
      rw [hnext, hr]
      exact hI.retire
    · intro x v hv hL
      rw [hev] at hv
      obtain ⟨thx, hx, htk2, hcase⟩ := hI.ticksPin x v hv hL
      have hxt : x ≠ t := by
        rintro rfl
        rw [hth] at hx
        obtain rfl := Option.some.inj hx
        rw [hpc] at hcase
        simp at hcase
      have hxu : x ≠ u0 := by
        rintro rfl
        rw [hu0] at hx
        obtain rfl := Option.some.inj hx
        rw [hu0b] at hcase
        simp at hcase
      refine ⟨thx, ?_, htk2, hcase⟩
      rw [hthr, getElem?_set2_other _ _ hxt hxu]
      exact hx
    · intro x thx hx hpd
      rw [hev]
      rw [hthr] at hx
      rcases getElem?_set2_cases hx with ⟨rfl, -, rfl⟩ | ⟨rfl, -, rfl⟩ | ⟨hxt, hxu, hx⟩
      · exact hI.drawRecorded x th hth (by rw [hpc]; rfl)
      · exact hI.drawRecorded x thu hu0 (by rw [hu0b]; rfl)
      · exact hI.drawRecorded x thx hx hpd
    · intro x v hv hL
      rw [hev] at hv
      rw [hev]
      rcases hI.inFlightOrEntered x v hv hL with he | ⟨thx, hx, htk2, hif⟩
      · exact Or.inl he
      · by_cases hxt : x = t
        · subst hxt
          rw [hth] at hx
          obtain rfl := Option.some.inj hx
          rw [hpc] at hif
          simp [PC.inFlight] at hif
        · by_cases hxu : x = u0
          · subst hxu
            rw [hu0] at hx
            obtain rfl := Option.some.inj hx
            refine Or.inr ⟨{ thu with pc := PC.woken }, ?_, htk2, rfl⟩
            rw [hthr]
            exact getElem?_set2_self_u _ _ hu0t hu0len
          · refine Or.inr ⟨thx, ?_, htk2, hif⟩
            rw [hthr, getElem?_set2_other _ _ hxt hxu]
            exact hx
    · intro x v hv
      rw [hev] at hv
      exact hI.entersBudget x v hv

theorem inv_unlockSectionMutex {L : Int} {s : Sys} {t : Nat} {s' : Sys}
    (hI : Inv L s) (h : step L s (.unlockSectionMutex t) = some s') : Inv L s' := by
  obtain ⟨th, hth, hpc, hs⟩ := step_unlockSectionMutex_eq h
  have hlen : t < s.threads.length := (List.getElem?_eq_some.mp hth).1
  have hms : s.sectionMutex = some t :=
    (hI.sectionMutexOK t th hth).mp (by rw [hpc]; rfl)
  obtain ⟨a₀, hak, htk, l, hl, hlog⟩ := occupant_branch3 hI hth (Or.inr hpc)
  have hev : s'.events = Event.exitCS t th.ticket :: s.events := by rw [hs]
  have hnext : s'.nextTicket = s.nextTicket := by rw [hs]
  have hact : s'.actualTicket = s.actualTicket := by rw [hs]
  have hsm : s'.sectionMutex = none := by rw [hs]
  have htm : s'.ticketMutex = s.ticketMutex := by rw [hs]
  have hw : s'.waiters = s.waiters := by rw [hs]
  have hthr : s'.threads = s.threads.set t { th with pc := PC.loopStart } := by rw [hs]
  have hlen2 : s'.threads.length = s.threads.length := by rw [hthr]; simp
  refine ⟨?_, ?_, ?_, ?_, ?_, ?_, ?_, ?_, ?_, ?_, ?_, ?_, ?_, ?_, ?_, ?_⟩
  · rw [hev, ticksOf_exitCS, hnext]
    exact hI.ticksRange
  · refine Or.inl ⟨?_, ?_⟩
    · intro u thu hu
      rw [hthr] at hu
      rcases getElem?_set_cases hu with ⟨rfl, -, rfl⟩ | ⟨hne, hu⟩
      · rfl
      · by_contra hreg
        rw [Bool.not_eq_false] at hreg
        have := (hI.sectionMutexOK u thu hu).mp (inCSRegion_holdsSection hreg)
        rw [hms] at this
        exact hne (Option.some.inj this).symm
    · rw [hact, hak, hev, csOf_exitCS, hl, htk]
      exact CSLog.pair t a₀ l hlog
  · have hc : printCount s' = printCount s :=
      printCount_congr hact (by rw [hthr]; exact countP_set_same _ hth (by rw [hpc]; rfl))
    rw [hev, printsOf_exitCS, hc]
    exact hI.printsRange
  · intro pr hpr
    rw [hev, printsOf_exitCS] at hpr
    rw [hlen2]
    exact hI.printsIds pr hpr
  · intro u thu hu
    rw [htm]
    rw [hthr] at hu
    rcases getElem?_set_cases hu with ⟨rfl, -, rfl⟩ | ⟨hne, hu⟩
    · have hold := hI.ticketMutexOK u th hth
      rw [hpc] at hold
      simpa [PC.holdsTicket] using hold
    · exact hI.ticketMutexOK u thu hu
  · intro u hu
    rw [htm] at hu
    rw [hlen2]
    exact hI.ticketMutexDom u hu
  · intro u thu hu
    rw [hsm]
    rw [hthr] at hu
    rcases getElem?_set_cases hu with ⟨rfl, -, rfl⟩ | ⟨hne, hu⟩
    · simp [PC.holdsSection]
    · have hold := hI.sectionMutexOK u thu hu
      rw [hms] at hold
      constructor
      · intro hh
        exact absurd (Option.some.inj (hold.mp hh)).symm hne
      · intro hh
        exact absurd hh (by simp)
  · intro u hu
    rw [hsm] at hu
    exact absurd hu (by simp)
  · intro u
    rw [hw, hthr, hI.waitersOK u]
    exact (exists_set_iff hth (by simp [hpc])).symm
  · rw [hw]
    exact hI.waitersNodup
  · intro u thu hu
    rw [hthr] at hu
    rcases getElem?_set_cases hu with ⟨rfl, -, rfl⟩ | ⟨hne, hu⟩
    · exact ⟨(hI.thsOK u th hth).1, trivial⟩
    · exact thOK_congr hnext (hI.thsOK u thu hu)
  · have hr : retireCount L s' = retireCount L s := by
      unfold retireCount
      rw [hthr]
      exact countP_set_same _ hth (by rw [hpc]; rfl)
    rw [hnext, hr]
    exact hI.retire
  · intro u v hv hL
    rw [hev, List.mem_cons] at hv
    rcases hv with hnew | hv
    · exact absurd hnew (by simp)
    · obtain ⟨thu, hu, htk2, hcase⟩ := hI.ticksPin u v hv hL
      have hne : u ≠ t := by
        rintro rfl
        rw [hth] at hu
        obtain rfl := Option.some.inj hu
        rw [hpc] at hcase
        simp at hcase
      refine ⟨thu, ?_, htk2, hcase⟩
      rw [hthr, getElem?_set_other _ hne]
      exact hu
  · intro u thu hu hpd
    rw [hev]
    rw [hthr] at hu
    rcases getElem?_set_cases hu with ⟨rfl, -, rfl⟩ | ⟨hne, hu⟩
    · simp [PC.postDraw] at hpd
    · exact List.mem_cons_of_mem _ (hI.drawRecorded u thu hu hpd)
  · intro u v hv hL
    rw [hev, List.mem_cons] at hv
    rcases hv with hnew | hv
    · exact absurd hnew (by simp)
    · rcases hI.inFlightOrEntered u v hv hL with he | ⟨thu, hu, htk2, hif⟩
      · exact Or.inl (by rw [hev]; exact List.mem_cons_of_mem _ he)
      · have hne : u ≠ t := by
          rintro rfl
          rw [hth] at hu
          obtain rfl := Option.some.inj hu
          rw [hpc] at hif
          simp [PC.inFlight] at hif
        refine Or.inr ⟨thu, ?_, htk2, hif⟩
        rw [hthr, getElem?_set_other _ hne]
        exact hu
  · intro u v hv
    rw [hev, List.mem_cons] at hv
    rcases hv with hnew | hv
    · exact absurd hnew (by simp)
    · exact hI.entersBudget u v hv

/-! ### The invariant holds in every reachable state -/

theorem step_inv {L : Int} {s : Sys} {a : Act} {s' : Sys}
    (hI : Inv L s) (h : step L s a = some s') : Inv L s' := by
  cases a with
  | lockTicketMutex t => exact inv_lockTicketMutex hI h
  | readTicket t => exact inv_readTicket hI h
  | incrTicket t => exact inv_incrTicket hI h
  | unlockTicketMutex t => exact inv_unlockTicketMutex hI h
  | testBudget t => exact inv_testBudget hI h
  | lockSectionMutex t => exact inv_lockSectionMutex hI h
  | testTurn t => exact inv_testTurn hI h
  | signalRelay t w => exact inv_signalRelay hI h
  | waitCond t => exact inv_waitCond hI h
  | reacquire t => exact inv_reacquire hI h
  | printTicket t => exact inv_printTicket hI h
  | incrActual t => exact inv_incrActual hI h
  | signalAdvance t w => exact inv_signalAdvance hI h
  | unlockSectionMutex t => exact inv_unlockSectionMutex hI h

theorem step_length {L : Int} {s : Sys} {a : Act} {s' : Sys}
    (h : step L s a = some s') : s'.threads.length = s.threads.length := by
  cases a with
  | lockTicketMutex t =>
    obtain ⟨th, -, -, -, rfl⟩ := step_lockTicketMutex_eq h
    simp
  | readTicket t =>
    obtain ⟨th, -, -, rfl⟩ := step_readTicket_eq h
    simp
  | incrTicket t =>
    obtain ⟨th, -, -, rfl⟩ := step_incrTicket_eq h
    simp
  | unlockTicketMutex t =>
    obtain ⟨th, -, -, rfl⟩ := step_unlockTicketMutex_eq h
    simp
  | testBudget t =>
    obtain ⟨th, -, -, hbr⟩ := step_testBudget_eq h
    rcases hbr with ⟨-, rfl⟩ | ⟨-, rfl⟩ <;> simp
  | lockSectionMutex t =>
    obtain ⟨th, -, -, -, rfl⟩ := step_lockSectionMutex_eq h
    simp
  | testTurn t =>
    obtain ⟨th, -, -, hbr⟩ := step_testTurn_eq h
    rcases hbr with ⟨-, rfl⟩ | ⟨-, rfl⟩ <;> simp
  | signalRelay t w =>
    obtain ⟨th, s₁, th', -, -, hsig, -, rfl⟩ := step_signalRelay_eq h
    have h1 : s₁.threads.length = s.threads.length := by
      rcases doSignal_eq hsig with ⟨-, -, hseq⟩ | ⟨u0, thu, -, -, -, hs1⟩
      · rw [hseq]
      · rw [hs1]
        simp
    simpa using h1
  | waitCond t =>
    obtain ⟨th, -, -, -, rfl⟩ := step_waitCond_eq h
    simp
  | reacquire t =>
    obtain ⟨th, -, -, -, rfl⟩ := step_reacquire_eq h
    simp
  | printTicket t =>
    obtain ⟨th, -, -, rfl⟩ := step_printTicket_eq h
    simp
  | incrActual t =>
    obtain ⟨th, -, -, rfl⟩ := step_incrActual_eq h
    simp
  | signalAdvance t w =>
    obtain ⟨th, s₁, th', -, -, hsig, -, rfl⟩ := step_signalAdvance_eq h
    have h1 : s₁.threads.length = s.threads.length := by
      rcases doSignal_eq hsig with ⟨-, -, hseq⟩ | ⟨u0, thu, -, -, -, hs1⟩
      · rw [hseq]
      · rw [hs1]
        simp
    simpa using h1
  | unlockSectionMutex t =>
    obtain ⟨th, -, -, rfl⟩ := step_unlockSectionMutex_eq h
    simp

theorem run_inv {L : Int} {acts : List Act} : ∀ {s s' : Sys},
    Inv L s → run L s acts = some s' → Inv L s' := by
  induction acts with
  | nil =>
    intro s s' hI hr
    obtain rfl := Option.some.inj hr
    exact hI
  | cons a rest ih =>
    intro s s' hI hr
    simp only [run] at hr
    rcases hst : step L s a with - | s₁ <;> rw [hst] at hr
    · simp at hr
    · simp only [Option.some_bind] at hr
      exact ih (step_inv hI hst) hr

theorem run_length {L : Int} {acts : List Act} : ∀ {s s' : Sys},
    run L s acts = some s' → s'.threads.length = s.threads.length := by
  induction acts with
  | nil =>
    intro s s' hr
    obtain rfl := Option.some.inj hr
    rfl
  | cons a rest ih =>
    intro s s' hr
    simp only [run] at hr
    rcases hst : step L s a with - | s₁ <;> rw [hst] at hr
    · simp at hr
    · simp only [Option.some_bind] at hr
      rw [ih hr, step_length hst]

theorem reach_inv {L : Int} {n : Nat} {s : Sys} (hR : Reach L n s) : Inv L s := by
  obtain ⟨acts, hr⟩ := hR
  exact run_inv (init_inv L n) hr

theorem reach_length {L : Int} {n : Nat} {s : Sys} (hR : Reach L n s) :
    s.threads.length = n := by
  obtain ⟨acts, hr⟩ := hR
  rw [run_length hr]
  simp [init]

/-! ### Membership transfer between events and the derived histories -/

theorem tick_mem_iff {evs : List Event} {u v : Nat} :
    (u, v) ∈ ticksOf evs ↔ Event.tickDraw u v ∈ evs := by
  rw [ticksOf, List.mem_reverse, List.mem_filterMap]
  constructor
  · rintro ⟨e, he, hof⟩
    cases e <;> simp [Event.tickOf] at hof
    obtain ⟨rfl, rfl⟩ := hof
    exact he
  · intro h
    exact ⟨Event.tickDraw u v, h, rfl⟩

theorem tick_value_exists {L : Int} {s : Sys} (hI : Inv L s) {v : Nat}
    (hv : v < s.nextTicket) : ∃ u, Event.tickDraw u v ∈ s.events := by
  have hmem : v ∈ (ticksOf s.events).map Prod.snd := by
    rw [hI.ticksRange]
    exact List.mem_range.mpr hv
  obtain ⟨⟨u, v'⟩, hmem2, hsnd⟩ := List.mem_map.mp hmem
  obtain rfl : v' = v := hsnd
  exact ⟨u, tick_mem_iff.mp hmem2⟩

/-! ### The admission history of a reachable state -/

theorem admitted_lt_actual {L : Int} {s : Sys} (hI : Inv L s) {t v : Nat}
    (h : Event.enterCS t v ∈ s.events) :
    v < s.actualTicket ∨
      (∃ th, s.threads[t]? = some th ∧ th.pc.inCSRegion = true ∧ th.ticket = v) := by
  have hcs : Event.enterCS t v ∈ csOf s.events := mem_csOf_of_enter h
  rcases hI.csState with ⟨-, hlog⟩ | ⟨t', th', ht', hpc', htk', l, hl, hlog⟩ |
      ⟨t', th', a₀, ht', hpc', hak, htk', l, hl, hlog⟩
  · exact Or.inl (CSLog_enter_mem hlog t v hcs)
  · rw [hl] at hcs
    rcases List.mem_cons.mp hcs with hh | hcs
    · obtain ⟨rfl, rfl⟩ : t = t' ∧ v = s.actualTicket := by simpa using hh
      refine Or.inr ⟨th', ht', ?_, htk'⟩
      rcases hpc' with h' | h' <;> rw [h'] <;> rfl
    · exact Or.inl (CSLog_enter_mem hlog t v hcs)
  · rw [hl] at hcs
    rcases List.mem_cons.mp hcs with hh | hcs
    · obtain ⟨rfl, rfl⟩ : t = t' ∧ v = a₀ := by simpa using hh
      exact Or.inl (by omega)
    · have := CSLog_enter_mem hlog t v hcs
      exact Or.inl (by omega)

theorem unadmitted_ge_actual {L : Int} {s : Sys} (hI : Inv L s) {v : Nat}
    (hnot : ∀ t, Event.enterCS t v ∉ s.events) : s.actualTicket ≤ v := by
  by_contra hgt
  push_neg at hgt
  rcases hI.csState with ⟨-, hlog⟩ | ⟨t', th', -, -, -, l, hl, hlog⟩ |
      ⟨t', th', a₀, -, -, hak, -, l, hl, hlog⟩
  · obtain ⟨t, hmem⟩ := CSLog_covers hlog v hgt
    exact hnot t (mem_of_mem_csOf hmem)
  · obtain ⟨t, hmem⟩ := CSLog_covers hlog v hgt
    have : Event.enterCS t v ∈ csOf s.events := by
      rw [hl]
      exact List.mem_cons_of_mem _ hmem
    exact hnot t (mem_of_mem_csOf this)
  · by_cases hva : v = a₀
    · subst hva
      have : Event.enterCS t' v ∈ csOf s.events := by
        rw [hl]
        exact List.mem_cons_self _ _
      exact hnot t' (mem_of_mem_csOf this)
    · have hvlt : v < a₀ := by omega
      obtain ⟨t, hmem⟩ := CSLog_covers hlog v hvlt
      have : Event.enterCS t v ∈ csOf s.events := by
        rw [hl]
        exact List.mem_cons_of_mem _ hmem
      exact hnot t (mem_of_mem_csOf this)

/-! ### Order extraction: admissions and releases happen in ticket order -/

theorem pair_sublist_split {α : Type} {x y : α} {l : List α}
    (h : List.Sublist [x, y] l) : ∃ A B C, l = A ++ x :: B ++ y :: C := by
  induction l with
  | nil => simp at h
  | cons z tl ih =>
    cases h with
    | cons a h' =>
      obtain ⟨A, B, C, rfl⟩ := ih h'
      exact ⟨z :: A, B, C, rfl⟩
    | cons₂ a h' =>
      obtain ⟨B, C, rfl⟩ := List.append_of_mem (List.singleton_sublist.mp h')
      exact ⟨[], B, C, rfl⟩

theorem triple_sublist_split {α : Type} {x y z : α} {l : List α}
    (h : List.Sublist [x, y, z] l) : ∃ A B C D, l = A ++ x :: B ++ y :: C ++ z :: D := by
  induction l with
  | nil => simp at h
  | cons w tl ih =>
    cases h with
    | cons a h' =>
      obtain ⟨A, B, C, D, rfl⟩ := ih h'
      exact ⟨w :: A, B, C, D, rfl⟩
    | cons₂ a h' =>
      obtain ⟨B, C, D, rfl⟩ := pair_sublist_split h'
      exact ⟨[], B, C, D, rfl⟩

theorem CSLog_pair_sublist {l : List Event} {k : Nat} (h : CSLog l k) {v : Nat}
    (hv : v < k) : ∃ t, List.Sublist [Event.exitCS t v, Event.enterCS t v] l := by
  obtain ⟨t, p, q, rfl⟩ := CSLog_extract h v hv
  refine ⟨t, ?_⟩
  have h1 : List.Sublist [Event.exitCS t v, Event.enterCS t v]
      (Event.exitCS t v :: Event.enterCS t v :: q) :=
    List.Sublist.cons₂ _ (List.Sublist.cons₂ _ (List.nil_sublist q))
  exact h1.trans (List.sublist_append_right p _)

theorem CSLog_triple {l : List Event} {k : Nat} (h : CSLog l k) {a b tb : Nat}
    (hmem : Event.enterCS tb b ∈ l) (hab : a < b) :
    ∃ ta, List.Sublist [Event.enterCS tb b, Event.exitCS ta a, Event.enterCS ta a] l := by
  induction h with
  | nil => simp at hmem
  | pair t' k' l' hlog ih =>
    rcases List.mem_cons.mp hmem with hh | hmem2
    · exact absurd hh (by simp)
    · rcases List.mem_cons.mp hmem2 with hh | hmem3
      · obtain ⟨rfl, rfl⟩ : tb = t' ∧ b = k' := by simpa using hh
        obtain ⟨ta, hpair⟩ := CSLog_pair_sublist hlog hab
        exact ⟨ta, List.Sublist.cons _ (List.Sublist.cons₂ _ hpair)⟩
      · obtain ⟨ta, htr⟩ := ih hmem3
        exact ⟨ta, List.Sublist.cons _ (List.Sublist.cons _ htr)⟩

theorem enter_triple {L : Int} {s : Sys} (hI : Inv L s) {a b tb : Nat}
    (hmem : Event.enterCS tb b ∈ s.events) (hab : a < b) :
    ∃ ta, List.Sublist [Event.enterCS tb b, Event.exitCS ta a, Event.enterCS ta a] s.events := by
  have hcs : Event.enterCS tb b ∈ csOf s.events := mem_csOf_of_enter hmem
  have key : ∃ ta, List.Sublist [Event.enterCS tb b, Event.exitCS ta a, Event.enterCS ta a]
      (csOf s.events) := by
    rcases hI.csState with ⟨-, hlog⟩ | ⟨t', th', -, -, -, l, hl, hlog⟩ |
        ⟨t', th', a₀, -, -, hak, -, l, hl, hlog⟩
    · exact CSLog_triple hlog hcs hab
    · rw [hl] at hcs ⊢
      rcases List.mem_cons.mp hcs with hh | hcs2
      · obtain ⟨rfl, rfl⟩ : tb = t' ∧ b = s.actualTicket := by simpa using hh
        obtain ⟨ta, hpair⟩ := CSLog_pair_sublist hlog hab
        exact ⟨ta, List.Sublist.cons₂ _ hpair⟩
      · obtain ⟨ta, htr⟩ := CSLog_triple hlog hcs2 hab
        exact ⟨ta, List.Sublist.cons _ htr⟩
    · rw [hl] at hcs ⊢
      rcases List.mem_cons.mp hcs with hh | hcs2
      · obtain ⟨rfl, rfl⟩ : tb = t' ∧ b = a₀ := by simpa using hh
        obtain ⟨ta, hpair⟩ := CSLog_pair_sublist hlog hab
        exact ⟨ta, List.Sublist.cons₂ _ hpair⟩
      · obtain ⟨ta, htr⟩ := CSLog_triple hlog hcs2 hab
        exact ⟨ta, List.Sublist.cons _ htr⟩
  obtain ⟨ta, htr⟩ := key
  exact ⟨ta, htr.trans (List.filter_sublist _)⟩

/-! ### Complete runs: all workers done -/

theorem allDone_terminal {L : Int} {n : Nat} {s : Sys} (hR : Reach L n s)
    (hAD : AllDone s) (hn : 0 < n) :
    s.nextTicket = L.toNat + n ∧ s.actualTicket = L.toNat ∧
      CSLog (csOf s.events) s.actualTicket ∧ printCount s = L.toNat := by
  have hI := reach_inv hR
  have hlen := reach_length hR
  have hretire : retireCount L s = n := by
    unfold retireCount
    rw [List.countP_eq_length.mpr ?_, hlen]
    intro th hth
    rw [hAD th hth]
    rfl
  have hnext : s.nextTicket = L.toNat + n := by
    have := hI.retire
    rw [hretire] at this
    omega
  have hnoOcc : ∀ (u : Nat) (thu : ThreadSt), s.threads[u]? = some thu →
      thu.pc.inCSRegion = false := by
    intro u thu hu
    rw [hAD thu (List.getElem?_mem hu)]
    rfl
  have hlog : CSLog (csOf s.events) s.actualTicket := by
    rcases hI.csState with ⟨-, hlog⟩ | ⟨t', th', ht', hpc', -⟩ |
        ⟨t', th', a₀, ht', hpc', -⟩
    · exact hlog
    · exfalso
      have := hnoOcc t' th' ht'
      rcases hpc' with h' | h' <;> rw [h'] at this <;> cases this
    · exfalso
      have := hnoOcc t' th' ht'
      rcases hpc' with h' | h' <;> rw [h'] at this <;> cases this
  have hle : s.actualTicket ≤ L.toNat := by
    by_contra hgt
    push_neg at hgt
    obtain ⟨t, hmem⟩ := CSLog_covers hlog L.toNat hgt
    exact absurd (hI.entersBudget t L.toNat (mem_of_mem_csOf hmem)) (by omega)
  have hge : L.toNat ≤ s.actualTicket := by
    by_contra hgt
    push_neg at hgt
    obtain ⟨u, htick⟩ := tick_value_exists hI (v := s.actualTicket) (by omega)
    rcases hI.inFlightOrEntered u s.actualTicket htick hgt with he | ⟨thu, hu, -, hif⟩
    · have := CSLog_enter_mem hlog u s.actualTicket (mem_csOf_of_enter he)
      omega
    · rw [hAD thu (List.getElem?_mem hu)] at hif
      cases hif
  have hact : s.actualTicket = L.toNat := le_antisymm hle hge
  have hcnt0 : s.threads.countP (fun x => x.pc == PC.advIncr) = 0 := by
    rw [List.countP_eq_zero]
    intro th hth hadv
    rw [hAD th hth] at hadv
    simp at hadv
  refine ⟨hnext, hact, hlog, ?_⟩
  unfold printCount
  omega

theorem filter_single {l : List (Nat × Nat)} {x : Nat × Nat}
    (hnodup : (l.map Prod.snd).Nodup) (hall : ∀ y ∈ l, y = x) (hmem : x ∈ l) :
    l = [x] := by
  cases l with
  | nil => cases hmem
  | cons y tail =>
    obtain rfl := hall y (List.mem_cons_self _ _)
    cases tail with
    | nil => rfl
    | cons z tl =>
      obtain rfl := hall z (by simp)
      simp [List.nodup_cons] at hnodup

/-! ### Position helpers for list lookups -/

theorem getElem?_in_prefix {α : Type} {l₁ l₂ : List α} {i : Nat} {e : α}
    (h : (l₁ ++ l₂)[i]? = some e) (hi : i < l₁.length) : e ∈ l₁ := by
  rw [List.getElem?_append_left hi] at h
  exact List.getElem?_mem h

theorem getElem?_in_suffix {α : Type} {l₁ l₂ : List α} {i : Nat} {e : α}
    (h : (l₁ ++ l₂)[i]? = some e) (hi : l₁.length ≤ i) : e ∈ l₂ := by
  rw [List.getElem?_append_right hi] at h
  exact List.getElem?_mem h

/-! ### Case equations for the argument checking of `main` -/

theorem mainModel_badargc {argv : List (List Char)} {alloc : Bool}
    (h : argv.length ≠ 3) : mainModel argv alloc = MainRes.usageFailure := by
  unfold mainModel
  rw [if_pos h]

theorem mainModel_badnum1 {argv : List (List Char)} {alloc : Bool}
    (h3 : argv.length = 3) (h : get_num (argv.getD 1 []) = none) :
    mainModel argv alloc = MainRes.usageFailure := by
  unfold mainModel
  rw [if_neg (by omega)]
  rw [h]

theorem mainModel_zero1 {argv : List (List Char)} {alloc : Bool}
    (h3 : argv.length = 3) (h : get_num (argv.getD 1 []) = some 0) :
    mainModel argv alloc = MainRes.usageFailure := by
  unfold mainModel
  rw [if_neg (by omega)]
  simp only [h]
  rfl

theorem mainModel_badnum2 {argv : List (List Char)} {alloc : Bool} {tc : Nat}
    (h3 : argv.length = 3) (h1 : get_num (argv.getD 1 []) = some tc)
    (htc : tc ≠ 0) (h2 : get_num (argv.getD 2 []) = none) :
    mainModel argv alloc = MainRes.usageFailure := by
  unfold mainModel
  rw [if_neg (by omega)]
  simp only [h1, if_neg htc, h2]

theorem mainModel_zero2 {argv : List (List Char)} {alloc : Bool} {tc : Nat}
    (h3 : argv.length = 3) (h1 : get_num (argv.getD 1 []) = some tc)
    (htc : tc ≠ 0) (h2 : get_num (argv.getD 2 []) = some 0) :
    mainModel argv alloc = MainRes.usageFailure := by
  unfold mainModel
  rw [if_neg (by omega)]
  simp only [h1, if_neg htc, h2]
  rfl

theorem mainModel_oom {argv : List (List Char)} {tc lc : Nat}
    (h3 : argv.length = 3) (h1 : get_num (argv.getD 1 []) = some tc)
    (htc : tc ≠ 0) (h2 : get_num (argv.getD 2 []) = some lc) (hlc : lc ≠ 0) :
    mainModel argv false = MainRes.oomFailure := by
  unfold mainModel
  rw [if_neg (by omega)]
  simp only [h1, if_neg htc, h2, if_neg hlc]
  rfl

theorem mainModel_success {argv : List (List Char)} {tc lc : Nat}
    (h3 : argv.length = 3) (h1 : get_num (argv.getD 1 []) = some tc)
    (htc : tc ≠ 0) (h2 : get_num (argv.getD 2 []) = some lc) (hlc : lc ≠ 0) :
    mainModel argv true = MainRes.runSuccess tc lc := by
  unfold mainModel
  rw [if_neg (by omega)]
  simp only [h1, if_neg htc, h2, if_neg hlc]
  rfl

/-! ### The claims -/

/-- **C3**: Under every thread interleaving, at most one thread is inside the
critical section (the region between a successful `await` and the matching
`advance`) at any time: in every reachable state, any two threads whose
program counters lie in that region are the same thread. -/
theorem claim_c3_mutual_exclusion : ∀ (L : Int) (n : Nat) (s : Sys), Reach L n s →
    ∀ (t₁ t₂ : Nat) (th₁ th₂ : ThreadSt), s.threads[t₁]? = some th₁ →
      s.threads[t₂]? = some th₂ → th₁.pc.inCSRegion = true →
      th₂.pc.inCSRegion = true → t₁ = t₂ := by
  intro L n s hR t₁ t₂ th₁ th₂ h1 h2 hc1 hc2
  have hI := reach_inv hR
  have hm1 := (hI.sectionMutexOK t₁ th₁ h1).mp (inCSRegion_holdsSection hc1)
  have hm2 := (hI.sectionMutexOK t₂ th₂ h2).mp (inCSRegion_holdsSection hc2)
  rw [hm1] at hm2
  exact Option.some.inj hm2

/-- Witness for C3 at a concrete reachable state: one worker, budget 2, the
worker currently inside the critical section. -/
theorem claim_c3_mutual_exclusion_witness : (0 : Nat) = 0 := by
  have hR : Reach (intOfU32 2) 1 stateMid := Exists.intro (actsB2.take 7) (by decide)
  exact claim_c3_mutual_exclusion (intOfU32 2) 1 stateMid hR 0 0
    { id := 1, ticket := 0, pc := PC.inCS } { id := 1, ticket := 0, pc := PC.inCS }
    (by decide) (by decide) (by decide) (by decide)

/-- **C5**: `getticket` (proj2.c:154-164) atomically reads `next_ticket`,
increments it, and returns the pre-increment value: in every reachable
state, under every interleaving, the sequence of returned tickets is
exactly `0, 1, …, next_ticket - 1` — unique and strictly increasing. -/
theorem claim_c5_getticket_unique_increasing : ∀ (L : Int) (n : Nat) (s : Sys),
    Reach L n s →
    issuedVals s = List.range s.nextTicket ∧ (issuedVals s).Nodup ∧
      List.Pairwise (· < ·) (issuedVals s) := by
  intro L n s hR
  have h1 : issuedVals s = List.range s.nextTicket := (reach_inv hR).ticksRange
  refine ⟨h1, ?_, ?_⟩ <;> rw [h1]
  · exact List.nodup_range _
  · exact List.pairwise_lt_range _

/-- Witness for C5 at the final state of a complete run (one worker,
budget 2). -/
theorem claim_c5_getticket_unique_increasing_witness :
    issuedVals stateB2 = List.range stateB2.nextTicket ∧
      (issuedVals stateB2).Nodup ∧ List.Pairwise (· < ·) (issuedVals stateB2) := by
  have hR : Reach (intOfU32 2) 1 stateB2 := Exists.intro actsB2 (by decide)
  exact claim_c5_getticket_unique_increasing (intOfU32 2) 1 stateB2 hR

/-- **C6**: `actual_ticket` is mutated only by the `actual_ticket++` of
`advance` (proj2.c:188), executed by the thread just finishing the critical
section (which holds `section_mutex`), and the change is exactly `+1`;
every step leaves it non-decreasing; and in every reachable state it never
exceeds any issued-but-unadmitted ticket value. -/
theorem claim_c6_actual_ticket_control :
    (∀ (L : Int) (n : Nat) (s : Sys) (a : Act) (s' : Sys), Reach L n s →
       step L s a = some s' → s'.actualTicket ≠ s.actualTicket →
       ∃ (t : Nat) (th : ThreadSt), a = Act.incrActual t ∧
         s'.actualTicket = s.actualTicket + 1 ∧ s.threads[t]? = some th ∧
         th.pc = PC.advIncr ∧ s.sectionMutex = some t) ∧
    (∀ (L : Int) (s : Sys) (a : Act) (s' : Sys), step L s a = some s' →
       s.actualTicket ≤ s'.actualTicket) ∧
    (∀ (L : Int) (n : Nat) (s : Sys), Reach L n s →
       ∀ v : Nat, v < s.nextTicket → (∀ t, Event.enterCS t v ∉ s.events) →
         s.actualTicket ≤ v) := by
  refine ⟨?_, ?_, ?_⟩
  · intro L n s a s' hR hstep hne
    cases a with
    | lockTicketMutex t =>
      obtain ⟨th, hth, hpc, hmx, hs⟩ := step_lockTicketMutex_eq hstep
      exact absurd (by rw [hs]) hne
    | readTicket t =>
      obtain ⟨th, hth, hpc, hs⟩ := step_readTicket_eq hstep
      exact absurd (by rw [hs]) hne
    | incrTicket t =>
      obtain ⟨th, hth, hpc, hs⟩ := step_incrTicket_eq hstep
      exact absurd (by rw [hs]) hne
    | unlockTicketMutex t =>
      obtain ⟨th, hth, hpc, hs⟩ := step_unlockTicketMutex_eq hstep
      exact absurd (by rw [hs]) hne
    | testBudget t =>
      obtain ⟨th, hth, hpc, hbr⟩ := step_testBudget_eq hstep
      rcases hbr with ⟨hb, hs⟩ | ⟨hb, hs⟩ <;> exact absurd (by rw [hs]) hne
    | lockSectionMutex t =>
      obtain ⟨th, hth, hpc, hmx, hs⟩ := step_lockSectionMutex_eq hstep
      exact absurd (by rw [hs]) hne
    | testTurn t =>
      obtain ⟨th, hth, hpc, hbr⟩ := step_testTurn_eq hstep
      rcases hbr with ⟨hb, hs⟩ | ⟨hb, hs⟩ <;> exact absurd (by rw [hs]) hne
    | signalRelay t w =>
      obtain ⟨th, s₁, th', hth, hpc, hsig, hth', hs⟩ := step_signalRelay_eq hstep
      rcases doSignal_eq hsig with ⟨hw, hwn, hseq⟩ | ⟨u, thu, hwu, humem, hthu, hs1⟩
      · exact absurd (by rw [hs, hseq]) hne
      · exact absurd (by rw [hs, hs1]) hne
    | waitCond t =>
      obtain ⟨th, hth, hpc, hmx, hs⟩ := step_waitCond_eq hstep
      exact absurd (by rw [hs]) hne
    | reacquire t =>
      obtain ⟨th, hth, hpc, hmx, hs⟩ := step_reacquire_eq hstep
      exact absurd (by rw [hs]) hne
    | printTicket t =>
      obtain ⟨th, hth, hpc, hs⟩ := step_printTicket_eq hstep
      exact absurd (by rw [hs]) hne
    | incrActual t =>
      obtain ⟨th, hth, hpc, hs⟩ := step_incrActual_eq hstep
      refine ⟨t, th, rfl, by rw [hs], hth, hpc, ?_⟩
      exact ((reach_inv hR).sectionMutexOK t th hth).mp (by rw [hpc]; rfl)
    | signalAdvance t w =>
      obtain ⟨th, s₁, th', hth, hpc, hsig, hth', hs⟩ := step_signalAdvance_eq hstep
      rcases doSignal_eq hsig with ⟨hw, hwn, hseq⟩ | ⟨u, thu, hwu, humem, hthu, hs1⟩
      · exact absurd (by rw [hs, hseq]) hne
      · exact absurd (by rw [hs, hs1]) hne
    | unlockSectionMutex t =>
      obtain ⟨th, hth, hpc, hs⟩ := step_unlockSectionMutex_eq hstep
      exact absurd (by rw [hs]) hne
  · intro L s a s' hstep
    cases a with
    | lockTicketMutex t =>
      obtain ⟨th, hth, hpc, hmx, hs⟩ := step_lockTicketMutex_eq hstep
      rw [hs]
    | readTicket t =>
      obtain ⟨th, hth, hpc, hs⟩ := step_readTicket_eq hstep
      rw [hs]
    | incrTicket t =>
      obtain ⟨th, hth, hpc, hs⟩ := step_incrTicket_eq hstep
      rw [hs]
    | unlockTicketMutex t =>
      obtain ⟨th, hth, hpc, hs⟩ := step_unlockTicketMutex_eq hstep
      rw [hs]
    | testBudget t =>
      obtain ⟨th, hth, hpc, hbr⟩ := step_testBudget_eq hstep
      rcases hbr with ⟨hb, hs⟩ | ⟨hb, hs⟩ <;> rw [hs]
    | lockSectionMutex t =>
      obtain ⟨th, hth, hpc, hmx, hs⟩ := step_lockSectionMutex_eq hstep
      rw [hs]
    | testTurn t =>
      obtain ⟨th, hth, hpc, hbr⟩ := step_testTurn_eq hstep
      rcases hbr with ⟨hb, hs⟩ | ⟨hb, hs⟩ <;> rw [hs]
    | signalRelay t w =>
      obtain ⟨th, s₁, th', hth, hpc, hsig, hth', hs⟩ := step_signalRelay_eq hstep
      rcases doSignal_eq hsig with ⟨hw, hwn, hseq⟩ | ⟨u, thu, hwu, humem, hthu, hs1⟩
      · rw [hs, hseq]
      · rw [hs, hs1]
    | waitCond t =>
      obtain ⟨th, hth, hpc, hmx, hs⟩ := step_waitCond_eq hstep
      rw [hs]
    | reacquire t =>
      obtain ⟨th, hth, hpc, hmx, hs⟩ := step_reacquire_eq hstep
      rw [hs]
    | printTicket t =>
      obtain ⟨th, hth, hpc, hs⟩ := step_printTicket_eq hstep
      rw [hs]
    | incrActual t =>
      obtain ⟨th, hth, hpc, hs⟩ := step_incrActual_eq hstep
      rw [hs]
      exact Nat.le_succ _
    | signalAdvance t w =>
      obtain ⟨th, s₁, th', hth, hpc, hsig, hth', hs⟩ := step_signalAdvance_eq hstep
      rcases doSignal_eq hsig with ⟨hw, hwn, hseq⟩ | ⟨u, thu, hwu, humem, hthu, hs1⟩
      · rw [hs, hseq]
      · rw [hs, hs1]
    | unlockSectionMutex t =>
      obtain ⟨th, hth, hpc, hs⟩ := step_unlockSectionMutex_eq hstep
      rw [hs]
  · intro L n s hR v _ hnot
    exact unadmitted_ge_actual (reach_inv hR) hnot

/-- Witness for C6: the mutation clause at the `actual_ticket++` step of a
concrete run, the monotonicity clause at its first step, and the
bounding clause at the final state of the budget-2 run with the unadmitted
issued ticket 2. -/
theorem claim_c6_actual_ticket_control_witness :
    (∃ (t : Nat) (th : ThreadSt), Act.incrActual 0 = Act.incrActual t ∧
       ((step (intOfU32 2) stateAdv (Act.incrActual 0)).getD (init 1)).actualTicket =
         stateAdv.actualTicket + 1 ∧ stateAdv.threads[t]? = some th ∧
       th.pc = PC.advIncr ∧ stateAdv.sectionMutex = some t) ∧
    (init 1).actualTicket ≤
      ((step (intOfU32 2) (init 1) (Act.lockTicketMutex 0)).getD (init 1)).actualTicket ∧
    stateB2.actualTicket ≤ 2 := by
  have hRa : Reach (intOfU32 2) 1 stateAdv := Exists.intro (actsB2.take 8) (by decide)
  have hRb : Reach (intOfU32 2) 1 stateB2 := Exists.intro actsB2 (by decide)
  refine ⟨?_, ?_, ?_⟩
  · exact claim_c6_actual_ticket_control.1 (intOfU32 2) 1 stateAdv (Act.incrActual 0)
      ((step (intOfU32 2) stateAdv (Act.incrActual 0)).getD (init 1)) hRa
      (by decide) (by decide)
  · exact claim_c6_actual_ticket_control.2.1 (intOfU32 2) (init 1)
      (Act.lockTicketMutex 0)
      ((step (intOfU32 2) (init 1) (Act.lockTicketMutex 0)).getD (init 1)) (by decide)
  · refine claim_c6_actual_ticket_control.2.2 (intOfU32 2) 1 stateB2 hRb 2
      (by decide) ?_
    intro t h
    rw [show stateB2.events =
      [Event.tickDraw 0 2, Event.exitCS 0 1, Event.printOut 1 1, Event.enterCS 0 1,
       Event.tickDraw 0 1, Event.exitCS 0 0, Event.printOut 0 1, Event.enterCS 0 0,
       Event.tickDraw 0 0] from by decide] at h
    simp at h

/-- **C1** (amended): the claim holds only for `loop_count < 2^31`.  In that
range, for every valid configuration and every complete interleaving, the
run prints exactly `loop_count` lines, the printed ticket numbers are
exactly `0, …, loop_count - 1` in order (oldest first), and every printed
id lies in `[1, thread_count]`. -/
theorem claim_c1_output_lines_amended : ∀ (tc lc : Nat) (s : Sys), 0 < tc → 0 < lc →
    lc < 2 ^ 31 → Reach (intOfU32 lc) tc s → AllDone s →
    (outputs s).map Prod.fst = List.range lc ∧ (outputs s).length = lc ∧
      ∀ pr ∈ outputs s, 1 ≤ pr.2 ∧ pr.2 ≤ tc := by
  intro tc lc s htc hlc hcast hR hAD
  have hI := reach_inv hR
  have hLnat : (intOfU32 lc).toNat = lc := by
    unfold intOfU32
    rw [if_pos hcast]
    simp
  obtain ⟨hnext, hact, hlog, hpcount⟩ := allDone_terminal hR hAD htc
  have hout : (outputs s).map Prod.fst = List.range lc := by
    have h := hI.printsRange
    rw [hpcount, hLnat] at h
    exact h
  refine ⟨hout, ?_, ?_⟩
  · have h := congrArg List.length hout
    simpa using h
  · intro pr hpr
    have h := hI.printsIds pr hpr
    rwa [reach_length hR] at h

/-- Witness for the amended C1: one worker, budget 2, a complete run. -/
theorem claim_c1_output_lines_amended_witness :
    (outputs stateB2).map Prod.fst = List.range 2 ∧ (outputs stateB2).length = 2 ∧
      ∀ pr ∈ outputs stateB2, 1 ≤ pr.2 ∧ pr.2 ≤ 1 := by
  have hR : Reach (intOfU32 2) 1 stateB2 := Exists.intro actsB2 (by decide)
  exact claim_c1_output_lines_amended 1 2 stateB2 (by decide) (by decide) (by decide)
    hR (by unfold AllDone; decide)

/-- **C1** (counterexample): `loop_count = 2^31` is a valid configuration —
`main` accepts it and spawns the workers — but `params[i].loop_count =
(int) loop_count` (proj2.c:264) turns the budget negative, so the single
worker's first ticket 0 already fails `ticket < param->loop_count` and the
complete run prints no line at all instead of `loop_count` lines. -/
theorem claim_c1_output_lines_cex :
    mainModel [['p'], ['1'], ['2','1','4','7','4','8','3','6','4','8']] true =
      MainRes.runSuccess 1 2147483648 ∧
    Reach (intOfU32 2147483648) 1 stateCast ∧ AllDone stateCast ∧
    outputs stateCast = [] ∧ ¬ (outputs stateCast).length = 2147483648 := by
  refine ⟨by decide, Exists.intro drawActs (by decide), ?_, by decide, by decide⟩
  unfold AllDone
  decide

/-- **C2**: critical-section admission order is exactly ticket order.
`s.events` is newest-first, so `X ++ enter b :: Y ++ exit a :: Z ++ enter a
:: W` says: the holder of ticket `a` entered, then fully exited, and only
after that did the holder of ticket `b` enter — for any issued `b > a`,
under every interleaving. -/
theorem claim_c2_admission_order : ∀ (L : Int) (n : Nat) (s : Sys) (a b tb : Nat),
    Reach L n s → a < b → Event.enterCS tb b ∈ s.events →
    ∃ (ta : Nat) (X Y Z W : List Event),
      s.events = X ++ Event.enterCS tb b :: Y ++ Event.exitCS ta a :: Z ++
        Event.enterCS ta a :: W := by
  intro L n s a b tb hR hab hmem
  obtain ⟨ta, htr⟩ := enter_triple (reach_inv hR) hmem hab
  obtain ⟨X, Y, Z, W, hsplit⟩ := triple_sublist_split htr
  exact ⟨ta, X, Y, Z, W, hsplit⟩

/-- Witness for C2: in the budget-2 run, the admission on ticket 1 is
preceded by the release and admission on ticket 0. -/
theorem claim_c2_admission_order_witness :
    ∃ (ta : Nat) (X Y Z W : List Event),
      stateB2.events = X ++ Event.enterCS 0 1 :: Y ++ Event.exitCS ta 0 :: Z ++
        Event.enterCS ta 0 :: W := by
  have hR : Reach (intOfU32 2) 1 stateB2 := Exists.intro actsB2 (by decide)
  exact claim_c2_admission_order (intOfU32 2) 1 stateB2 0 1 0 hR (by decide) (by decide)

/-- **C4** (counterexample): in a complete run with `thread_count = 1`,
`loop_count = 1`, the issued tickets are `[0, 1]`, not the range
`[0, loop_count)`: each worker's final, terminating draw also comes from
the same counter, so the issued set always exceeds the budget range. -/
theorem claim_c4_issued_range_cex :
    Reach (intOfU32 1) 1 stateB1 ∧ AllDone stateB1 ∧
    issuedVals stateB1 = [0, 1] ∧ issuedVals stateB1 ≠ List.range 1 := by
  refine ⟨Exists.intro actsB1 (by decide), ?_, by decide, by decide⟩
  unfold AllDone
  decide

/-- **C4** (amended): over a complete run the issued tickets are exactly the
contiguous range `[0, loop_count + thread_count)` — the extra
`thread_count` values are the terminating draws — each value issued exactly
once, and the values actually admitted to the critical section are exactly
`[0, loop_count)`. -/
theorem claim_c4_issued_range_amended : ∀ (L : Int) (n : Nat) (s : Sys), 0 < n →
    Reach L n s → AllDone s →
    issuedVals s = List.range (L.toNat + n) ∧
    (∀ v, v < L.toNat + n → (issuedVals s).count v = 1) ∧
    (∀ v, (∃ t, Event.enterCS t v ∈ s.events) ↔ v < L.toNat) := by
  intro L n s hn hR hAD
  have hI := reach_inv hR
  obtain ⟨hnext, hact, hlog, -⟩ := allDone_terminal hR hAD hn
  have hiss : issuedVals s = List.range (L.toNat + n) := by
    rw [← hnext]
    exact hI.ticksRange
  refine ⟨hiss, ?_, ?_⟩
  · intro v hv
    rw [hiss]
    exact List.count_eq_one_of_mem (List.nodup_range _) (List.mem_range.mpr hv)
  · intro v
    constructor
    · rintro ⟨t, hmem⟩
      exact hI.entersBudget t v hmem
    · intro hv
      rw [← hact] at hv
      obtain ⟨t, hmem⟩ := CSLog_covers hlog v hv
      exact ⟨t, mem_of_mem_csOf hmem⟩

/-- Witness for the amended C4: one worker, budget 1, complete run. -/
theorem claim_c4_issued_range_amended_witness :
    issuedVals stateB1 = List.range ((intOfU32 1).toNat + 1) ∧
    (∀ v, v < (intOfU32 1).toNat + 1 → (issuedVals stateB1).count v = 1) ∧
    (∀ v, (∃ t, Event.enterCS t v ∈ stateB1.events) ↔ v < (intOfU32 1).toNat) := by
  have hR : Reach (intOfU32 1) 1 stateB1 := Exists.intro actsB1 (by decide)
  exact claim_c4_issued_range_amended (intOfU32 1) 1 stateB1 (by decide) hR
    (by unfold AllDone; decide)

/-- **C9**: each worker's loop terminates after drawing exactly one
out-of-budget ticket.  In every reachable state `next_ticket ≤ loop_count +
thread_count` and the number of `getticket` returns so far equals
`next_ticket`; in a completed run `next_ticket = loop_count + thread_count`
exactly, and every worker ends `done` holding a final ticket
`≥ loop_count` that is its one and only out-of-budget draw. -/
theorem claim_c9_termination_draw_count : ∀ (L : Int) (n : Nat) (s : Sys), Reach L n s →
    s.nextTicket ≤ L.toNat + n ∧ (ticksOf s.events).length = s.nextTicket ∧
    (0 < n → AllDone s →
      s.nextTicket = L.toNat + n ∧
      ∀ (t : Nat) (th : ThreadSt), s.threads[t]? = some th →
        th.pc = PC.done ∧ L.toNat ≤ th.ticket ∧
        (ticksOf s.events).filter
          (fun p => p.1 == t && decide (L.toNat ≤ p.2)) = [(t, th.ticket)]) := by
  intro L n s hR
  have hI := reach_inv hR
  have hlen := reach_length hR
  refine ⟨?_, ?_, ?_⟩
  · have hr := hI.retire
    have h1 : retireCount L s ≤ s.threads.length := by
      unfold retireCount
      exact List.countP_le_length _
    omega
  · have h := congrArg List.length hI.ticksRange
    simpa using h
  · intro hn hAD
    obtain ⟨hnext, -, -, -⟩ := allDone_terminal hR hAD hn
    refine ⟨hnext, ?_⟩
    intro t th hth
    have hdone : th.pc = PC.done := hAD th (List.getElem?_mem hth)
    have hLle : L.toNat ≤ th.ticket := by
      have h2 := (hI.thsOK t th hth).2
      rw [hdone] at h2
      exact h2
    refine ⟨hdone, hLle, ?_⟩
    have hsnds : ((ticksOf s.events).map Prod.snd).Nodup := by
      rw [hI.ticksRange]
      exact List.nodup_range _
    refine filter_single ?_ ?_ ?_
    · exact List.Nodup.sublist (List.Sublist.map Prod.snd (List.filter_sublist _)) hsnds
    · intro y hy
      obtain ⟨hymem, hyp⟩ := List.mem_filter.mp hy
      obtain ⟨y1, y2⟩ := y
      have hyp2 : y1 = t ∧ L.toNat ≤ y2 := by simpa using hyp
      obtain ⟨rfl, hy2⟩ := hyp2
      have hdraw := tick_mem_iff.mp hymem
      obtain ⟨th2, hth2, htk2, -⟩ := hI.ticksPin y1 y2 hdraw hy2
      rw [hth] at hth2
      obtain rfl := (Option.some.inj hth2).symm
      rw [htk2]
    · rw [List.mem_filter]
      refine ⟨tick_mem_iff.mpr (hI.drawRecorded t th hth (by rw [hdone]; rfl)), ?_⟩
      simp [hLle]

/-- Witness for C9: one worker, budget 2, complete run — the counter ends
at `2 + 1` and the worker's single out-of-budget draw is ticket 2. -/
theorem claim_c9_termination_draw_count_witness :
    stateB2.nextTicket = (intOfU32 2).toNat + 1 ∧
    (ticksOf stateB2.events).filter
      (fun p => p.1 == 0 && decide ((intOfU32 2).toNat ≤ p.2)) = [(0, 2)] := by
  have hR : Reach (intOfU32 2) 1 stateB2 := Exists.intro actsB2 (by decide)
  have h := (claim_c9_termination_draw_count (intOfU32 2) 1 stateB2 hR).2.2
    (by decide) (by unfold AllDone; decide)
  refine ⟨h.1, ?_⟩
  exact (h.2 0 { id := 1, ticket := 2, pc := PC.done } (by decide)).2.2

/-- **C7** (counterexample): the claim fails for negative arguments.
`"-5"` is a numeric argument with non-positive value in the spec's sense,
yet `strtoul` wraps it to `4294967291`, `get_num` accepts it (the whole
string was consumed), the unsigned comparison `thread_count <= 0` passes,
and `main` proceeds to spawn threads and exit successfully instead of
failing on stderr. -/
theorem claim_c7_error_handling_cex :
    specNumeric ['-','5'] = true ∧ specValue ['-','5'] ≤ 0 ∧
    mainModel [['p'], ['-','5'], ['3']] true = MainRes.runSuccess 4294967291 3 ∧
    spawnsThreads (mainModel [['p'], ['-','5'], ['3']] true) = true ∧
    exitCodeOf (mainModel [['p'], ['-','5'], ['3']] true) = exitSuccess := by
  refine ⟨by decide, by decide, by decide, by decide, by decide⟩

/-- **C7** (amended): for the failures the code actually detects — wrong
argument count, a string `strtoul` does not fully consume, a parsed value
whose 32-bit truncation is zero, or a failing allocation — `main` prints to
stderr, returns `EXIT_FAILURE`, and never reaches `pthread_create`. -/
theorem claim_c7_error_handling_amended : ∀ (argv : List (List Char)) (alloc : Bool),
    (argv.length ≠ 3 ∨ get_num (argv.getD 1 []) = none ∨
     get_num (argv.getD 1 []) = some 0 ∨ get_num (argv.getD 2 []) = none ∨
     get_num (argv.getD 2 []) = some 0 ∨ alloc = false) →
    failsOnStderr (mainModel argv alloc) = true ∧
    exitCodeOf (mainModel argv alloc) = exitFailure ∧
    spawnsThreads (mainModel argv alloc) = false := by
  intro argv alloc hcond
  have key : mainModel argv alloc = MainRes.usageFailure ∨
      mainModel argv alloc = MainRes.oomFailure := by
    by_cases h3 : argv.length = 3
    · rcases hg1 : get_num (argv.getD 1 []) with - | tc
      · exact Or.inl (mainModel_badnum1 h3 hg1)
      · by_cases htc : tc = 0
        · subst htc
          exact Or.inl (mainModel_zero1 h3 hg1)
        · rcases hg2 : get_num (argv.getD 2 []) with - | lc
          · exact Or.inl (mainModel_badnum2 h3 hg1 htc hg2)
          · by_cases hlc : lc = 0
            · subst hlc
              exact Or.inl (mainModel_zero2 h3 hg1 htc hg2)
            · cases alloc with
              | false => exact Or.inr (mainModel_oom h3 hg1 htc hg2 hlc)
              | true =>
                exfalso
                rcases hcond with h | h | h | h | h | h
                · exact h h3
                · rw [hg1] at h
                  simp at h
                · rw [hg1] at h
                  exact htc (Option.some.inj h)
                · rw [hg2] at h
                  simp at h
                · rw [hg2] at h
                  exact hlc (Option.some.inj h)
                · simp at h
    · exact Or.inl (mainModel_badargc h3)
  rcases key with h | h <;> rw [h] <;> exact ⟨rfl, rfl, rfl⟩

/-- Witness for the amended C7: a non-numeric second argument. -/
theorem claim_c7_error_handling_amended_witness :
    failsOnStderr (mainModel [['p'], ['x'], ['3']] true) = true ∧
    exitCodeOf (mainModel [['p'], ['x'], ['3']] true) = exitFailure ∧
    spawnsThreads (mainModel [['p'], ['x'], ['3']] true) = false :=
  claim_c7_error_handling_amended [['p'], ['x'], ['3']] true
    (Or.inr (Or.inl (by decide)))

/-- **C10**: whenever the argument count is 3, both arguments parse as
nonzero values and the allocations succeed, `main` reaches the spawn loop
and returns `EXIT_SUCCESS` unconditionally — `pthread_create` and
`pthread_join` results are never inspected, so no failure path exists after
spawning begins. -/
theorem claim_c10_success_unconditional : ∀ (p a1 a2 : List Char) (tc lc : Nat),
    get_num a1 = some tc → tc ≠ 0 → get_num a2 = some lc → lc ≠ 0 →
    mainModel [p, a1, a2] true = MainRes.runSuccess tc lc ∧
    exitCodeOf (mainModel [p, a1, a2] true) = exitSuccess ∧
    spawnsThreads (mainModel [p, a1, a2] true) = true := by
  intro p a1 a2 tc lc h1 htc h2 hlc
  have hm : mainModel [p, a1, a2] true = MainRes.runSuccess tc lc :=
    mainModel_success rfl h1 htc h2 hlc
  refine ⟨hm, ?_, ?_⟩ <;> rw [hm] <;> rfl

/-- Witness for C10 at the concrete invocation `prog 2 7`. -/
theorem claim_c10_success_unconditional_witness :
    mainModel [['p'], ['2'], ['7']] true = MainRes.runSuccess 2 7 ∧
    exitCodeOf (mainModel [['p'], ['2'], ['7']] true) = exitSuccess ∧
    spawnsThreads (mainModel [['p'], ['2'], ['7']] true) = true :=
  claim_c10_success_unconditional ['p'] ['2'] ['7'] 2 7 (by decide) (by decide)
    (by decide) (by decide)

/-- **C8**: in a successful run with `n` workers, every component of the
shared synchronization state — `actual_ticket`/`next_ticket` (CurrentTurn
and the counter), `ticket_mutex` (statically initialized only, never
destroyed), and `section_mutex`/`section_cond` — is initialized before any
worker thread is created, and the teardown (`pthread_mutex_destroy`/
`pthread_cond_destroy`, lines 280-281) happens only after every worker has
been joined: in `mainTrace n` every init event precedes every spawn, and
every join precedes every teardown. -/
theorem claim_c8_sync_lifecycle : ∀ (n : Nat),
    (LifeEv.staticInitTicketMutex ∈ mainTrace n ∧
     LifeEv.staticInitActualTicket ∈ mainTrace n ∧
     LifeEv.initSectionMutex ∈ mainTrace n ∧ LifeEv.initSectionCond ∈ mainTrace n) ∧
    (∀ (i j : Nat) (e f : LifeEv), (mainTrace n)[i]? = some e →
       (mainTrace n)[j]? = some f → e.isSyncInit = true → f.isSpawn = true →
       i < j) ∧
    (∀ (i j : Nat) (e f : LifeEv), (mainTrace n)[i]? = some e →
       (mainTrace n)[j]? = some f → e.isJoin = true → f.isTeardown = true →
       i < j) := by
  intro n
  have hform : mainTrace n =
      [LifeEv.staticInitTicketMutex, LifeEv.staticInitSectionMutex,
       LifeEv.staticInitSectionCond, LifeEv.staticInitActualTicket,
       LifeEv.staticInitNextTicket, LifeEv.initSectionMutex,
       LifeEv.initSectionCond] ++
      ((List.range n).map LifeEv.spawn ++ ((List.range n).map LifeEv.join ++
       [LifeEv.freeThreads, LifeEv.freeParams, LifeEv.destroySectionMutex,
        LifeEv.destroySectionCond])) := by
    simp [mainTrace, List.append_assoc]
  have hform2 : mainTrace n =
      (([LifeEv.staticInitTicketMutex, LifeEv.staticInitSectionMutex,
         LifeEv.staticInitSectionCond, LifeEv.staticInitActualTicket,
         LifeEv.staticInitNextTicket, LifeEv.initSectionMutex,
         LifeEv.initSectionCond] ++
        (List.range n).map LifeEv.spawn) ++ (List.range n).map LifeEv.join) ++
      [LifeEv.freeThreads, LifeEv.freeParams, LifeEv.destroySectionMutex,
       LifeEv.destroySectionCond] := rfl
  refine ⟨⟨?_, ?_, ?_, ?_⟩, ?_, ?_⟩
  · simp [mainTrace]
  · simp [mainTrace]
  · simp [mainTrace]
  · simp [mainTrace]
  · intro i j e f hi hj he hf
    have hi7 : i < 7 := by
      by_contra hge
      push_neg at hge
      rw [hform] at hi
      have hmem := getElem?_in_suffix hi hge
      rcases List.mem_append.mp hmem with hmem | hmem
      · obtain ⟨k, -, rfl⟩ := List.mem_map.mp hmem
        simp [LifeEv.isSyncInit] at he
      · rcases List.mem_append.mp hmem with hmem | hmem
        · obtain ⟨k, -, rfl⟩ := List.mem_map.mp hmem
          simp [LifeEv.isSyncInit] at he
        · simp only [List.mem_cons, List.not_mem_nil, or_false] at hmem
          rcases hmem with rfl | rfl | rfl | rfl <;> simp [LifeEv.isSyncInit] at he
    have hj7 : 7 ≤ j := by
      by_contra hlt
      push_neg at hlt
      rw [hform] at hj
      have hmem := getElem?_in_prefix hj hlt
      simp only [List.mem_cons, List.not_mem_nil, or_false] at hmem
      rcases hmem with rfl | rfl | rfl | rfl | rfl | rfl | rfl <;>
        simp [LifeEv.isSpawn] at hf
    omega
  · intro i j e f hi hj he hf
    have hlen : (([LifeEv.staticInitTicketMutex, LifeEv.staticInitSectionMutex,
         LifeEv.staticInitSectionCond, LifeEv.staticInitActualTicket,
         LifeEv.staticInitNextTicket, LifeEv.initSectionMutex,
         LifeEv.initSectionCond] ++
        (List.range n).map LifeEv.spawn) ++
        (List.range n).map LifeEv.join).length = 7 + n + n := by
      simp only [List.length_append, List.length_map, List.length_range,
        List.length_cons, List.length_nil]
    have hi2 : i < 7 + n + n := by
      by_contra hge
      push_neg at hge
      rw [hform2] at hi
      have hmem := getElem?_in_suffix hi (by omega)
      simp only [List.mem_cons, List.not_mem_nil, or_false] at hmem
      rcases hmem with rfl | rfl | rfl | rfl <;> simp [LifeEv.isJoin] at he
    have hj2 : 7 + n + n ≤ j := by
      by_contra hlt
      push_neg at hlt
      rw [hform2] at hj
      have hmem := getElem?_in_prefix hj (by omega)
      rcases List.mem_append.mp hmem with hmem | hmem
      · rcases List.mem_append.mp hmem with hmem | hmem
        · simp only [List.mem_cons, List.not_mem_nil, or_false] at hmem
          rcases hmem with rfl | rfl | rfl | rfl | rfl | rfl | rfl <;>
            simp [LifeEv.isTeardown] at hf
        · obtain ⟨k, -, rfl⟩ := List.mem_map.mp hmem
          simp [LifeEv.isTeardown] at hf
      · obtain ⟨k, -, rfl⟩ := List.mem_map.mp hmem
        simp [LifeEv.isTeardown] at hf
    omega

/-- Witness for C8 at `n = 1`: the static init of `ticket_mutex` (index 0)
precedes the spawn (index 7), and the join (index 8) precedes the
`pthread_mutex_destroy` (index 11). -/
theorem claim_c8_sync_lifecycle_witness : (0 : Nat) < 7 ∧ (8 : Nat) < 11 := by
  refine ⟨?_, ?_⟩
  · exact (claim_c8_sync_lifecycle 1).2.1 0 7 LifeEv.staticInitTicketMutex
      (LifeEv.spawn 0) (by decide) (by decide) (by decide) (by decide)
  · exact (claim_c8_sync_lifecycle 1).2.2 8 11 (LifeEv.join 0)
      LifeEv.destroySectionMutex (by decide) (by decide) (by decide) (by decide)

end Proj2
